import Mathlib

/-!
SharkPort save containers (`src/gba/sharkport.c`)

A shallow embedding of the three routines of `sharkport.c`

* `GBASavedataSharkPortPayloadSize` (the container scanner),
* `GBASavedataSharkPortGetPayload` (the payload extractor),
* `GBASavedataImportSharkPort` / `GBASavedataExportSharkPort` (the reconciler),

followed by theorems about them.

Conventions of the embedding:

* a byte is a natural number below 256; a buffer is a `List Nat`;
* 32-bit unsigned values are naturals reduced `% 2 ^ 32`, signed 32-bit values are `Int`;
* the byte stream (`struct VFile`), the cartridge header, the save-memory region and the
  `SIZE_CART_*` constants are declared in headers that are not part of the source slice and are
  modelled from the specification;
* two behaviours the C standard leaves to the implementation are parameters (`Impl`):
  whether plain `char` is signed, and whether `malloc(0)` returns a null pointer.
-/

namespace SharkPort

/-! ## Constants and save-memory model -/

/-- Modelled from the spec: capacity of battery-backed SRAM (`SIZE_CART_SRAM`, declared in
`gba/memory.h`, outside the source slice). -/
def SIZE_CART_SRAM : Nat := 0x8000

/-- Modelled from the spec: capacity of the small flash type (`SIZE_CART_FLASH512`). -/
def SIZE_CART_FLASH512 : Nat := 0x10000

/-- Modelled from the spec: capacity of the large flash type, the maximum supported save size
(`SIZE_CART_FLASH1M`). -/
def SIZE_CART_FLASH1M : Nat := 0x20000

/-- Modelled from the spec: capacity of the large EEPROM variant (`SIZE_CART_EEPROM`). -/
def SIZE_CART_EEPROM : Nat := 0x2000

/-- Modelled from the spec: capacity of the small EEPROM variant (`SIZE_CART_EEPROM512`). -/
def SIZE_CART_EEPROM512 : Nat := 0x200

/-- Modelled from the spec: `enum SavedataType` (declared in `gba/savedata.h`): small and large
flash, the two EEPROM variants, battery-backed SRAM and the two sentinels. -/
inductive SavedataType where
  | SAVEDATA_AUTODETECT
  | SAVEDATA_FORCE_NONE
  | SAVEDATA_SRAM
  | SAVEDATA_FLASH512
  | SAVEDATA_FLASH1M
  | SAVEDATA_EEPROM
  | SAVEDATA_EEPROM512
deriving DecidableEq, Repr

open SavedataType

/-- Modelled from the spec: the save-memory region (`struct GBASavedata`): its declared type, its
data bytes, and whether a persistent backing store is attached (`vf != NULL`). -/
structure GBASavedata where
  type : SavedataType
  data : List Nat
  vf : Bool
deriving DecidableEq, Repr

/-- Modelled from the spec: the size a save type declares. -/
def savedataTypeSize : SavedataType → Nat
  | SAVEDATA_SRAM => SIZE_CART_SRAM
  | SAVEDATA_FLASH512 => SIZE_CART_FLASH512
  | SAVEDATA_FLASH1M => SIZE_CART_FLASH1M
  | SAVEDATA_EEPROM => SIZE_CART_EEPROM
  | SAVEDATA_EEPROM512 => SIZE_CART_EEPROM512
  | SAVEDATA_FORCE_NONE => 0
  | SAVEDATA_AUTODETECT => 0

/-- Modelled from the spec: `GBASavedataSize`, the declared size of the save-memory region, derived
from its type (the function lives in `gba/savedata.c`, outside the source slice). -/
def GBASavedataSize (sd : GBASavedata) : Nat :=
  savedataTypeSize sd.type

/-- Modelled from the spec: `GBASavedataForceType`, the external reconfiguration call: the region
takes the new type and its data area the new capacity; bytes already present are kept and a
grown area is filled with erased-flash bytes (0xFF). -/
def GBASavedataForceType (sd : GBASavedata) (t : SavedataType) : GBASavedata :=
  if sd.type = t then sd
  else
    { sd with
      type := t
      data := (sd.data ++ List.replicate (savedataTypeSize t - sd.data.length) 0xFF).take
        (savedataTypeSize t) }

/-- Modelled from the spec: the cartridge identity read from the ROM header
(`struct GBACartridge`): `char title[12]`, the four bytes of `uint32_t id` that follow it in
memory, `uint16_t maker` and `uint8_t checksum`. -/
structure GBACartridge where
  title : List Nat
  id : List Nat
  maker : Nat
  checksum : Nat
deriving DecidableEq, Repr

/-- The part of `struct GBA` the routines touch: the cartridge header and the save memory. -/
structure GBA where
  rom : GBACartridge
  savedata : GBASavedata
deriving DecidableEq, Repr

/-- Implementation-defined C behaviour the source depends on. -/
structure Impl where
  /-- plain `char` is a signed type (x86) rather than unsigned (PowerPC, ARM) -/
  charSigned : Bool
  /-- `malloc(0)` returns a null pointer rather than a unique non-null one -/
  mallocZeroNull : Bool
deriving DecidableEq, Repr

/-! ## Byte order helpers (`LOAD_32`, `STORE_32`, `LOAD_32BE`, `STORE_32LE`) -/

/-- `LOAD_32(dst, off, buf)`: little-endian 32-bit load, as an unsigned value. -/
def LOAD_32 (buf : List Nat) (off : Nat) : Nat :=
  (buf.getD off 0 + 2 ^ 8 * buf.getD (off + 1) 0 + 2 ^ 16 * buf.getD (off + 2) 0
    + 2 ^ 24 * buf.getD (off + 3) 0) % 2 ^ 32

/-- `LOAD_32BE(dst, off, buf)`: big-endian 32-bit load. -/
def LOAD_32BE (buf : List Nat) (off : Nat) : Nat :=
  (2 ^ 24 * buf.getD off 0 + 2 ^ 16 * buf.getD (off + 1) 0 + 2 ^ 8 * buf.getD (off + 2) 0
    + buf.getD (off + 3) 0) % 2 ^ 32

/-- Reinterpretation of a 32-bit pattern as `int32_t`. -/
def toInt32 (u : Nat) : Int :=
  if u % 2 ^ 32 < 2 ^ 31 then ((u % 2 ^ 32 : Nat) : Int) else ((u % 2 ^ 32 : Nat) : Int) - 2 ^ 32

/-- The four bytes `STORE_32(v, 0, &buffer.i)` leaves at the start of the scratch buffer
(little-endian). -/
def STORE_32 (v : Nat) : List Nat :=
  [v % 256, v / 2 ^ 8 % 256, v / 2 ^ 16 % 256, v / 2 ^ 24 % 256]

/-- `STORE_32LE(v, off, data)`: little-endian 32-bit store into a buffer. -/
def STORE_32LE (v : Nat) (off : Nat) (data : List Nat) : List Nat :=
  (((data.set off (v % 256)).set (off + 1) (v / 2 ^ 8 % 256)).set (off + 2)
    (v / 2 ^ 16 % 256)).set (off + 3) (v / 2 ^ 24 % 256)

/-! ## The byte stream -/

/-- Modelled from the spec: the byte-stream abstraction (`struct VFile`, declared in
`mgba-util/vfs.h`): the bytes of the file and a cursor; reads and writes report byte counts and a
seek past the file bounds fails. -/
structure VFile where
  mem : List Nat
  offset : Nat
deriving DecidableEq, Repr

/-- Modelled from the spec: `vf->read(vf, buf, n)`: the bytes obtained (at most `n`, fewer at the
end of the file; the reported count is their number) and the advanced stream. -/
def VFile.read (vf : VFile) (n : Nat) : List Nat × VFile :=
  let got := (vf.mem.drop vf.offset).take n
  (got, { vf with offset := vf.offset + got.length })

/-- Modelled from the spec: `vf->seek(vf, d, SEEK_CUR)`: the new position, or `-1` with the cursor
unmoved when the target lies outside the file. -/
def VFile.seekCur (vf : VFile) (d : Int) : Int × VFile :=
  let pos : Int := (vf.offset : Int) + d
  if pos < 0 ∨ (vf.mem.length : Int) < pos then (-1, vf)
  else (pos, { vf with offset := pos.toNat })

/-- Modelled from the spec: `vf->write(vf, buf, n)` when the stream accepts `granted` bytes of the
request: the reported count and the stream with the accepted bytes stored at the cursor. -/
def VFile.write (vf : VFile) (buf : List Nat) (granted : Nat) : Nat × VFile :=
  let w := buf.take granted
  (w.length,
    { mem := vf.mem.take vf.offset ++ w ++ vf.mem.drop (vf.offset + w.length)
      offset := vf.offset + w.length })

/-! ## `GBASavedataSharkPortPayloadSize` -/

/-- `SHARKPORT_HEADER`, the bytes of the string "SharkPortSave". -/
def SHARKPORT_HEADER : List Nat :=
  [0x53, 0x68, 0x61, 0x72, 0x6B, 0x50, 0x6F, 0x72, 0x74, 0x53, 0x61, 0x76, 0x65]

/-- One "skip a field" step of the scanner (lines 44-50, repeated at 52-58 and 60-66): read a
32-bit length and seek forward by it; `none` stands for the `return 0` exits. -/
def skipField (vf : VFile) : Option Unit × VFile :=
  let (b, vf) := vf.read 4
  if b.length < 4 then (none, vf)
  else
    let size := toInt32 (LOAD_32 b 0)
    let (r, vf) := vf.seekCur size
    if r < 0 then (none, vf) else (some (), vf)

/-- `GBASavedataSharkPortPayloadSize(vf)`: the returned `int` and the stream afterwards. -/
def GBASavedataSharkPortPayloadSize (vf : VFile) : Int × VFile :=
  let vf : VFile := { vf with offset := 0 }
  let (b, vf) := vf.read 4
  if b.length < 4 then (0, vf)
  else
    let size := toInt32 (LOAD_32 b 0)
    if size ≠ (SHARKPORT_HEADER.length : Int) then (0, vf)
    else
      let (b, vf) := vf.read size.toNat
      if (b.length : Int) < size then (0, vf)
      else if SHARKPORT_HEADER ≠ b then (0, vf)
      else
        let (b, vf) := vf.read 4
        if b.length < 4 then (0, vf)
        else
          let size := toInt32 (LOAD_32 b 0)
          if size ≠ 0x000F0000 then (0, vf)
          else
            match skipField vf with
            | (none, vf) => (0, vf)
            | (some _, vf) =>
              match skipField vf with
              | (none, vf) => (0, vf)
              | (some _, vf) =>
                match skipField vf with
                | (none, vf) => (0, vf)
                | (some _, vf) =>
                  let (b, vf) := vf.read 4
                  if b.length < 4 then (0, vf)
                  else (toInt32 (LOAD_32 b 0), vf)

/-! ## The rolling checksum -/

/-- `(int32_t) b` for a `uint8_t` byte, as a 32-bit pattern. -/
def zeroExtend (b : Nat) : Nat := b % 256

/-- `(int32_t) b` for an `int8_t` byte, as a 32-bit two's-complement pattern. -/
def signExtend (b : Nat) : Nat :=
  if b % 256 < 128 then b % 256 else b % 256 + (2 ^ 32 - 256)

/-- The promotion of a plain `char` to `int`, which depends on the signedness of `char`. -/
def charExtend (impl : Impl) (b : Nat) : Nat :=
  if impl.charSigned then signExtend b else zeroExtend b

/-- One loop body `checksum += x << (checksum % 24)` on `uint32_t`, with `x` the 32-bit pattern of
the promoted byte (the shift and the addition wrap modulo `2 ^ 32`). -/
def checksumStep (ext : Nat → Nat) (c : Nat) (b : Nat) : Nat :=
  (c + ext b * 2 ^ (c % 24)) % 2 ^ 32

/-- A checksum loop over a buffer, from running state `c`. -/
def checksumLoop (ext : Nat → Nat) (c : Nat) (buf : List Nat) : Nat :=
  buf.foldl (checksumStep ext) c

/-- The checksum recomputed by the verifier (lines 100-107): `uint8_t header[]` bytes are
zero-extended, `int8_t* payload` bytes are sign-extended. -/
def calcChecksum (header payload : List Nat) : Nat :=
  checksumLoop signExtend (checksumLoop zeroExtend 0 header) payload

/-- The reference rolling sum in the words of the specification: every byte sign-extended to
32 bits, shifted left by the running total modulo 24, added modulo `2 ^ 32`, starting from 0. -/
def referenceChecksum (bytes : List Nat) : Nat :=
  bytes.foldl (fun c b => (c + signExtend b * 2 ^ (c % 24)) % 2 ^ 32) 0

/-! ## `GBASavedataSharkPortGetPayload` -/

/-- What a successful extraction hands to the caller: `*osize`, `oheader` and the buffer. -/
structure Payload where
  size : Nat
  header : List Nat
  payload : List Nat
deriving DecidableEq, Repr

/-- Outcome of `GBASavedataSharkPortGetPayload`: the returned buffer (`none` for `NULL`), the
stream afterwards, and the allocation ledger of the call (`mallocs` buffers obtained from
`malloc`, `frees` buffers handed to `free`). -/
structure GetPayloadResult where
  ret : Option Payload
  vf : VFile
  mallocs : Nat
  frees : Nat
deriving DecidableEq, Repr

/-- `GBASavedataSharkPortGetPayload(vf, osize, oheader, testChecksum)`. -/
def GBASavedataSharkPortGetPayload (impl : Impl) (vf : VFile) (testChecksum : Bool) :
    GetPayloadResult :=
  let (size, vf) := GBASavedataSharkPortPayloadSize vf
  if size < 0x1C ∨ size > (SIZE_CART_FLASH1M : Int) + 0x1C then ⟨none, vf, 0, 0⟩
  else
    let size := (size - 0x1C).toNat
    -- payload = malloc(size): null only for a zero-size request, when the allocator does that
    let isNull : Bool := decide (size = 0) && impl.mallocZeroNull
    let m := if isNull = true then 0 else 1
    let (header, vf) := vf.read 0x1C
    if header.length < 0x1C then ⟨none, vf, m, m⟩
    else
      let (payload, vf) := vf.read size
      if payload.length < size then ⟨none, vf, m, m⟩
      else
        let (buffer, vf) := vf.read 4
        if buffer.length < 4 then ⟨none, vf, m, m⟩
        else
          let checksum := LOAD_32 buffer 0
          if testChecksum = true ∧ calcChecksum header payload ≠ checksum then
            -- line 110: `return NULL` without reaching `cleanup`
            ⟨none, vf, m, 0⟩
          else if isNull = true then ⟨none, vf, m, 0⟩
          else ⟨some ⟨size, header, payload⟩, vf, m, 0⟩

/-! ## `GBASavedataImportSharkPort` -/

/-- The 28-byte region header both directions build from the cartridge (lines 137-149 and
249-261): 16 bytes copied from `&cart->title`, two zero bytes, the checksum byte, the low byte of
the maker code, the constant 1 and seven zero bytes. -/
def cartHeader (cart : GBACartridge) : List Nat :=
  ((cart.title ++ cart.id) ++ List.replicate 16 0).take 16
    ++ [0, 0, cart.checksum % 256, cart.maker % 256, 1, 0, 0, 0, 0, 0, 0, 0]

/-- `memcmp(a, b, n) != 0`. -/
def memcmpNe (a b : List Nat) (n : Nat) : Bool :=
  decide (a.take n ≠ b.take n)

/-- `memcpy(dst, src, n)` into the start of `dst`. -/
def memcpy (dst src : List Nat) (n : Nat) : List Nat :=
  src.take n ++ dst.drop n

/-- The EEPROM copy loop of lines 173-179, from index `i`, with `fuel` bounding the number of
iterations. -/
def importEepromLoop : Nat → Nat → Nat → List Nat → List Nat → List Nat
  | 0, _, _, _, data => data
  | fuel + 1, i, size, payload, data =>
    if i < size then
      let lo := LOAD_32BE payload i
      let hi := LOAD_32BE payload (i + 4)
      let data := STORE_32LE hi i data
      let data := STORE_32LE lo (i + 4) data
      importEepromLoop fuel (i + 8) size payload data
    else data

/-- Number of header bytes compared at line 150: `testChecksum ? 0x1C : 0xF`. -/
def comparedPrefix (testChecksum : Bool) : Nat :=
  if testChecksum then 0x1C else 0xF

/-- Lines 155-158: a small-flash region receiving more than its capacity is forced to the large
flash type; every other region is left as it is. -/
def importTarget (sd : GBASavedata) (size : Nat) : GBASavedata :=
  if sd.type = SAVEDATA_FLASH512 ∧ size > SIZE_CART_FLASH512 then
    GBASavedataForceType sd SAVEDATA_FLASH1M
  else sd

/-- Lines 161-163: the length is clamped to the declared size of the region. -/
def importLength (sd : GBASavedata) (size : Nat) : Nat :=
  if size > GBASavedataSize sd then GBASavedataSize sd else size

/-- Lines 171-182: the copy into save memory, chosen by the length. -/
def importCopy (data payload : List Nat) (size : Nat) : List Nat :=
  if size = SIZE_CART_EEPROM ∨ size = SIZE_CART_EEPROM512 then
    importEepromLoop size 0 size payload data
  else memcpy data payload size

/-- Outcome of `GBASavedataImportSharkPort`: the returned flag, the save memory and the stream
afterwards, the allocation ledger, the final value of `size` (0 on failure) and the length
passed to the backing store's `sync`, when there is one. -/
structure ImportResult where
  success : Bool
  savedata : GBASavedata
  vf : VFile
  mallocs : Nat
  frees : Nat
  size : Nat
  synced : Option Nat
deriving DecidableEq, Repr

/-- `GBASavedataImportSharkPort(gba, vf, testChecksum)`. -/
def GBASavedataImportSharkPort (impl : Impl) (gba : GBA) (vf : VFile) (testChecksum : Bool) :
    ImportResult :=
  let r := GBASavedataSharkPortGetPayload impl vf testChecksum
  match r.ret with
  | none => ⟨false, gba.savedata, r.vf, r.mallocs, r.frees, 0, none⟩
  | some p =>
    let buffer := cartHeader gba.rom
    if memcmpNe buffer p.header (comparedPrefix testChecksum) = true then
      ⟨false, gba.savedata, r.vf, r.mallocs, r.frees + 1, 0, none⟩
    else
      match gba.savedata.type with
      | SAVEDATA_FORCE_NONE => ⟨false, gba.savedata, r.vf, r.mallocs, r.frees + 1, 0, none⟩
      | SAVEDATA_AUTODETECT => ⟨false, gba.savedata, r.vf, r.mallocs, r.frees + 1, 0, none⟩
      | _ =>
        let sd := importTarget gba.savedata p.size
        let size := importLength sd p.size
        ⟨true, { sd with data := importCopy sd.data p.payload size }, r.vf, r.mallocs,
          r.frees + 1, size, if sd.vf = true then some size else none⟩

/-! ## `GBASavedataExportSharkPort` -/

/-- `strftime(&buffer.c[4], sizeof(buffer.c) - 4, fmt, tm)` for a formatted time `ts`: the length
when the string and its terminator fit in the 24 bytes, else 0. -/
def strftimeLen (ts : List Nat) : Nat :=
  if ts.length < 0x1C - 4 then ts.length else 0

/-- The EEPROM payload loop of lines 274-278 from index `i`, with `n` iterations left: each byte
`data[i ^ 7]` enters the checksum and is written by an unchecked one-byte `write`; `accept k`
is the number of bytes the stream accepts on write call `k`. -/
def exportEepromLoop (impl : Impl) (accept : Nat → Nat → Nat) (data : List Nat) :
    Nat → Nat → Nat → Nat → VFile → Nat × VFile
  | 0, _, _, checksum, vf => (checksum, vf)
  | n + 1, i, k, checksum, vf =>
    let byte := data.getD (i ^^^ 7) 0
    let checksum := checksumStep (charExtend impl) checksum byte
    let (_, vf) := vf.write [byte] (accept k 1)
    exportEepromLoop impl accept data n (i + 1) (k + 1) checksum vf

/-- `GBASavedataExportSharkPort(gba, vf)`: the returned flag and the stream afterwards. The
environment is explicit: `ts` is the string `strftime` formats for the current time, and write
call number `k` (counted from 0) of `n` bytes is accepted up to `accept k n` bytes. -/
def GBASavedataExportSharkPort (impl : Impl) (accept : Nat → Nat → Nat) (ts : List Nat)
    (gba : GBA) (vf : VFile) : Bool × VFile :=
  let size := SHARKPORT_HEADER.length
  let (n, vf) := vf.write (STORE_32 size) (accept 0 4)
  if n < 4 then (false, vf)
  else
    let (n, vf) := vf.write SHARKPORT_HEADER (accept 1 size)
    if n < size then (false, vf)
    else
      let (n, vf) := vf.write (STORE_32 0x000F0000) (accept 2 4)
      if n < 4 then (false, vf)
      else
        let cart := gba.rom
        let size := 12
        let (n, vf) := vf.write (STORE_32 size) (accept 3 4)
        if n < 4 then (false, vf)
        else
          let (n, vf) := vf.write ((cart.title ++ List.replicate size 0).take size) (accept 4 size)
          if n < 4 then (false, vf)
          else
            let size := strftimeLen ts
            let (n, vf) := vf.write (STORE_32 size ++ ts.take size) (accept 5 (size + 4))
            if n < size + 4 then (false, vf)
            else
              let (n, vf) := vf.write (STORE_32 0) (accept 6 4)
              if n < 4 then (false, vf)
              else
                let size := (0x1C + GBASavedataSize gba.savedata) % 2 ^ 32
                if size = 0x1C then (false, vf)
                else
                  let (n, vf) := vf.write (STORE_32 size) (accept 7 4)
                  if n < 4 then (false, vf)
                  else
                    let size := size - 0x1C
                    let buffer := cartHeader cart
                    let (n, vf) := vf.write buffer (accept 8 0x1C)
                    if n < 0x1C then (false, vf)
                    else
                      let checksum := checksumLoop (charExtend impl) 0 buffer
                      if gba.savedata.type = SAVEDATA_EEPROM then
                        let (checksum, vf) :=
                          exportEepromLoop impl accept gba.savedata.data size 0 9 checksum vf
                        let (n, vf) := vf.write (STORE_32 checksum) (accept (9 + size) 4)
                        if n < 4 then (false, vf) else (true, vf)
                      else
                        let (n, vf) := vf.write (gba.savedata.data.take size) (accept 9 size)
                        if n < size then (false, vf)
                        else
                          let checksum :=
                            checksumLoop (charExtend impl) checksum (gba.savedata.data.take size)
                          let (n, vf) := vf.write (STORE_32 checksum) (accept 10 4)
                          if n < 4 then (false, vf) else (true, vf)

/-! ## Containers -/

/-- The bytes of a container up to and including the payload-length field (layout table of the
specification): magic length and string, format tag, three length-prefixed fields, declared
payload length `P`. -/
def containerPrefix (f1 f2 f3 : List Nat) (P : Nat) : List Nat :=
  STORE_32 13 ++ (SHARKPORT_HEADER ++ (STORE_32 0x000F0000 ++ (STORE_32 f1.length ++ (f1 ++
    (STORE_32 f2.length ++ (f2 ++ (STORE_32 f3.length ++ (f3 ++ STORE_32 P))))))))


/-- Every write is accepted in full. -/
def acceptAll : Nat → Nat → Nat := fun _ n => n

/-- The 28 bytes (fewer at the end of the file) the stream holds after the payload-length field:
the container's region header. -/
def containerHeader (vf : VFile) : List Nat :=
  ((GBASavedataSharkPortPayloadSize vf).2.read 0x1C).1


/-! ## Layouts and transforms in the words of the specification -/

/-- The payload bytes the EEPROM branch of the export emits (lines 274-278), for `n` indices
from `i` on: payload byte `j` is save-memory byte `j ^ 7`. -/
def eepromEmit (data : List Nat) (i n : Nat) : List Nat :=
  (List.range' i n).map (fun j => data.getD (j ^^^ 7) 0)

/-- The payload section of an export: the save-memory bytes, reindexed for `SAVEDATA_EEPROM`. -/
def exportPayload (gba : GBA) : List Nat :=
  if gba.savedata.type = SAVEDATA_EEPROM then
    eepromEmit gba.savedata.data 0 (GBASavedataSize gba.savedata)
  else gba.savedata.data.take (GBASavedataSize gba.savedata)

/-- The checksum the exporter accumulates over the region header and the payload as emitted
(lines 266-285), every byte promoted as plain `char`. -/
def exportChecksum (impl : Impl) (gba : GBA) : Nat :=
  checksumLoop (charExtend impl) 0 (cartHeader gba.rom ++ exportPayload gba)

/-- The container layout in the words of the specification, for a timestamp `ts`: magic length
and string, format tag, title field, timestamp field, empty field, payload length
`28 + size`, region header, payload, checksum. -/
def exportLayout (impl : Impl) (ts : List Nat) (gba : GBA) : List Nat :=
  STORE_32 13 ++ SHARKPORT_HEADER ++ STORE_32 0x000F0000 ++ STORE_32 12 ++
    (gba.rom.title ++ List.replicate 12 0).take 12 ++ STORE_32 ts.length ++ ts ++ STORE_32 0 ++
    STORE_32 (28 + GBASavedataSize gba.savedata) ++ cartHeader gba.rom ++ exportPayload gba ++
    STORE_32 (exportChecksum impl gba)

/-- Every write is reported complete. -/
def Completes (accept : Nat → Nat → Nat) : Prop := ∀ k n, n ≤ accept k n

/-- Layout table of the specification: the offset just past the length-prefixed field that starts
at `pos`, when its 4-byte length prefix lies within the file and the (signed) length leads to a
position within the file. -/
def fieldEnd (mem : List Nat) (pos : Nat) : Option Nat :=
  if pos + 4 ≤ mem.length then
    if 0 ≤ ((pos + 4 : Nat) : Int) + toInt32 (LOAD_32 mem pos) ∧
        ((pos + 4 : Nat) : Int) + toInt32 (LOAD_32 mem pos) ≤ (mem.length : Int) then
      some (((pos + 4 : Nat) : Int) + toInt32 (LOAD_32 mem pos)).toNat
    else none
  else none

/-- Layout table of the specification: the offset of the payload-length field, after the three
length-prefixed metadata fields that start at offset 21. -/
def payloadLengthOffset (mem : List Nat) : Option Nat :=
  (fieldEnd mem 21).bind fun p1 => (fieldEnd mem p1).bind fun p2 => fieldEnd mem p2

/-- Layout table of the specification: magic length 13, magic string and format tag are in
place. -/
def headerValid (mem : List Nat) : Prop :=
  4 ≤ mem.length ∧ LOAD_32 mem 0 = 13 ∧ (mem.drop 4).take 13 = SHARKPORT_HEADER ∧
    21 ≤ mem.length ∧ LOAD_32 mem 17 = 0x000F0000

instance (mem : List Nat) : Decidable (headerValid mem) := by
  unfold headerValid
  infer_instance

/-- The declared payload length of a stream in the words of the specification: the
payload-length field read as a signed 32-bit value when the fixed header is valid and the three
metadata fields and the length field lie within the file, and the sentinel 0 otherwise. -/
def declaredLength (mem : List Nat) : Int :=
  if headerValid mem then
    match payloadLengthOffset mem with
    | some q => if q + 4 ≤ mem.length then toInt32 (LOAD_32 mem q) else 0
    | none => 0
  else 0

/-- The double-word swap in the words of the specification, for the 8-byte block at offset `i`
of a payload: its two big-endian 32-bit words, in swapped order, each stored little-endian. -/
def eepromSwapBlock (payload : List Nat) (i : Nat) : List Nat :=
  STORE_32 (LOAD_32BE payload (i + 4)) ++ STORE_32 (LOAD_32BE payload i)

/-- The swapped images of `n` consecutive 8-byte blocks of a payload, from offset `i` on. -/
def eepromSwapBlocks (payload : List Nat) : Nat → Nat → List Nat
  | _, 0 => []
  | i, n + 1 => eepromSwapBlock payload i ++ eepromSwapBlocks payload (i + 8) n

/-- The metadata section of an export (lines 198-236), written before the size is looked at:
magic length and string, format tag, title field, timestamp field, empty field. -/
def exportMetadata (ts : List Nat) (gba : GBA) : List Nat :=
  STORE_32 13 ++ SHARKPORT_HEADER ++ STORE_32 0x000F0000 ++ STORE_32 12 ++
    (gba.rom.title ++ List.replicate 12 0).take 12 ++ STORE_32 ts.length ++ ts ++ STORE_32 0

/-- The exchange of the bytes at positions `i` and `j` of a buffer. -/
def exchange (l : List Nat) (i j : Nat) : List Nat :=
  (l.set i (l.getD j 0)).set j (l.getD i 0)

/-- The EEPROM copy loop of lines 173-179 with the bounds of both buffers enforced: `none` as
soon as an iteration would load a payload byte at or beyond `payload.length` or store a
save-memory byte at or beyond `data.length` (each iteration touches offsets `i .. i + 7` of
both). -/
def importEepromLoopChecked : Nat → Nat → Nat → List Nat → List Nat → Option (List Nat)
  | 0, _, _, _, data => some data
  | fuel + 1, i, size, payload, data =>
    if i < size then
      if i + 8 ≤ payload.length ∧ i + 8 ≤ data.length then
        let lo := LOAD_32BE payload i
        let hi := LOAD_32BE payload (i + 4)
        let data := STORE_32LE hi i data
        let data := STORE_32LE lo (i + 4) data
        importEepromLoopChecked fuel (i + 8) size payload data
      else none
    else some data

/-- Lines 171-182 with the bounds of both buffers enforced: the swap loop as above, and the
`memcpy` of `size` bytes only when source and destination hold that many. -/
def importCopyChecked (data payload : List Nat) (size : Nat) : Option (List Nat) :=
  if size = SIZE_CART_EEPROM ∨ size = SIZE_CART_EEPROM512 then
    importEepromLoopChecked size 0 size payload data
  else if size ≤ payload.length ∧ size ≤ data.length then some (memcpy data payload size)
  else none

/-! ## Sample inputs -/

/-- A cartridge header whose header-checksum byte (offset 0x12 of the region header) has its top
bit set: title "ABCDEFGHIJKL", game code "ABCE", maker "01". -/
def sampleCart : GBACartridge :=
  { title := [0x41, 0x42, 0x43, 0x44, 0x45, 0x46, 0x47, 0x48, 0x49, 0x4A, 0x4B, 0x4C]
    id := [0x41, 0x42, 0x43, 0x45]
    maker := 0x3130
    checksum := 0x80 }

/-- The same cartridge with a header-checksum byte below 0x80. -/
def plainCart : GBACartridge := { sampleCart with checksum := 0x7F }

/-- A cartridge with another title ("ZBCDEFGHIJKL"). -/
def otherCart : GBACartridge :=
  { sampleCart with
    title := [0x5A, 0x42, 0x43, 0x44, 0x45, 0x46, 0x47, 0x48, 0x49, 0x4A, 0x4B, 0x4C] }

/-- The formatted time "01/02/2024 03:04:05 PM". -/
def sampleTime : List Nat :=
  [0x30, 0x31, 0x2F, 0x30, 0x32, 0x2F, 0x32, 0x30, 0x32, 0x34, 0x20, 0x30, 0x33, 0x3A, 0x30, 0x34,
    0x3A, 0x30, 0x35, 0x20, 0x50, 0x4D]

/-- A 32 KiB SRAM save: byte 0x80 followed by zeros. -/
def sramGBA : GBA :=
  { rom := sampleCart
    savedata := { type := SAVEDATA_SRAM, data := 0x80 :: List.replicate 0x7FFF 0, vf := false } }

/-- Freshly zeroed SRAM for the same cartridge. -/
def sramZeroed : GBA :=
  { rom := sampleCart
    savedata := { type := SAVEDATA_SRAM, data := List.replicate 0x8000 0, vf := false } }

/-- A 512-byte EEPROM save: byte 1 followed by zeros. -/
def eeprom512GBA : GBA :=
  { rom := plainCart
    savedata := { type := SAVEDATA_EEPROM512, data := 1 :: List.replicate 0x1FF 0, vf := false } }

/-- Freshly zeroed 512-byte EEPROM for the same cartridge. -/
def eeprom512Zeroed : GBA :=
  { rom := plainCart
    savedata := { type := SAVEDATA_EEPROM512, data := List.replicate 0x200 0, vf := false } }

/-- A region with the autodetect sentinel type. -/
def autodetectGBA : GBA :=
  { rom := sampleCart
    savedata := { type := SAVEDATA_AUTODETECT, data := [1, 2, 3, 4], vf := false } }

/-- A small-flash region, erased. -/
def flash512GBA : GBA :=
  { rom := sampleCart
    savedata :=
      { type := SAVEDATA_FLASH512, data := List.replicate SIZE_CART_FLASH512 0xFF, vf := true } }

/-- A container (empty metadata fields) with a region header `hdr`, a payload and four checksum
bytes. -/
def sampleContainer (hdr payload ck : List Nat) : VFile :=
  ⟨containerPrefix [] [] [] (payload.length + 0x1C) ++ (hdr ++ (payload ++ (ck ++ []))), 0⟩

/-- A structurally valid container that declares a payload length of 27. -/
def shortContainer : VFile :=
  ⟨containerPrefix [] [] [] 27 ++ List.replicate 31 0, 0⟩

/-- A container that declares a payload length of exactly 28: region header, no payload, and the
checksum the verifier computes. -/
def emptyPayloadContainer : VFile :=
  sampleContainer (cartHeader sampleCart) [] (STORE_32 (calcChecksum (cartHeader sampleCart) []))

/-- A one-byte-payload container sealed with the reference checksum of the specification. -/
def referenceSealed : VFile :=
  sampleContainer (cartHeader sampleCart) [0x2A]
    (STORE_32 (referenceChecksum (cartHeader sampleCart ++ [0x2A])))

/-- The same container sealed with the checksum the verifier computes. -/
def verifierSealed : VFile :=
  sampleContainer (cartHeader sampleCart) [0x2A]
    (STORE_32 (calcChecksum (cartHeader sampleCart) [0x2A]))

/-- A container for `otherCart` with a four-byte payload and a zero checksum field. -/
def foreignContainer : VFile :=
  sampleContainer (cartHeader otherCart) [1, 2, 3, 4] [0, 0, 0, 0]

/-- A container whose payload is one byte longer than the small flash. -/
def upgradeContainer : VFile :=
  sampleContainer (cartHeader sampleCart) (List.replicate (SIZE_CART_FLASH512 + 1) 0) [0, 0, 0, 0]

/-- A container whose payload is one byte longer than SRAM. -/
def oversizedContainer : VFile :=
  sampleContainer (cartHeader sampleCart) (List.replicate (SIZE_CART_SRAM + 1) 7) [0, 0, 0, 0]

/-- A 24-byte formatted time, "01/02/2024 03:04:05 p.m.". -/
def longTime : List Nat :=
  [0x30, 0x31, 0x2F, 0x30, 0x32, 0x2F, 0x32, 0x30, 0x32, 0x34, 0x20, 0x30, 0x33, 0x3A, 0x30, 0x34,
    0x3A, 0x30, 0x35, 0x20, 0x70, 0x2E, 0x6D, 0x2E]

/-- A stream with the right magic and a format tag of 0x000F0001. -/
def badTagStream : VFile :=
  ⟨STORE_32 13 ++ SHARKPORT_HEADER ++ STORE_32 0x000F0001 ++ List.replicate 20 0, 0⟩

/-- A structurally valid container whose payload-length field is `00 00 00 80`. -/
def topBitContainer : VFile :=
  ⟨containerPrefix [] [] [] 0x80000000 ++ List.replicate 32 0, 0⟩

/-- The container `verifierSealed` cut two bytes short of its end. -/
def truncatedContainer : VFile :=
  ⟨containerPrefix [] [] [] 29 ++ (cartHeader sampleCart ++ ([0x2A] ++ [0x11, 0x22])), 0⟩

/-- An 8 KiB EEPROM save. -/
def eepromGBA : GBA :=
  { rom := plainCart
    savedata := { type := SAVEDATA_EEPROM, data := List.replicate 0x2000 0x11, vf := false } }

/-- A stream that takes only 5 of the 12 bytes of write call 4 (the title) and everything else. -/
def shortTitleAccept : Nat → Nat → Nat := fun k n => if k = 4 then 5 else n

/-- A stream that takes nothing on write call 9 (the first payload write) and everything else. -/
def droppedPayloadAccept : Nat → Nat → Nat := fun k n => if k = 9 then 0 else n

/-- The sample block `00 01 02 03 04 05 06 07`. -/
def sampleBlock : List Nat := [0, 1, 2, 3, 4, 5, 6, 7]

/-- A payload of the length of the small EEPROM: the sample block followed by zeros. -/
def eepromSizedPayload : List Nat :=
  sampleBlock ++ List.replicate (SIZE_CART_EEPROM512 - 8) 0

/-- A container for `sampleCart` with that payload and a zero checksum field. -/
def eepromSizedContainer : VFile :=
  sampleContainer (cartHeader sampleCart) eepromSizedPayload [0, 0, 0, 0]

/-- A payload one byte longer than the small EEPROM: the sample block, zeros and a last byte
0x99. -/
def eepromOversizedPayload : List Nat :=
  eepromSizedPayload ++ [0x99]

/-- A container for `plainCart` with that payload and a zero checksum field. -/
def eepromOversizedContainer : VFile :=
  sampleContainer (cartHeader plainCart) eepromOversizedPayload [0, 0, 0, 0]

/-- A region header that starts `01 02` and is zero elsewhere. -/
def orderedHeader : List Nat := [1, 2] ++ List.replicate 26 0

/-- A container for `sampleCart` with a one-byte payload and a checksum field of zero, which is
not the checksum of its bytes. -/
def staleChecksumContainer : VFile :=
  sampleContainer (cartHeader sampleCart) [0x2A] [0, 0, 0, 0]

/-! ## Lemmas about the embedding -/

/-- The magic bytes are those of the string "SharkPortSave". -/
theorem SHARKPORT_HEADER_spec : SHARKPORT_HEADER = "SharkPortSave".toList.map Char.toNat := by
  decide

/-- The sample time is the string "01/02/2024 03:04:05 PM". -/
theorem sampleTime_spec : sampleTime = "01/02/2024 03:04:05 PM".toList.map Char.toNat := by
  decide

theorem VFile.read_length_le (vf : VFile) (n : Nat) : (vf.read n).1.length ≤ n := by
  simp [VFile.read, List.length_take]

theorem VFile.read_mem (vf : VFile) (n : Nat) : (vf.read n).2.mem = vf.mem := rfl

theorem VFile.read_offset (vf : VFile) (n : Nat) :
    (vf.read n).2.offset = vf.offset + (vf.read n).1.length := rfl

/-- A read of `b.length` bytes at a position where the stream holds `b` returns `b`. -/
theorem VFile.read_of_drop (mem : List Nat) (k : Nat) (b c : List Nat)
    (h : mem.drop k = b ++ c) :
    (VFile.mk mem k).read b.length = (b, ⟨mem, k + b.length⟩) := by
  simp [VFile.read, h]

theorem drop_add_of_drop (mem : List Nat) (k : Nat) (b c : List Nat)
    (h : mem.drop k = b ++ c) : mem.drop (k + b.length) = c := by
  rw [← List.drop_drop, h, List.drop_left]

/-- What a successful extraction implies: the declared length passed the size check, the
reported size is the declared length minus 28, header and payload are the bytes read from the
stream, and under verification the recomputed checksum matched the stored one. -/
theorem getPayload_some_inv (impl : Impl) (vf : VFile) (tc : Bool) (p : Payload)
    (h : (GBASavedataSharkPortGetPayload impl vf tc).ret = some p) :
    (0x1C : Int) ≤ (GBASavedataSharkPortPayloadSize vf).1 ∧
    (GBASavedataSharkPortPayloadSize vf).1 ≤ (SIZE_CART_FLASH1M : Int) + 0x1C ∧
    p.size = ((GBASavedataSharkPortPayloadSize vf).1 - 0x1C).toNat ∧
    p.header = ((GBASavedataSharkPortPayloadSize vf).2.read 0x1C).1 ∧
    p.header.length = 0x1C ∧
    p.payload = (((GBASavedataSharkPortPayloadSize vf).2.read 0x1C).2.read p.size).1 ∧
    p.payload.length = p.size ∧
    (p.size = 0 → impl.mallocZeroNull = false) ∧
    (tc = true → calcChecksum p.header p.payload =
      LOAD_32 ((((GBASavedataSharkPortPayloadSize vf).2.read 0x1C).2.read p.size).2.read 4).1 0) := by
  unfold GBASavedataSharkPortGetPayload at h
  simp only [] at h
  split_ifs at h with h1 h2 h3 h4 h5 h6
  simp only [Option.some.injEq] at h
  subst h
  dsimp only at *
  have hl1 := VFile.read_length_le (GBASavedataSharkPortPayloadSize vf).2 28
  have hl2 := VFile.read_length_le
    ((GBASavedataSharkPortPayloadSize vf).2.read 28).2
    ((GBASavedataSharkPortPayloadSize vf).1 - 28).toNat
  refine ⟨by omega, by omega, rfl, rfl, by omega, rfl, by omega, ?_, ?_⟩
  · intro h0
    cases hz : impl.mallocZeroNull
    · rfl
    · rw [h0, hz] at h6
      exact absurd rfl h6
  · intro ht
    by_contra hne
    exact h5 ⟨ht, hne⟩

theorem LOAD_32_STORE_32 (v : Nat) : LOAD_32 (STORE_32 v) 0 = v % 2 ^ 32 := by
  simp only [LOAD_32, STORE_32, List.getD_cons_zero, List.getD_cons_succ, Nat.zero_add,
    Nat.reduceAdd, Nat.reducePow]
  omega

theorem toInt32_of_lt (v : Nat) (h : v < 2 ^ 31) : toInt32 v = (v : Int) := by
  have h1 : v % 2 ^ 32 = v := Nat.mod_eq_of_lt (by omega)
  simp only [toInt32, h1, h, if_true]

theorem STORE_32_length (v : Nat) : (STORE_32 v).length = 4 := rfl

/-- The extractor on a stream the scanner has measured: header, payload and checksum are read in
order; only a checksum mismatch under verification (or a null zero-size buffer) fails. -/
theorem getPayload_of_scan (impl : Impl) (vf : VFile) (tc : Bool) (mem : List Nat) (k : Nat)
    (hdr payload ck rest : List Nat)
    (hs : GBASavedataSharkPortPayloadSize vf = (((payload.length + 0x1C : Nat) : Int), ⟨mem, k⟩))
    (hd : mem.drop k = hdr ++ (payload ++ (ck ++ rest)))
    (hh : hdr.length = 0x1C) (hc : ck.length = 4) (hp : payload.length ≤ SIZE_CART_FLASH1M) :
    GBASavedataSharkPortGetPayload impl vf tc =
      if tc = true ∧ calcChecksum hdr payload ≠ LOAD_32 ck 0 then
        ⟨none, ⟨mem, k + 0x1C + payload.length + 4⟩,
          if (decide (payload.length = 0) && impl.mallocZeroNull) = true then 0 else 1, 0⟩
      else if (decide (payload.length = 0) && impl.mallocZeroNull) = true then
        ⟨none, ⟨mem, k + 0x1C + payload.length + 4⟩, 0, 0⟩
      else ⟨some ⟨payload.length, hdr, payload⟩, ⟨mem, k + 0x1C + payload.length + 4⟩, 1, 0⟩ := by
  have hsz : (((payload.length + 0x1C : Nat) : Int) - 0x1C).toNat = payload.length := by
    omega
  have r1 : (VFile.mk mem k).read 0x1C = (hdr, ⟨mem, k + 0x1C⟩) := by
    have := VFile.read_of_drop mem k hdr _ hd
    rwa [hh] at this
  have hd2 := drop_add_of_drop mem k hdr _ hd
  rw [hh] at hd2
  have r2 : (VFile.mk mem (k + 0x1C)).read payload.length
      = (payload, ⟨mem, k + 0x1C + payload.length⟩) :=
    VFile.read_of_drop mem _ payload _ hd2
  have hd3 := drop_add_of_drop mem _ payload _ hd2
  have r3 : (VFile.mk mem (k + 0x1C + payload.length)).read 4
      = (ck, ⟨mem, k + 0x1C + payload.length + 4⟩) := by
    have := VFile.read_of_drop mem _ ck _ hd3
    rwa [hc] at this
  unfold GBASavedataSharkPortGetPayload
  simp only [hs, hsz, r1, r2, r3, hh, hc]
  have hg : ¬ ((((payload.length + 28 : Nat) : Int) < 28) ∨
      (((payload.length + 28 : Nat) : Int) > (SIZE_CART_FLASH1M : Int) + 28)) := by
    omega
  simp only [hg, if_false, Nat.lt_irrefl]
  split_ifs <;> simp_all

theorem read32_of_drop (mem : List Nat) (k v : Nat) (rest : List Nat)
    (h : mem.drop k = STORE_32 v ++ rest) :
    (VFile.mk mem k).read 4 = (STORE_32 v, ⟨mem, k + 4⟩) :=
  VFile.read_of_drop mem k (STORE_32 v) rest h

/-- Skipping a length-prefixed field that lies within the file. -/
theorem skipField_of_drop (mem : List Nat) (k : Nat) (f rest : List Nat)
    (h : mem.drop k = STORE_32 f.length ++ (f ++ rest)) (hf : f.length < 2 ^ 31) :
    skipField ⟨mem, k⟩ = (some (), ⟨mem, k + 4 + f.length⟩) := by
  have r := read32_of_drop mem k f.length _ h
  have hlen : k + 4 + f.length ≤ mem.length := by
    have := congrArg List.length h
    simp only [List.length_drop, List.length_append, STORE_32_length] at this
    omega
  unfold skipField
  simp only [r, STORE_32_length, Nat.lt_irrefl, if_false, LOAD_32_STORE_32]
  rw [Nat.mod_eq_of_lt (by omega : f.length < 2 ^ 32), toInt32_of_lt _ hf]
  unfold VFile.seekCur
  simp only
  have h1 : ¬ (((k + 4 : Nat) : Int) + (f.length : Int) < 0 ∨
      (mem.length : Int) < ((k + 4 : Nat) : Int) + (f.length : Int)) := by omega
  rw [if_neg h1]
  have h2 : ¬ (((k + 4 : Nat) : Int) + (f.length : Int) < 0) := by omega
  have h3 : (((k + 4 : Nat) : Int) + (f.length : Int)).toNat = k + 4 + f.length := by omega
  rw [h3]
  dsimp only
  rw [if_neg h2]

theorem drop_at (mem : List Nat) (k : Nat) (b c : List Nat) (h : mem.drop k = b ++ c)
    (k' : Nat) (hk : k + b.length = k') : mem.drop k' = c := by
  subst hk
  exact drop_add_of_drop mem k b c h

theorem read_at (mem : List Nat) (k : Nat) (b c : List Nat) (h : mem.drop k = b ++ c)
    (n : Nat) (hn : b.length = n) : (VFile.mk mem k).read n = (b, ⟨mem, k + n⟩) := by
  subst hn
  exact VFile.read_of_drop mem k b c h

/-- The scanner on a well-formed container returns the declared length and stops right after the
payload-length field. -/
theorem payloadSize_container (o : Nat) (f1 f2 f3 : List Nat) (P : Nat) (rest : List Nat)
    (h1 : f1.length < 2 ^ 31) (h2 : f2.length < 2 ^ 31) (h3 : f3.length < 2 ^ 31)
    (hP : P < 2 ^ 32) :
    GBASavedataSharkPortPayloadSize ⟨containerPrefix f1 f2 f3 P ++ rest, o⟩ =
      (toInt32 P, ⟨containerPrefix f1 f2 f3 P ++ rest,
        21 + (4 + f1.length) + (4 + f2.length) + (4 + f3.length) + 4⟩) := by
  generalize hm : containerPrefix f1 f2 f3 P ++ rest = mem
  simp only [containerPrefix, List.append_assoc] at hm
  have d0 : mem.drop 0 = _ := (List.drop_zero mem).trans hm.symm
  have d1 := drop_at mem _ _ _ d0 4 rfl
  have d2 := drop_at mem _ _ _ d1 17 rfl
  have d3 := drop_at mem _ _ _ d2 21 rfl
  have s1 := skipField_of_drop mem _ f1 _ d3 h1
  have d4 := drop_at mem _ _ _ (drop_at mem _ _ _ d3 25 rfl) (21 + 4 + f1.length) rfl
  have s2 := skipField_of_drop mem _ f2 _ d4 h2
  have d5 := drop_at mem _ _ _ (drop_at mem _ _ _ d4 _ rfl) (21 + 4 + f1.length + 4 + f2.length) rfl
  have s3 := skipField_of_drop mem _ f3 _ d5 h3
  have d6 := drop_at mem _ _ _ (drop_at mem _ _ _ d5 _ rfl)
    (21 + 4 + f1.length + 4 + f2.length + 4 + f3.length) rfl
  have r0 := read_at mem _ _ _ d0 4 rfl
  have r1 := read_at mem _ _ _ d1 13 rfl
  have r2 := read_at mem _ _ _ d2 4 rfl
  have r6 := read_at mem _ _ _ d6 4 rfl
  have hl : SHARKPORT_HEADER.length = 13 := rfl
  have e13 : toInt32 (LOAD_32 (STORE_32 13) 0) = 13 := by decide
  have etag : toInt32 (LOAD_32 (STORE_32 0x000F0000) 0) = 0x000F0000 := by decide
  unfold GBASavedataSharkPortPayloadSize
  dsimp only
  rw [r0]
  dsimp only
  rw [e13, hl]
  have ht : (13 : Int).toNat = 13 := rfl
  rw [ht, r1]
  dsimp only
  rw [r2]
  dsimp only
  rw [etag, s1]
  dsimp only
  rw [s2]
  dsimp only
  rw [s3]
  dsimp only
  rw [r6, LOAD_32_STORE_32, Nat.mod_eq_of_lt hP]
  have a1 : ¬ (STORE_32 13).length < 4 := by decide
  have a2 : ¬ (STORE_32 983040).length < 4 := by decide
  have a3 : ¬ (STORE_32 P).length < 4 := by simp [STORE_32_length]
  have a4 : ¬ ((SHARKPORT_HEADER.length : Int) < 13) := by decide
  have a5 : ¬ ((13 : Int) ≠ ((13 : Nat) : Int)) := by decide
  have a6 : ¬ ((983040 : Int) ≠ 983040) := by decide
  have a7 : ¬ (SHARKPORT_HEADER ≠ SHARKPORT_HEADER) := by simp
  rw [if_neg a1, if_neg a5, if_neg a4, if_neg a7, if_neg a2, if_neg a6, if_neg a3]
  have e : 21 + 4 + f1.length + 4 + f2.length + 4 + f3.length + 4
      = 21 + (4 + f1.length) + (4 + f2.length) + (4 + f3.length) + 4 := by omega
  rw [e]

/-- The import when the extractor returns `NULL`. -/
theorem import_none (impl : Impl) (gba : GBA) (vf : VFile) (tc : Bool)
    (hr : (GBASavedataSharkPortGetPayload impl vf tc).ret = none) :
    GBASavedataImportSharkPort impl gba vf tc =
      ⟨false, gba.savedata, (GBASavedataSharkPortGetPayload impl vf tc).vf,
        (GBASavedataSharkPortGetPayload impl vf tc).mallocs,
        (GBASavedataSharkPortGetPayload impl vf tc).frees, 0, none⟩ := by
  unfold GBASavedataImportSharkPort
  simp only [hr]

/-- The import when the identity check fails. -/
theorem import_mismatch (impl : Impl) (gba : GBA) (vf : VFile) (tc : Bool) (p : Payload)
    (hr : (GBASavedataSharkPortGetPayload impl vf tc).ret = some p)
    (hm : memcmpNe (cartHeader gba.rom) p.header (comparedPrefix tc) = true) :
    GBASavedataImportSharkPort impl gba vf tc =
      ⟨false, gba.savedata, (GBASavedataSharkPortGetPayload impl vf tc).vf,
        (GBASavedataSharkPortGetPayload impl vf tc).mallocs,
        (GBASavedataSharkPortGetPayload impl vf tc).frees + 1, 0, none⟩ := by
  unfold GBASavedataImportSharkPort
  simp only [hr, hm, if_true]

/-- The import into a sentinel save type. -/
theorem import_sentinel (impl : Impl) (gba : GBA) (vf : VFile) (tc : Bool) (p : Payload)
    (hr : (GBASavedataSharkPortGetPayload impl vf tc).ret = some p)
    (ht : gba.savedata.type = SAVEDATA_FORCE_NONE ∨ gba.savedata.type = SAVEDATA_AUTODETECT) :
    GBASavedataImportSharkPort impl gba vf tc =
      ⟨false, gba.savedata, (GBASavedataSharkPortGetPayload impl vf tc).vf,
        (GBASavedataSharkPortGetPayload impl vf tc).mallocs,
        (GBASavedataSharkPortGetPayload impl vf tc).frees + 1, 0, none⟩ := by
  unfold GBASavedataImportSharkPort
  simp only [hr]
  by_cases hm : memcmpNe (cartHeader gba.rom) p.header (comparedPrefix tc) = true
  · simp only [hm, if_true]
  · simp only [hm, if_false]
    rcases ht with ht | ht <;> simp only [ht, Bool.false_eq_true, if_false]

/-- The import on its successful path. -/
theorem import_copy (impl : Impl) (gba : GBA) (vf : VFile) (tc : Bool) (p : Payload)
    (hr : (GBASavedataSharkPortGetPayload impl vf tc).ret = some p)
    (hm : memcmpNe (cartHeader gba.rom) p.header (comparedPrefix tc) = false)
    (h1 : gba.savedata.type ≠ SAVEDATA_FORCE_NONE) (h2 : gba.savedata.type ≠ SAVEDATA_AUTODETECT) :
    GBASavedataImportSharkPort impl gba vf tc =
      ⟨true,
        { importTarget gba.savedata p.size with
          data := importCopy (importTarget gba.savedata p.size).data p.payload
            (importLength (importTarget gba.savedata p.size) p.size) },
        (GBASavedataSharkPortGetPayload impl vf tc).vf,
        (GBASavedataSharkPortGetPayload impl vf tc).mallocs,
        (GBASavedataSharkPortGetPayload impl vf tc).frees + 1,
        importLength (importTarget gba.savedata p.size) p.size,
        if (importTarget gba.savedata p.size).vf = true then
          some (importLength (importTarget gba.savedata p.size) p.size) else none⟩ := by
  unfold GBASavedataImportSharkPort
  simp only [hr, hm, Bool.false_eq_true, if_false]

theorem STORE_32LE_length (v off : Nat) (d : List Nat) : (STORE_32LE v off d).length = d.length := by
  simp [STORE_32LE]

theorem STORE_32LE_drop (v off n : Nat) (d : List Nat) (h : off + 4 ≤ n) :
    (STORE_32LE v off d).drop n = d.drop n := by
  unfold STORE_32LE
  rw [List.drop_set_of_lt _ _ (by omega), List.drop_set_of_lt _ _ (by omega),
    List.drop_set_of_lt _ _ (by omega), List.drop_set_of_lt _ _ (by omega)]

theorem importEepromLoop_length (fuel i size : Nat) (payload data : List Nat) :
    (importEepromLoop fuel i size payload data).length = data.length := by
  induction fuel generalizing i data with
  | zero => rfl
  | succ n ih =>
    unfold importEepromLoop
    split_ifs
    · simp only [ih, STORE_32LE_length]
    · rfl

/-- The EEPROM copy loop leaves the bytes from offset `size` on untouched (for lengths that are
multiples of 8, as both EEPROM sizes are). -/
theorem importEepromLoop_drop (fuel i size : Nat) (payload data : List Nat)
    (hs : 8 ∣ size) (hi : 8 ∣ i) :
    (importEepromLoop fuel i size payload data).drop size = data.drop size := by
  induction fuel generalizing i data with
  | zero => rfl
  | succ n ih =>
    unfold importEepromLoop
    split_ifs with h
    · simp only
      rw [ih (i + 8) _ (by omega)]
      rw [STORE_32LE_drop _ _ _ _ (by omega), STORE_32LE_drop _ _ _ _ (by omega)]
    · rfl

theorem importLength_le_size (sd : GBASavedata) (n : Nat) :
    importLength sd n ≤ GBASavedataSize sd := by
  unfold importLength
  split_ifs <;> omega

theorem importLength_le (sd : GBASavedata) (n : Nat) : importLength sd n ≤ n := by
  unfold importLength
  split_ifs <;> omega

theorem importLength_eq_min (sd : GBASavedata) (n : Nat) :
    importLength sd n = min n (GBASavedataSize sd) := by
  unfold importLength
  split_ifs <;> omega

theorem importCopy_length (data payload : List Nat) (size : Nat)
    (hp : size ≤ payload.length) (hd : size ≤ data.length) :
    (importCopy data payload size).length = data.length := by
  unfold importCopy
  split_ifs
  · exact importEepromLoop_length _ _ _ _ _
  · simp [memcpy, List.length_take, List.length_drop]
    omega

theorem importCopy_drop (data payload : List Nat) (size : Nat) (hp : size ≤ payload.length) :
    (importCopy data payload size).drop size = data.drop size := by
  unfold importCopy
  split_ifs with h
  · apply importEepromLoop_drop
    · rcases h with h | h <;> rw [h] <;> decide
    · exact Nat.dvd_zero 8
  · unfold memcpy
    have : (payload.take size).length = size := by simp [List.length_take, hp]
    rw [List.drop_append_of_le_length (by omega), List.drop_of_length_le (by omega),
      List.nil_append]

theorem importCopy_take (data payload : List Nat) (size : Nat) (hp : size ≤ payload.length)
    (h1 : size ≠ SIZE_CART_EEPROM) (h2 : size ≠ SIZE_CART_EEPROM512) :
    (importCopy data payload size).take size = payload.take size := by
  unfold importCopy
  rw [if_neg (by rintro (h | h); exact h1 h; exact h2 h)]
  unfold memcpy
  have : (payload.take size).length = size := by simp [List.length_take, hp]
  rw [List.take_append_of_le_length (by omega), List.take_of_length_le (by omega)]

/-- A write at the end of the stream that is accepted in full appends the buffer. -/
theorem write_append (m buf : List Nat) (g : Nat) (hg : buf.length ≤ g) :
    (VFile.mk m m.length).write buf g = (buf.length, ⟨m ++ buf, (m ++ buf).length⟩) := by
  unfold VFile.write
  simp only [List.take_of_length_le hg, List.take_length, List.length_append]
  rw [List.drop_of_length_le (by omega), List.append_nil]

theorem cartHeader_length (cart : GBACartridge) : (cartHeader cart).length = 0x1C := by
  simp [cartHeader, List.length_take]
  omega

theorem checksumStep_lt (ext : Nat → Nat) (c b : Nat) : checksumStep ext c b < 2 ^ 32 :=
  Nat.mod_lt _ (by decide)

theorem checksumLoop_lt (ext : Nat → Nat) (c : Nat) (l : List Nat) (hc : c < 2 ^ 32) :
    checksumLoop ext c l < 2 ^ 32 := by
  induction l generalizing c with
  | nil => exact hc
  | cons b t ih => exact ih _ (checksumStep_lt ext c b)

theorem checksumLoop_cons (ext : Nat → Nat) (c b : Nat) (l : List Nat) :
    checksumLoop ext c (b :: l) = checksumLoop ext (checksumStep ext c b) l := rfl

theorem checksumLoop_append (ext : Nat → Nat) (c : Nat) (l1 l2 : List Nat) :
    checksumLoop ext c (l1 ++ l2) = checksumLoop ext (checksumLoop ext c l1) l2 := by
  simp [checksumLoop, List.foldl_append]

/-- Zero bytes do not move the rolling sum. -/
theorem checksumLoop_zeros (ext : Nat → Nat) (h0 : ext 0 = 0) (c n : Nat) (hc : c < 2 ^ 32) :
    checksumLoop ext c (List.replicate n 0) = c := by
  induction n with
  | zero => rfl
  | succ n ih =>
    rw [List.replicate_succ, checksumLoop_cons]
    have : checksumStep ext c 0 = c := by
      unfold checksumStep
      rw [h0, Nat.zero_mul, Nat.add_zero, Nat.mod_eq_of_lt hc]
    rw [this, ih]

/-- The bytes a complete export of a region that is not of type `SAVEDATA_EEPROM` leaves in an
empty stream. -/
theorem export_plain (impl : Impl) (ts : List Nat) (gba : GBA)
    (ht : gba.savedata.type ≠ SAVEDATA_EEPROM)
    (hs : GBASavedataSize gba.savedata ≠ 0)
    (hd : gba.savedata.data.length = GBASavedataSize gba.savedata)
    (hts : ts.length < 24) :
    GBASavedataExportSharkPort impl acceptAll ts gba ⟨[], 0⟩ =
      (true,
        ⟨containerPrefix ((gba.rom.title ++ List.replicate 12 0).take 12) ts []
            (gba.savedata.data.length + 0x1C) ++
          (cartHeader gba.rom ++ (gba.savedata.data ++
            (STORE_32 (checksumLoop (charExtend impl) 0 (cartHeader gba.rom ++ gba.savedata.data))
              ++ []))),
         (containerPrefix ((gba.rom.title ++ List.replicate 12 0).take 12) ts []
            (gba.savedata.data.length + 0x1C) ++
          (cartHeader gba.rom ++ (gba.savedata.data ++
            (STORE_32 (checksumLoop (charExtend impl) 0 (cartHeader gba.rom ++ gba.savedata.data))
              ++ [])))).length⟩) := by
  have hT : strftimeLen ts = ts.length := by
    unfold strftimeLen
    rw [if_pos (by omega)]
  have hS : (0x1C + GBASavedataSize gba.savedata) % 2 ^ 32 = gba.savedata.data.length + 0x1C := by
    rw [hd]
    have : GBASavedataSize gba.savedata ≤ 0x20000 := by
      unfold GBASavedataSize savedataTypeSize
      cases gba.savedata.type <;> decide
    omega
  have hl : SHARKPORT_HEADER.length = 13 := rfl
  have hne : ¬ (gba.savedata.data.length + 28 = 28) := by omega
  have htk : gba.savedata.data.take (gba.savedata.data.length + 28 - 28) = gba.savedata.data := by
    rw [Nat.add_sub_cancel, List.take_length]
  have htt : ts.take ts.length = ts := List.take_length ts
  have hti : ((gba.rom.title ++ List.replicate 12 0).take 12).length = 12 := by
    simp [List.length_take]
  unfold GBASavedataExportSharkPort
  simp only [hT, hS, hl, htt]
  rw [show (VFile.mk [] 0) = VFile.mk [] ([] : List Nat).length from rfl]
  rw [write_append _ (STORE_32 13) (acceptAll 0 4) (Nat.le_refl _)]
  dsimp only
  rw [write_append _ SHARKPORT_HEADER (acceptAll 1 13) (Nat.le_refl _)]
  dsimp only
  rw [write_append _ (STORE_32 983040) (acceptAll 2 4) (Nat.le_refl _)]
  dsimp only
  rw [write_append _ (STORE_32 12) (acceptAll 3 4) (Nat.le_refl _)]
  dsimp only
  rw [write_append _ _ (acceptAll 4 12) (Nat.le_of_eq hti)]
  dsimp only
  rw [write_append _ (STORE_32 ts.length ++ ts) (acceptAll 5 (ts.length + 4))
    (by simp [STORE_32_length, acceptAll]; omega)]
  dsimp only
  rw [write_append _ (STORE_32 0) (acceptAll 6 4) (Nat.le_refl _)]
  dsimp only
  rw [if_neg hne]
  rw [write_append _ (STORE_32 (gba.savedata.data.length + 28)) (acceptAll 7 4) (Nat.le_refl _)]
  dsimp only
  rw [write_append _ (cartHeader gba.rom) (acceptAll 8 28) (Nat.le_of_eq (cartHeader_length _))]
  dsimp only
  rw [if_neg ht, htk]
  rw [write_append _ gba.savedata.data (acceptAll 9 _) (by simp [acceptAll])]
  dsimp only
  rw [write_append _ (STORE_32 _) (acceptAll 10 4) (Nat.le_refl _)]
  dsimp only
  have c1 : ¬ (STORE_32 ts.length ++ ts).length < ts.length + 4 := by
    simp [STORE_32_length]; omega
  have c2 : ¬ gba.savedata.data.length < gba.savedata.data.length + 28 - 28 := by omega
  have c3 : ¬ (List.take 12 (gba.rom.title ++ List.replicate 12 0)).length < 4 := by omega
  have c4 : ¬ (cartHeader gba.rom).length < 28 := by rw [cartHeader_length]; omega
  simp only [STORE_32_length, hl, Nat.lt_irrefl, if_false, c1, c2, c3, c4]
  simp only [containerPrefix, List.append_assoc, List.nil_append, checksumLoop_append, hti,
    List.length_nil, List.append_nil]

/-- The extractor on a well-formed container that holds header, payload and checksum. -/
theorem getPayload_container (impl : Impl) (o : Nat) (f1 f2 f3 hdr payload ck rest : List Nat)
    (tc : Bool)
    (h1 : f1.length < 2 ^ 31) (h2 : f2.length < 2 ^ 31) (h3 : f3.length < 2 ^ 31)
    (hh : hdr.length = 0x1C) (hc : ck.length = 4) (hp : payload.length ≤ SIZE_CART_FLASH1M) :
    GBASavedataSharkPortGetPayload impl
        ⟨containerPrefix f1 f2 f3 (payload.length + 0x1C) ++ (hdr ++ (payload ++ (ck ++ rest))), o⟩
        tc =
      if tc = true ∧ calcChecksum hdr payload ≠ LOAD_32 ck 0 then
        ⟨none, ⟨containerPrefix f1 f2 f3 (payload.length + 0x1C) ++
            (hdr ++ (payload ++ (ck ++ rest))),
          21 + (4 + f1.length) + (4 + f2.length) + (4 + f3.length) + 4 + 0x1C + payload.length + 4⟩,
          if (decide (payload.length = 0) && impl.mallocZeroNull) = true then 0 else 1, 0⟩
      else if (decide (payload.length = 0) && impl.mallocZeroNull) = true then
        ⟨none, ⟨containerPrefix f1 f2 f3 (payload.length + 0x1C) ++
            (hdr ++ (payload ++ (ck ++ rest))),
          21 + (4 + f1.length) + (4 + f2.length) + (4 + f3.length) + 4 + 0x1C + payload.length + 4⟩,
          0, 0⟩
      else
        ⟨some ⟨payload.length, hdr, payload⟩,
          ⟨containerPrefix f1 f2 f3 (payload.length + 0x1C) ++
            (hdr ++ (payload ++ (ck ++ rest))),
          21 + (4 + f1.length) + (4 + f2.length) + (4 + f3.length) + 4 + 0x1C + payload.length + 4⟩,
          1, 0⟩ := by
  have hF : SIZE_CART_FLASH1M = 0x20000 := rfl
  have hP : payload.length + 0x1C < 2 ^ 31 := by omega
  have hs := payloadSize_container o f1 f2 f3 (payload.length + 0x1C)
    (hdr ++ (payload ++ (ck ++ rest))) h1 h2 h3 (by omega)
  rw [toInt32_of_lt _ hP] at hs
  have hlen : (containerPrefix f1 f2 f3 (payload.length + 0x1C)).length
      = 21 + (4 + f1.length) + (4 + f2.length) + (4 + f3.length) + 4 := by
    simp only [containerPrefix, List.length_append, STORE_32_length]
    have : SHARKPORT_HEADER.length = 13 := rfl
    omega
  have hd : (containerPrefix f1 f2 f3 (payload.length + 0x1C) ++
      (hdr ++ (payload ++ (ck ++ rest)))).drop
        (21 + (4 + f1.length) + (4 + f2.length) + (4 + f3.length) + 4)
      = hdr ++ (payload ++ (ck ++ rest)) := by
    rw [← hlen, List.drop_left]
  exact getPayload_of_scan impl _ tc _ _ hdr payload ck rest hs hd hh hc hp

theorem memcmpNe_false_iff (a b : List Nat) (n : Nat) :
    memcmpNe a b n = false ↔ a.take n = b.take n := by
  simp [memcmpNe]

/-- The early exit of line 79. -/
theorem getPayload_out_of_range (impl : Impl) (vf : VFile) (tc : Bool)
    (h : (GBASavedataSharkPortPayloadSize vf).1 < 28 ∨
      (GBASavedataSharkPortPayloadSize vf).1 > 28 + (SIZE_CART_FLASH1M : Int)) :
    GBASavedataSharkPortGetPayload impl vf tc = ⟨none, (GBASavedataSharkPortPayloadSize vf).2, 0, 0⟩ := by
  have h' : (GBASavedataSharkPortPayloadSize vf).1 < 0x1C ∨
      (GBASavedataSharkPortPayloadSize vf).1 > (SIZE_CART_FLASH1M : Int) + 0x1C := by
    rcases h with h | h
    · exact Or.inl h
    · exact Or.inr (by omega)
  unfold GBASavedataSharkPortGetPayload
  simp only [if_pos h']

theorem importTarget_of_not_upgrade (sd : GBASavedata) (n : Nat)
    (h : ¬ (sd.type = SAVEDATA_FLASH512 ∧ SIZE_CART_FLASH512 < n)) : importTarget sd n = sd := by
  unfold importTarget
  rw [if_neg h]

theorem importTarget_upgrade (sd : GBASavedata) (n : Nat)
    (ht : sd.type = SAVEDATA_FLASH512) (h : SIZE_CART_FLASH512 < n) :
    importTarget sd n = GBASavedataForceType sd SAVEDATA_FLASH1M ∧
    (importTarget sd n).type = SAVEDATA_FLASH1M := by
  unfold importTarget
  rw [if_pos ⟨ht, h⟩]
  refine ⟨rfl, ?_⟩
  unfold GBASavedataForceType
  rw [if_neg (by rw [ht]; decide)]

theorem charExtend_zero (impl : Impl) : charExtend impl 0 = 0 := by
  unfold charExtend
  split_ifs <;> rfl

theorem sramGBA_length : sramGBA.savedata.data.length = 0x8000 := by
  have h : sramGBA.savedata.data = 0x80 :: List.replicate 0x7FFF 0 := rfl
  rw [h, List.length_cons, List.length_replicate]

/-- For the SRAM sample the checksum the exporter stores differs from the one the verifier
recomputes, whichever signedness plain `char` has. -/
theorem sram_checksums_differ (impl : Impl) :
    calcChecksum (cartHeader sampleCart) sramGBA.savedata.data ≠
      LOAD_32 (STORE_32 (checksumLoop (charExtend impl) 0
        (cartHeader sampleCart ++ sramGBA.savedata.data))) 0 := by
  have hdata : sramGBA.savedata.data = 0x80 :: List.replicate 0x7FFF 0 := rfl
  rw [LOAD_32_STORE_32, Nat.mod_eq_of_lt (checksumLoop_lt _ _ _ (by decide)), hdata]
  unfold calcChecksum
  rw [checksumLoop_append, checksumLoop_cons, checksumLoop_cons,
    checksumLoop_zeros signExtend (by decide) _ _ (checksumStep_lt _ _ _),
    checksumLoop_zeros (charExtend impl) (charExtend_zero impl) _ _ (checksumStep_lt _ _ _)]
  rcases impl with ⟨_ | _, mz⟩
  · have e : charExtend ⟨false, mz⟩ = zeroExtend := rfl
    rw [e]
    decide
  · have e : charExtend ⟨true, mz⟩ = signExtend := rfl
    rw [e]
    decide

/-- Export of the SRAM sample succeeds and the verified import of the exported stream fails. -/
theorem sram_roundtrip_rejected (impl : Impl) :
    (GBASavedataExportSharkPort impl acceptAll sampleTime sramGBA ⟨[], 0⟩).1 = true ∧
    (GBASavedataImportSharkPort impl sramZeroed
      (GBASavedataExportSharkPort impl acceptAll sampleTime sramGBA ⟨[], 0⟩).2 true).success
        = false := by
  have hE := export_plain impl sampleTime sramGBA (by decide)
    (by unfold GBASavedataSize; decide) sramGBA_length (by decide)
  rw [hE]
  refine ⟨rfl, ?_⟩
  dsimp only
  have hG := getPayload_container impl
    (containerPrefix ((sramGBA.rom.title ++ List.replicate 12 0).take 12) sampleTime []
      (sramGBA.savedata.data.length + 0x1C) ++
      (cartHeader sramGBA.rom ++ (sramGBA.savedata.data ++
        (STORE_32 (checksumLoop (charExtend impl) 0 (cartHeader sramGBA.rom ++ sramGBA.savedata.data))
          ++ [])))).length
    ((sramGBA.rom.title ++ List.replicate 12 0).take 12) sampleTime []
    (cartHeader sramGBA.rom) sramGBA.savedata.data
    (STORE_32 (checksumLoop (charExtend impl) 0 (cartHeader sramGBA.rom ++ sramGBA.savedata.data)))
    [] true (by decide) (by decide) (by decide) (cartHeader_length _) rfl
    (by rw [sramGBA_length]; decide)
  rw [if_pos ⟨rfl, sram_checksums_differ impl⟩] at hG
  have hN : (GBASavedataSharkPortGetPayload impl _ true).ret = none := congrArg GetPayloadResult.ret hG
  rw [import_none impl sramZeroed _ true hN]

/-! ## Facts about the sample inputs -/

theorem getPayload_container_unverified (impl : Impl) (o : Nat)
    (f1 f2 f3 hdr payload ck rest : List Nat)
    (h1 : f1.length < 2 ^ 31) (h2 : f2.length < 2 ^ 31) (h3 : f3.length < 2 ^ 31)
    (hh : hdr.length = 0x1C) (hc : ck.length = 4) (hp : payload.length ≤ SIZE_CART_FLASH1M)
    (hne : payload.length ≠ 0) :
    (GBASavedataSharkPortGetPayload impl
        ⟨containerPrefix f1 f2 f3 (payload.length + 0x1C) ++ (hdr ++ (payload ++ (ck ++ rest))), o⟩
        false).ret = some ⟨payload.length, hdr, payload⟩ := by
  rw [getPayload_container impl o f1 f2 f3 hdr payload ck rest false h1 h2 h3 hh hc hp]
  have hz : (decide (payload.length = 0) && impl.mallocZeroNull) = false := by
    rw [decide_eq_false hne, Bool.false_and]
  simp only [Bool.false_eq_true, false_and, if_false, hz]

/-- The buffer extracted from `upgradeContainer`. -/
theorem upgradeContainer_payload (impl : Impl) :
    (GBASavedataSharkPortGetPayload impl upgradeContainer false).ret =
      some ⟨(List.replicate (SIZE_CART_FLASH512 + 1) 0).length, cartHeader sampleCart,
        List.replicate (SIZE_CART_FLASH512 + 1) 0⟩ :=
  getPayload_container_unverified impl 0 [] [] [] (cartHeader sampleCart)
    (List.replicate (SIZE_CART_FLASH512 + 1) 0) [0, 0, 0, 0] [] (by decide) (by decide) (by decide)
    (cartHeader_length _) rfl (by rw [List.length_replicate]; decide)
    (by rw [List.length_replicate]; exact Nat.succ_ne_zero _)

/-- The buffer extracted from `oversizedContainer`. -/
theorem oversizedContainer_payload (impl : Impl) :
    (GBASavedataSharkPortGetPayload impl oversizedContainer false).ret =
      some ⟨(List.replicate (SIZE_CART_SRAM + 1) 7).length, cartHeader sampleCart,
        List.replicate (SIZE_CART_SRAM + 1) 7⟩ :=
  getPayload_container_unverified impl 0 [] [] [] (cartHeader sampleCart)
    (List.replicate (SIZE_CART_SRAM + 1) 7) [0, 0, 0, 0] [] (by decide) (by decide) (by decide)
    (cartHeader_length _) rfl (by rw [List.length_replicate]; decide)
    (by rw [List.length_replicate]; exact Nat.succ_ne_zero _)

set_option maxRecDepth 100000 in
/-- For the 512-byte EEPROM sample a verified import of the exported stream succeeds, but the
bytes that arrive in save memory are not the exported ones. -/
theorem eeprom512_roundtrip_permuted (impl : Impl) :
    (GBASavedataExportSharkPort impl acceptAll sampleTime eeprom512GBA ⟨[], 0⟩).1 = true ∧
    (GBASavedataImportSharkPort impl eeprom512Zeroed
      (GBASavedataExportSharkPort impl acceptAll sampleTime eeprom512GBA ⟨[], 0⟩).2
        true).success = true ∧
    (GBASavedataImportSharkPort impl eeprom512Zeroed
      (GBASavedataExportSharkPort impl acceptAll sampleTime eeprom512GBA ⟨[], 0⟩).2
        true).savedata.data ≠ eeprom512GBA.savedata.data := by
  rcases impl with ⟨_ | _, _ | _⟩ <;> decide

/-! ## Lemmas about export, the scanner and the EEPROM transforms -/

theorem write_count (vf : VFile) (buf : List Nat) (g : Nat) :
    (vf.write buf g).1 = min g buf.length := by
  unfold VFile.write
  exact List.length_take g buf

/-- With a declared size of 0 the export returns `false`, whatever the stream accepts. -/
theorem export_size_zero_flag (impl : Impl) (accept : Nat → Nat → Nat) (ts : List Nat) (gba : GBA)
    (vf : VFile) (h : GBASavedataSize gba.savedata = 0) :
    (GBASavedataExportSharkPort impl accept ts gba vf).1 = false := by
  unfold GBASavedataExportSharkPort
  simp only [h, Nat.add_zero, Nat.reducePow, Nat.reduceMod, if_true, apply_ite Prod.fst, ite_self]

theorem eepromEmit_succ (data : List Nat) (i n : Nat) :
    eepromEmit data i (n + 1) = data.getD (i ^^^ 7) 0 :: eepromEmit data (i + 1) n := by
  simp [eepromEmit, List.range'_succ]

theorem eepromEmit_length (data : List Nat) (i n : Nat) : (eepromEmit data i n).length = n := by
  simp [eepromEmit]

/-- The EEPROM payload loop on a stream that accepts every byte: it appends the reindexed bytes
and folds them into the running checksum. -/
theorem exportEepromLoop_complete (impl : Impl) (accept : Nat → Nat → Nat) (hacc : Completes accept)
    (data : List Nat) (n i k c : Nat) (m : List Nat) :
    exportEepromLoop impl accept data n i k c ⟨m, m.length⟩ =
      (checksumLoop (charExtend impl) c (eepromEmit data i n),
        ⟨m ++ eepromEmit data i n, (m ++ eepromEmit data i n).length⟩) := by
  induction n generalizing i k c m with
  | zero => simp [exportEepromLoop, eepromEmit, checksumLoop]
  | succ n ih =>
    unfold exportEepromLoop
    simp only
    rw [write_append m [data.getD (i ^^^ 7) 0] (accept k 1) (hacc k 1)]
    simp only
    rw [ih, eepromEmit_succ, checksumLoop_cons]
    simp only [List.append_assoc, List.singleton_append]

theorem savedataSize_le (sd : GBASavedata) : GBASavedataSize sd ≤ 0x20000 := by
  unfold GBASavedataSize savedataTypeSize
  cases sd.type <;> decide

/-- The bytes a complete export leaves in an empty stream: the layout of the specification. -/
theorem export_complete (impl : Impl) (accept : Nat → Nat → Nat) (ts : List Nat) (gba : GBA)
    (hacc : Completes accept)
    (hs : GBASavedataSize gba.savedata ≠ 0)
    (hd : gba.savedata.data.length = GBASavedataSize gba.savedata) :
    GBASavedataExportSharkPort impl accept ts gba ⟨[], 0⟩ =
      (true, ⟨exportLayout impl (ts.take (strftimeLen ts)) gba,
        (exportLayout impl (ts.take (strftimeLen ts)) gba).length⟩) := by
  have hT : strftimeLen ts ≤ ts.length := by
    unfold strftimeLen
    split_ifs <;> omega
  have htl : (ts.take (strftimeLen ts)).length = strftimeLen ts := by
    rw [List.length_take]; omega
  have hle := savedataSize_le gba.savedata
  have hS : (0x1C + GBASavedataSize gba.savedata) % 2 ^ 32 = GBASavedataSize gba.savedata + 0x1C := by
    omega
  have hl : SHARKPORT_HEADER.length = 13 := rfl
  have hne : ¬ (GBASavedataSize gba.savedata + 28 = 28) := by omega
  have hsub : GBASavedataSize gba.savedata + 28 - 28 = GBASavedataSize gba.savedata := by omega
  have hti : ((gba.rom.title ++ List.replicate 12 0).take 12).length = 12 := by
    simp [List.length_take]
  have htk : (gba.savedata.data.take (GBASavedataSize gba.savedata)).length
      = GBASavedataSize gba.savedata := by
    rw [List.length_take, hd, Nat.min_self]
  unfold GBASavedataExportSharkPort
  simp only [hS, hl, hsub]
  rw [show (VFile.mk [] 0) = VFile.mk [] ([] : List Nat).length from rfl]
  rw [write_append _ (STORE_32 13) (accept 0 4) (hacc 0 4)]
  dsimp only
  rw [write_append _ SHARKPORT_HEADER (accept 1 13) (hacc 1 13)]
  dsimp only
  rw [write_append _ (STORE_32 983040) (accept 2 4) (hacc 2 4)]
  dsimp only
  rw [write_append _ (STORE_32 12) (accept 3 4) (hacc 3 4)]
  dsimp only
  rw [write_append _ _ (accept 4 12) (le_trans (Nat.le_of_eq hti) (hacc 4 12))]
  dsimp only
  rw [write_append _ (STORE_32 (strftimeLen ts) ++ ts.take (strftimeLen ts))
    (accept 5 (strftimeLen ts + 4))
    (le_trans (by rw [List.length_append, STORE_32_length, htl]; omega) (hacc 5 _))]
  dsimp only
  rw [write_append _ (STORE_32 0) (accept 6 4) (hacc 6 4)]
  dsimp only
  rw [if_neg hne]
  rw [write_append _ (STORE_32 (GBASavedataSize gba.savedata + 28)) (accept 7 4) (hacc 7 4)]
  dsimp only
  rw [write_append _ (cartHeader gba.rom) (accept 8 28)
    (le_trans (Nat.le_of_eq (cartHeader_length _)) (hacc 8 28))]
  dsimp only
  have c1 : ¬ (STORE_32 (strftimeLen ts) ++ ts.take (strftimeLen ts)).length
      < strftimeLen ts + 4 := by
    rw [List.length_append, STORE_32_length, htl]; omega
  have c3 : ¬ (List.take 12 (gba.rom.title ++ List.replicate 12 0)).length < 4 := by omega
  have c4 : ¬ (cartHeader gba.rom).length < 28 := by rw [cartHeader_length]; omega
  have e28 : 28 + GBASavedataSize gba.savedata = GBASavedataSize gba.savedata + 28 := by omega
  by_cases ht : gba.savedata.type = SAVEDATA_EEPROM
  · rw [if_pos ht, exportEepromLoop_complete impl accept hacc]
    dsimp only
    rw [write_append _ (STORE_32 _) (accept _ 4) (hacc _ 4)]
    dsimp only
    simp only [STORE_32_length, hl, Nat.lt_irrefl, if_false, c1, c3, c4]
    simp only [exportLayout, exportChecksum, exportPayload, if_pos ht, List.append_assoc,
      List.nil_append, checksumLoop_append, e28, htl]
  · rw [if_neg ht]
    rw [write_append _ (gba.savedata.data.take _) (accept 9 _)
      (le_trans (Nat.le_of_eq htk) (hacc 9 _))]
    dsimp only
    rw [write_append _ (STORE_32 _) (accept 10 4) (hacc 10 4)]
    dsimp only
    have c2 : ¬ (gba.savedata.data.take (GBASavedataSize gba.savedata)).length
        < GBASavedataSize gba.savedata := by omega
    simp only [STORE_32_length, hl, Nat.lt_irrefl, if_false, c1, c2, c3, c4]
    simp only [exportLayout, exportChecksum, exportPayload, if_neg ht, List.append_assoc,
      List.nil_append, checksumLoop_append, e28, htl]

theorem read_exact (mem : List Nat) (pos n : Nat) (h : pos + n ≤ mem.length) :
    (VFile.mk mem pos).read n = ((mem.drop pos).take n, ⟨mem, pos + n⟩) := by
  unfold VFile.read
  simp only [List.length_take, List.length_drop]
  rw [Nat.min_eq_left (by omega)]

theorem read_short (mem : List Nat) (pos n : Nat) (hn : 0 < n) (h : mem.length < pos + n) :
    ((VFile.mk mem pos).read n).1.length < n := by
  unfold VFile.read
  simp only [List.length_take, List.length_drop]
  omega

theorem getD_take_drop (mem : List Nat) (pos n j : Nat) (hj : j < n) :
    ((mem.drop pos).take n).getD j 0 = mem.getD (pos + j) 0 := by
  simp only [List.getD_eq_getElem?_getD, List.getElem?_take, hj, if_true, List.getElem?_drop]

theorem LOAD_32_window (mem : List Nat) (pos : Nat) :
    LOAD_32 ((mem.drop pos).take 4) 0 = LOAD_32 mem pos := by
  unfold LOAD_32
  rw [getD_take_drop mem pos 4 0 (by omega), getD_take_drop mem pos 4 (0 + 1) (by omega),
    getD_take_drop mem pos 4 (0 + 2) (by omega), getD_take_drop mem pos 4 (0 + 3) (by omega)]
  simp only [Nat.zero_add, Nat.add_zero, Nat.add_assoc]

theorem skipField_some (mem : List Nat) (pos q : Nat) (h : fieldEnd mem pos = some q) :
    skipField ⟨mem, pos⟩ = (some (), ⟨mem, q⟩) := by
  unfold fieldEnd at h
  split_ifs at h with h1 h2
  simp only [Option.some.injEq] at h
  unfold skipField
  simp only [read_exact mem pos 4 h1, LOAD_32_window]
  have hl : ¬ ((mem.drop pos).take 4).length < 4 := by
    simp only [List.length_take, List.length_drop]; omega
  rw [if_neg hl]
  unfold VFile.seekCur
  dsimp only
  have hc : ¬ (((pos + 4 : Nat) : Int) + toInt32 (LOAD_32 mem pos) < 0 ∨
      (mem.length : Int) < ((pos + 4 : Nat) : Int) + toInt32 (LOAD_32 mem pos)) := by omega
  rw [if_neg hc]
  dsimp only
  rw [if_neg (by omega), h]

theorem skipField_none (mem : List Nat) (pos : Nat) (h : fieldEnd mem pos = none) :
    (skipField ⟨mem, pos⟩).1 = none ∧ (skipField ⟨mem, pos⟩).2.mem = mem := by
  unfold fieldEnd at h
  unfold skipField
  by_cases h1 : pos + 4 ≤ mem.length
  · rw [if_pos h1] at h
    split_ifs at h with h2
    simp only [read_exact mem pos 4 h1, LOAD_32_window]
    have hl : ¬ ((mem.drop pos).take 4).length < 4 := by
      simp only [List.length_take, List.length_drop]; omega
    rw [if_neg hl]
    unfold VFile.seekCur
    dsimp only
    have hc : (((pos + 4 : Nat) : Int) + toInt32 (LOAD_32 mem pos) < 0 ∨
        (mem.length : Int) < ((pos + 4 : Nat) : Int) + toInt32 (LOAD_32 mem pos)) := by omega
    rw [if_pos hc]
    dsimp only
    rw [if_pos (by omega)]
    exact ⟨rfl, rfl⟩
  · have hs := read_short mem pos 4 (by omega) (by omega)
    dsimp only
    rw [if_pos hs]
    exact ⟨rfl, rfl⟩

theorem LOAD_32_lt (buf : List Nat) (off : Nat) : LOAD_32 buf off < 2 ^ 32 :=
  Nat.mod_lt _ (by decide)

theorem toInt32_eq_small (u v : Nat) (hu : u < 2 ^ 32) (hv : v < 2 ^ 31) :
    toInt32 u = (v : Int) ↔ u = v := by
  unfold toInt32
  rw [Nat.mod_eq_of_lt hu]
  split_ifs <;> omega

/-- The scanner refines the layout table: it returns the declared length of the stream and never
changes the bytes; on a stream with a valid header whose payload-length field lies within the
file at offset `q`, it stops at `q + 4`. -/
theorem payloadSize_spec (vf : VFile) :
    ∃ c, GBASavedataSharkPortPayloadSize vf = (declaredLength vf.mem, ⟨vf.mem, c⟩) ∧
      (headerValid vf.mem → ∀ q, payloadLengthOffset vf.mem = some q → q + 4 ≤ vf.mem.length →
        c = q + 4) := by
  obtain ⟨mem, o⟩ := vf
  dsimp only
  have hd0 : ¬ headerValid mem → declaredLength mem = 0 := by
    intro h
    unfold declaredLength
    exact if_neg h
  unfold GBASavedataSharkPortPayloadSize
  dsimp only
  by_cases h4 : 4 ≤ mem.length
  swap
  · have hnv : ¬ headerValid mem := fun hv => h4 hv.1
    rw [if_pos (read_short mem 0 4 (by omega) (by omega)), hd0 hnv]
    exact ⟨_, rfl, fun hv => absurd hv hnv⟩
  rw [read_exact mem 0 4 (by omega)]
  dsimp only
  have hl4 : ∀ pos, pos + 4 ≤ mem.length → ¬ ((mem.drop pos).take 4).length < 4 := by
    intro pos hp
    simp only [List.length_take, List.length_drop]; omega
  rw [if_neg (hl4 0 (by omega)), LOAD_32_window]
  have hlen : (SHARKPORT_HEADER.length : Int) = ((13 : Nat) : Int) := rfl
  rw [hlen]
  by_cases h13 : LOAD_32 mem 0 = 13
  swap
  · have hnv : ¬ headerValid mem := fun hv => h13 hv.2.1
    have : toInt32 (LOAD_32 mem 0) ≠ ((13 : Nat) : Int) := by
      rw [Ne, toInt32_eq_small _ _ (LOAD_32_lt _ _) (by decide)]
      exact h13
    rw [if_pos this, hd0 hnv]
    exact ⟨_, rfl, fun hv => absurd hv hnv⟩
  have e13 : toInt32 (LOAD_32 mem 0) = ((13 : Nat) : Int) :=
    (toInt32_eq_small _ _ (LOAD_32_lt _ _) (by decide)).2 h13
  rw [e13, if_neg (by simp), Int.toNat_ofNat, Nat.zero_add]
  by_cases h17 : 17 ≤ mem.length
  swap
  · have hnv : ¬ headerValid mem := fun hv => h17 (by have := hv.2.2.2.1; omega)
    have hs := read_short mem 4 13 (by omega) (by omega)
    have : (((VFile.mk mem 4).read 13).1.length : Int) < ((13 : Nat) : Int) := by omega
    rw [if_pos this, hd0 hnv]
    exact ⟨_, rfl, fun hv => absurd hv hnv⟩
  rw [read_exact mem 4 13 (by omega)]
  dsimp only
  have hl13 : ¬ ((((mem.drop 4).take 13).length : Nat) : Int) < ((13 : Nat) : Int) := by
    simp only [List.length_take, List.length_drop]; omega
  rw [if_neg hl13]
  by_cases hmag : (mem.drop 4).take 13 = SHARKPORT_HEADER
  swap
  · have hnv : ¬ headerValid mem := fun hv => hmag hv.2.2.1
    rw [if_pos (fun h => hmag h.symm), hd0 hnv]
    exact ⟨_, rfl, fun hv => absurd hv hnv⟩
  rw [if_neg (by rw [hmag]; simp)]
  by_cases h21 : 21 ≤ mem.length
  swap
  · have hnv : ¬ headerValid mem := fun hv => h21 hv.2.2.2.1
    rw [if_pos (read_short mem (4 + 13) 4 (by omega) (by omega)), hd0 hnv]
    exact ⟨_, rfl, fun hv => absurd hv hnv⟩
  rw [read_exact mem (4 + 13) 4 (by omega)]
  dsimp only
  rw [if_neg (hl4 (4 + 13) (by omega)), LOAD_32_window]
  by_cases htag : LOAD_32 mem 17 = 0x000F0000
  swap
  · have hnv : ¬ headerValid mem := fun hv => htag hv.2.2.2.2
    have : toInt32 (LOAD_32 mem (4 + 13)) ≠ 0x000F0000 := by
      have := (toInt32_eq_small (LOAD_32 mem 17) 0x000F0000 (LOAD_32_lt _ _) (by decide))
      intro h
      exact htag (this.1 h)
    rw [if_pos this, hd0 hnv]
    exact ⟨_, rfl, fun hv => absurd hv hnv⟩
  have etag : toInt32 (LOAD_32 mem (4 + 13)) = 0x000F0000 :=
    (toInt32_eq_small (LOAD_32 mem 17) 0x000F0000 (LOAD_32_lt _ _) (by decide)).2 htag
  rw [if_neg (by rw [etag]; simp)]
  have hv : headerValid mem := ⟨h4, h13, hmag, h21, htag⟩
  have hdl : declaredLength mem = match payloadLengthOffset mem with
      | some q => if q + 4 ≤ mem.length then toInt32 (LOAD_32 mem q) else 0
      | none => 0 := by
    unfold declaredLength
    exact if_pos hv
  rw [hdl]
  simp only [Nat.reduceAdd]
  have fin : ∀ q, ∃ c,
      (if ((VFile.mk mem q).read 4).1.length < 4 then ((0 : Int), ((VFile.mk mem q).read 4).2)
        else (toInt32 (LOAD_32 ((VFile.mk mem q).read 4).1 0), ((VFile.mk mem q).read 4).2)) =
      ((if q + 4 ≤ mem.length then toInt32 (LOAD_32 mem q) else 0), VFile.mk mem c) ∧
      (q + 4 ≤ mem.length → c = q + 4) := by
    intro q
    by_cases hq : q + 4 ≤ mem.length
    · rw [read_exact mem q 4 hq]
      dsimp only
      rw [if_neg (hl4 q hq), if_pos hq, LOAD_32_window]
      exact ⟨_, rfl, fun _ => rfl⟩
    · rw [if_pos (read_short mem q 4 (by omega) (by omega)), if_neg hq]
      exact ⟨_, rfl, fun h => absurd h hq⟩
  unfold payloadLengthOffset
  cases f1 : fieldEnd mem 21 with
  | none =>
    obtain ⟨s1, s2⟩ := skipField_none mem 21 f1
    rcases hsk : skipField ⟨mem, 21⟩ with ⟨r, v⟩
    rw [hsk] at s1 s2
    dsimp only at s1 s2
    subst s1
    obtain ⟨vm, vo⟩ := v
    dsimp only at s2
    subst s2
    exact ⟨vo, rfl, fun _ q hq => by simp at hq⟩
  | some p1 =>
    rw [skipField_some mem 21 p1 f1]
    dsimp only
    rw [Option.some_bind]
    cases f2 : fieldEnd mem p1 with
    | none =>
      obtain ⟨s1, s2⟩ := skipField_none mem p1 f2
      rcases hsk : skipField ⟨mem, p1⟩ with ⟨r, v⟩
      rw [hsk] at s1 s2
      dsimp only at s1 s2
      subst s1
      obtain ⟨vm, vo⟩ := v
      dsimp only at s2
      subst s2
      exact ⟨vo, rfl, fun _ q hq => by simp at hq⟩
    | some p2 =>
      rw [skipField_some mem p1 p2 f2]
      dsimp only
      rw [Option.some_bind]
      cases f3 : fieldEnd mem p2 with
      | none =>
        obtain ⟨s1, s2⟩ := skipField_none mem p2 f3
        rcases hsk : skipField ⟨mem, p2⟩ with ⟨r, v⟩
        rw [hsk] at s1 s2
        dsimp only at s1 s2
        subst s1
        obtain ⟨vm, vo⟩ := v
        dsimp only at s2
        subst s2
        exact ⟨vo, rfl, fun _ q hq => by simp at hq⟩
      | some p3 =>
        rw [skipField_some mem p2 p3 f3]
        dsimp only
        obtain ⟨c, hc1, hc2⟩ := fin p3
        refine ⟨c, hc1, ?_⟩
        intro _ q hq hle
        simp only [Option.some.injEq] at hq
        subst hq
        exact hc2 hle

/-- Within an aligned 8-byte block, `XOR 7` mirrors the index. -/
theorem xor_seven (q t : Nat) (ht : t < 8) : (8 * q + t) ^^^ 7 = 8 * q + (7 - t) := by
  apply Nat.eq_of_testBit_eq
  intro j
  rw [Nat.testBit_xor]
  have h1 := Nat.testBit_mul_pow_two_add q (show t < 2 ^ 3 from ht) j
  have h2 := Nat.testBit_mul_pow_two_add q (show 7 - t < 2 ^ 3 by omega) j
  have e : (2 : Nat) ^ 3 = 8 := rfl
  rw [e] at h1 h2
  rw [h1, h2]
  have h7 : Nat.testBit 7 j = decide (j < 3) := Nat.testBit_two_pow_sub_one 3 j
  rw [h7]
  by_cases hj : j < 3
  · simp only [hj, if_true, decide_True]
    interval_cases t <;> interval_cases j <;> decide
  · simp only [hj, if_false, decide_False, Bool.xor_false]

theorem STORE_32LE_cons (v off a : Nat) (d : List Nat) :
    STORE_32LE v (off + 1) (a :: d) = a :: STORE_32LE v off d := by
  simp only [STORE_32LE, List.set_cons_succ, Nat.add_right_comm off _ 1]

theorem STORE_32LE_append (v off : Nat) (A B C : List Nat) (hA : A.length = off)
    (hB : B.length = 4) :
    STORE_32LE v off (A ++ (B ++ C)) = A ++ (STORE_32 v ++ C) := by
  subst hA
  induction A with
  | nil =>
    match B, hB with
    | [b0, b1, b2, b3], _ => rfl
  | cons a A ih =>
    rw [List.length_cons, List.cons_append, STORE_32LE_cons, ih, List.cons_append]

theorem eepromSwapBlock_length (P : List Nat) (i : Nat) : (eepromSwapBlock P i).length = 8 := rfl

theorem eepromSwapBlocks_length (P : List Nat) (i n : Nat) :
    (eepromSwapBlocks P i n).length = 8 * n := by
  induction n generalizing i with
  | zero => rfl
  | succ n ih =>
    rw [eepromSwapBlocks, List.length_append, ih, eepromSwapBlock_length]
    omega

/-- The EEPROM copy loop rewrites `n` whole blocks in place. -/
theorem importEepromLoop_blocks (P : List Nat) (n : Nat) :
    ∀ (fuel i size : Nat) (A B C : List Nat), A.length = i → B.length = 8 * n →
      size = i + 8 * n → n ≤ fuel →
      importEepromLoop fuel i size P (A ++ (B ++ C)) = A ++ (eepromSwapBlocks P i n ++ C) := by
  induction n with
  | zero =>
    intro fuel i size A B C hA hB hs _
    have hB0 : B = [] := List.eq_nil_of_length_eq_zero (by omega)
    subst hB0
    cases fuel with
    | zero => rfl
    | succ f =>
      unfold importEepromLoop
      rw [if_neg (by omega)]
      rfl
  | succ n ih =>
    intro fuel i size A B C hA hB hs hf
    cases fuel with
    | zero => omega
    | succ f =>
      unfold importEepromLoop
      rw [if_pos (by omega)]
      dsimp only
      have hsplit : B = B.take 4 ++ ((B.drop 4).take 4 ++ B.drop 8) := by
        have e8 : B.drop 8 = (B.drop 4).drop 4 := by rw [List.drop_drop]
        rw [e8, List.take_append_drop, List.take_append_drop]
      have l1 : (B.take 4).length = 4 := by rw [List.length_take]; omega
      have l2 : ((B.drop 4).take 4).length = 4 := by
        rw [List.length_take, List.length_drop]; omega
      have l3 : (B.drop 8).length = 8 * n := by rw [List.length_drop]; omega
      rw [hsplit, List.append_assoc, List.append_assoc]
      rw [STORE_32LE_append _ i A (B.take 4) _ hA l1]
      rw [← List.append_assoc A]
      rw [STORE_32LE_append _ (i + 4) (A ++ STORE_32 (LOAD_32BE P (i + 4))) ((B.drop 4).take 4) _
        (by rw [List.length_append, STORE_32_length, hA]) l2]
      rw [← List.append_assoc]
      rw [ih f (i + 8) size _ (B.drop 8) C
        (by simp only [List.length_append, STORE_32_length, hA]) l3 (by omega) (by omega)]
      simp only [eepromSwapBlocks, eepromSwapBlock, List.append_assoc]

/-- The EEPROM copy loop as run by the import (fuel `size`, from index 0) on a length that is a
multiple of 8 within the buffer: the first `size` bytes become the swapped payload blocks. -/
theorem importEepromLoop_eq (P data : List Nat) (size : Nat) (h8 : 8 ∣ size)
    (hle : size ≤ data.length) :
    importEepromLoop size 0 size P data = eepromSwapBlocks P 0 (size / 8) ++ data.drop size := by
  have h := importEepromLoop_blocks P (size / 8) size 0 size [] (data.take size) (data.drop size)
    rfl (by rw [List.length_take]; omega) (by omega) (by omega)
  rw [List.nil_append, List.take_append_drop, List.nil_append] at h
  exact h

theorem getD_lt_of_bytes (data : List Nat) (hb : ∀ b ∈ data, b < 256) (j : Nat) :
    data.getD j 0 < 256 := by
  rw [List.getD_eq_getElem?_getD]
  cases h : data[j]? with
  | none => simp
  | some x =>
    simp only [Option.getD_some]
    exact hb x (List.getElem?_mem h)

theorem STORE_32_LOAD_32BE (buf : List Nat) (off : Nat)
    (h0 : buf.getD off 0 < 256) (h1 : buf.getD (off + 1) 0 < 256)
    (h2 : buf.getD (off + 2) 0 < 256) (h3 : buf.getD (off + 3) 0 < 256) :
    STORE_32 (LOAD_32BE buf off) =
      [buf.getD (off + 3) 0, buf.getD (off + 2) 0, buf.getD (off + 1) 0, buf.getD off 0] := by
  unfold STORE_32 LOAD_32BE
  simp only [Nat.reducePow]
  congr 1
  · omega
  congr 1
  · omega
  congr 1
  · omega
  congr 1
  omega

theorem eepromEmit_getD (data : List Nat) (n j : Nat) (hj : j < n) :
    (eepromEmit data 0 n).getD j 0 = data.getD (j ^^^ 7) 0 := by
  unfold eepromEmit
  rw [List.getD_eq_getElem?_getD, List.getElem?_map, List.getElem?_range' _ _ hj]
  simp

theorem take8_drop (data : List Nat) (i : Nat) (h : i + 8 ≤ data.length) :
    (data.drop i).take 8 =
      [data.getD i 0, data.getD (i + 1) 0, data.getD (i + 2) 0, data.getD (i + 3) 0,
        data.getD (i + 4) 0, data.getD (i + 5) 0, data.getD (i + 6) 0, data.getD (i + 7) 0] := by
  have g : ∀ j, j < data.length → data.drop j = data.getD j 0 :: data.drop (j + 1) := by
    intro j hj
    rw [List.drop_eq_getElem_cons hj, List.getD_eq_getElem _ _ hj]
  rw [g i (by omega), g (i + 1) (by omega), g (i + 1 + 1) (by omega), g (i + 1 + 1 + 1) (by omega),
    g (i + 1 + 1 + 1 + 1) (by omega), g (i + 1 + 1 + 1 + 1 + 1) (by omega),
    g (i + 1 + 1 + 1 + 1 + 1 + 1) (by omega), g (i + 1 + 1 + 1 + 1 + 1 + 1 + 1) (by omega)]
  rfl

/-- Swapping the block at an aligned offset of the bytes an EEPROM export emits gives back the
save-memory block at that offset. -/
theorem eepromSwapBlock_emit (data : List Nat) (hb : ∀ b ∈ data, b < 256) (q : Nat)
    (h : 8 * q + 8 ≤ data.length) :
    eepromSwapBlock (eepromEmit data 0 data.length) (8 * q) = (data.drop (8 * q)).take 8 := by
  have e : ∀ t, t < 8 →
      (eepromEmit data 0 data.length).getD (8 * q + t) 0 = data.getD (8 * q + (7 - t)) 0 := by
    intro t ht
    rw [eepromEmit_getD data _ _ (by omega), xor_seven q t ht]
  have b := getD_lt_of_bytes data hb
  unfold eepromSwapBlock
  have e0 := e 0 (by omega)
  rw [Nat.add_zero] at e0
  rw [STORE_32_LOAD_32BE _ (8 * q + 4)
      (by rw [e 4 (by omega)]; exact b _) (by rw [Nat.add_assoc, e 5 (by omega)]; exact b _)
      (by rw [Nat.add_assoc, e 6 (by omega)]; exact b _)
      (by rw [Nat.add_assoc, e 7 (by omega)]; exact b _),
    STORE_32_LOAD_32BE _ (8 * q)
      (by rw [e0]; exact b _) (by rw [e 1 (by omega)]; exact b _)
      (by rw [e 2 (by omega)]; exact b _) (by rw [e 3 (by omega)]; exact b _)]
  rw [take8_drop data (8 * q) h]
  simp only [Nat.add_assoc, Nat.reduceAdd, e 1 (by omega), e 2 (by omega), e 3 (by omega),
    e 4 (by omega), e 5 (by omega), e 6 (by omega), e 7 (by omega), e0, Nat.reduceSub,
    List.cons_append, List.nil_append, Nat.add_zero]

theorem eepromSwapBlocks_emit (data : List Nat) (hb : ∀ b ∈ data, b < 256) (n : Nat) :
    ∀ q, 8 * q + 8 * n ≤ data.length →
      eepromSwapBlocks (eepromEmit data 0 data.length) (8 * q) n = (data.drop (8 * q)).take (8 * n) := by
  induction n with
  | zero => intro q _; rfl
  | succ n ih =>
    intro q h
    rw [eepromSwapBlocks, eepromSwapBlock_emit data hb q (by omega)]
    have e : 8 * q + 8 = 8 * (q + 1) := by omega
    rw [e, ih (q + 1) (by omega)]
    have e2 : 8 * (n + 1) = 8 + 8 * n := by omega
    rw [e2, List.take_add, List.drop_drop, ← e]

/-- The block at index `q` of a run of swapped blocks. -/
theorem eepromSwapBlocks_block (P : List Nat) (n : Nat) :
    ∀ (i q : Nat) (C : List Nat), q < n →
      ((eepromSwapBlocks P i n ++ C).drop (8 * q)).take 8 = eepromSwapBlock P (i + 8 * q) := by
  induction n with
  | zero => intro i q C h; omega
  | succ n ih =>
    intro i q C h
    rw [eepromSwapBlocks, List.append_assoc]
    cases q with
    | zero =>
      rw [Nat.mul_zero, List.drop_zero, Nat.add_zero,
        List.take_append_of_le_length (by rw [eepromSwapBlock_length])]
      exact List.take_of_length_le (by rw [eepromSwapBlock_length])
    | succ q =>
      have e : 8 * (q + 1) = (eepromSwapBlock P i).length + 8 * q := by
        rw [eepromSwapBlock_length]; omega
      rw [e, List.drop_append, ih (i + 8) q C (by omega)]
      congr 1
      rw [eepromSwapBlock_length]
      omega

theorem strftimeLen_le (ts : List Nat) : strftimeLen ts ≤ ts.length := by
  unfold strftimeLen
  split_ifs <;> omega

/-- The checks the export actually makes: it returns `true` as soon as the checked writes are
complete, the title write reports at least 4 bytes, and the size is not 0; the one-byte payload
writes of an EEPROM save are not looked at. -/
theorem export_flag_true (impl : Impl) (accept : Nat → Nat → Nat) (ts : List Nat) (gba : GBA)
    (vf : VFile) (hs : GBASavedataSize gba.savedata ≠ 0)
    (h0 : 4 ≤ accept 0 4) (h1 : 13 ≤ accept 1 13) (h2 : 4 ≤ accept 2 4) (h3 : 4 ≤ accept 3 4)
    (h4 : 4 ≤ accept 4 12) (h5 : strftimeLen ts + 4 ≤ accept 5 (strftimeLen ts + 4))
    (h6 : 4 ≤ accept 6 4) (h7 : 4 ≤ accept 7 4) (h8 : 28 ≤ accept 8 28)
    (hp : if gba.savedata.type = SAVEDATA_EEPROM then
        4 ≤ accept (9 + GBASavedataSize gba.savedata) 4
      else GBASavedataSize gba.savedata ≤ accept 9 (GBASavedataSize gba.savedata) ∧
        GBASavedataSize gba.savedata ≤ gba.savedata.data.length ∧ 4 ≤ accept 10 4) :
    (GBASavedataExportSharkPort impl accept ts gba vf).1 = true := by
  have hle := savedataSize_le gba.savedata
  have hS : (0x1C + GBASavedataSize gba.savedata) % 2 ^ 32 = GBASavedataSize gba.savedata + 0x1C := by
    omega
  have hsub : GBASavedataSize gba.savedata + 28 - 28 = GBASavedataSize gba.savedata := by omega
  have hl : SHARKPORT_HEADER.length = 13 := rfl
  have hti : ((gba.rom.title ++ List.replicate 12 0).take 12).length = 12 := by
    simp [List.length_take]
  have hT := strftimeLen_le ts
  have hts : (STORE_32 (strftimeLen ts) ++ ts.take (strftimeLen ts)).length = strftimeLen ts + 4 := by
    rw [List.length_append, STORE_32_length, List.length_take]
    omega
  unfold GBASavedataExportSharkPort
  simp only [hS, hsub, hl, apply_ite Prod.fst, write_count, STORE_32_length, hti, hts,
    cartHeader_length]
  iterate 10 rw [if_neg (by omega)]
  by_cases ht : gba.savedata.type = SAVEDATA_EEPROM
  · rw [if_pos ht] at hp ⊢
    rw [if_neg (by omega)]
  · rw [if_neg ht] at hp ⊢
    rw [List.length_take, if_neg (by omega), if_neg (by omega)]

theorem acceptAll_completes : Completes acceptAll := fun _ n => Nat.le_refl n

/-- A complete export of a region that declares size 0 stops at the size check: the stream holds
the metadata section and nothing else. -/
theorem export_size_zero_complete (impl : Impl) (accept : Nat → Nat → Nat) (ts : List Nat)
    (gba : GBA) (hacc : Completes accept) (h : GBASavedataSize gba.savedata = 0) :
    GBASavedataExportSharkPort impl accept ts gba ⟨[], 0⟩ =
      (false, ⟨exportMetadata (ts.take (strftimeLen ts)) gba,
        (exportMetadata (ts.take (strftimeLen ts)) gba).length⟩) := by
  have hl : SHARKPORT_HEADER.length = 13 := rfl
  have hti : ((gba.rom.title ++ List.replicate 12 0).take 12).length = 12 := by
    simp [List.length_take]
  have hT := strftimeLen_le ts
  have htl : (ts.take (strftimeLen ts)).length = strftimeLen ts := by
    rw [List.length_take]; omega
  unfold GBASavedataExportSharkPort
  simp only [h, hl, Nat.add_zero, Nat.reducePow, Nat.reduceMod, if_true]
  rw [show (VFile.mk [] 0) = VFile.mk [] ([] : List Nat).length from rfl]
  rw [write_append _ (STORE_32 13) (accept 0 4) (hacc 0 4)]
  dsimp only
  rw [write_append _ SHARKPORT_HEADER (accept 1 13) (hacc 1 13)]
  dsimp only
  rw [write_append _ (STORE_32 983040) (accept 2 4) (hacc 2 4)]
  dsimp only
  rw [write_append _ (STORE_32 12) (accept 3 4) (hacc 3 4)]
  dsimp only
  rw [write_append _ _ (accept 4 12) (le_trans (Nat.le_of_eq hti) (hacc 4 12))]
  dsimp only
  rw [write_append _ (STORE_32 (strftimeLen ts) ++ ts.take (strftimeLen ts))
    (accept 5 (strftimeLen ts + 4))
    (le_trans (by rw [List.length_append, STORE_32_length, htl]; omega) (hacc 5 _))]
  dsimp only
  rw [write_append _ (STORE_32 0) (accept 6 4) (hacc 6 4)]
  dsimp only
  have c1 : ¬ (STORE_32 (strftimeLen ts) ++ ts.take (strftimeLen ts)).length
      < strftimeLen ts + 4 := by
    rw [List.length_append, STORE_32_length, htl]; omega
  have c3 : ¬ (List.take 12 (gba.rom.title ++ List.replicate 12 0)).length < 4 := by omega
  simp only [STORE_32_length, hl, Nat.lt_irrefl, if_false, c1, c3]
  simp only [exportMetadata, List.append_assoc, List.nil_append, htl]

theorem exportLayout_eq_container (impl : Impl) (ts : List Nat) (gba : GBA) :
    exportLayout impl ts gba =
      containerPrefix ((gba.rom.title ++ List.replicate 12 0).take 12) ts []
          (28 + GBASavedataSize gba.savedata) ++
        (cartHeader gba.rom ++ (exportPayload gba ++ STORE_32 (exportChecksum impl gba))) := by
  have hti : ((gba.rom.title ++ List.replicate 12 0).take 12).length = 12 := by
    simp [List.length_take]
  simp only [exportLayout, containerPrefix, List.append_assoc, hti, List.length_nil,
    List.nil_append]

theorem strftimeLen_of_lt (ts : List Nat) (h : ts.length ≤ 23) : strftimeLen ts = ts.length := by
  unfold strftimeLen
  rw [if_pos (by omega)]

theorem strftimeLen_of_ge (ts : List Nat) (h : 24 ≤ ts.length) : strftimeLen ts = 0 := by
  unfold strftimeLen
  rw [if_neg (by omega)]

set_option maxRecDepth 100000 in
/-- With the 24-byte sample time the export succeeds, the stream is not the claimed layout, and
the timestamp length field holds 0. -/
theorem longTime_export_facts :
    (GBASavedataExportSharkPort ⟨true, false⟩ acceptAll longTime eeprom512GBA ⟨[], 0⟩).1 = true ∧
    (GBASavedataExportSharkPort ⟨true, false⟩ acceptAll longTime eeprom512GBA ⟨[], 0⟩).2.mem ≠
      exportLayout ⟨true, false⟩ longTime eeprom512GBA ∧
    ((GBASavedataExportSharkPort ⟨true, false⟩ acceptAll longTime eeprom512GBA
      ⟨[], 0⟩).2.mem.drop 37).take 4 = STORE_32 0 := by
  decide

theorem containerPrefix_length (f1 f2 f3 : List Nat) (P : Nat) :
    (containerPrefix f1 f2 f3 P).length =
      21 + (4 + f1.length) + (4 + f2.length) + (4 + f3.length) + 4 := by
  simp only [containerPrefix, List.length_append, STORE_32_length]
  have : SHARKPORT_HEADER.length = 13 := rfl
  omega

/-- The scanner returns the declared length of the stream and leaves the bytes as they were. -/
theorem payloadSize_fst (vf : VFile) :
    (GBASavedataSharkPortPayloadSize vf).1 = declaredLength vf.mem := by
  obtain ⟨c, hc, _⟩ := payloadSize_spec vf
  rw [hc]

theorem payloadSize_mem (vf : VFile) : (GBASavedataSharkPortPayloadSize vf).2.mem = vf.mem := by
  obtain ⟨c, hc, _⟩ := payloadSize_spec vf
  rw [hc]

/-- A non-zero scanner result comes from a payload-length field that lies within the file behind a
valid header, and the cursor is left right after that field. -/
theorem payloadSize_nonzero (vf : VFile) (h : (GBASavedataSharkPortPayloadSize vf).1 ≠ 0) :
    headerValid vf.mem ∧ ∃ q, payloadLengthOffset vf.mem = some q ∧ q + 4 ≤ vf.mem.length ∧
      (GBASavedataSharkPortPayloadSize vf).2.offset = q + 4 ∧
      (GBASavedataSharkPortPayloadSize vf).1 = toInt32 (LOAD_32 vf.mem q) := by
  obtain ⟨c, hc, hq⟩ := payloadSize_spec vf
  rw [hc] at h ⊢
  dsimp only at h ⊢
  by_cases hv : headerValid vf.mem
  swap
  · exact absurd (show declaredLength vf.mem = 0 by unfold declaredLength; exact if_neg hv) h
  have hdl : declaredLength vf.mem = match payloadLengthOffset vf.mem with
      | some q => if q + 4 ≤ vf.mem.length then toInt32 (LOAD_32 vf.mem q) else 0
      | none => 0 := by
    unfold declaredLength
    exact if_pos hv
  cases hp : payloadLengthOffset vf.mem with
  | none =>
    rw [hp] at hdl
    exact absurd hdl h
  | some q =>
    rw [hp] at hdl
    dsimp only at hdl
    by_cases hl : q + 4 ≤ vf.mem.length
    · rw [if_pos hl] at hdl
      exact ⟨hv, q, rfl, hl, hq hv q hp hl, hdl⟩
    · rw [if_neg hl] at hdl
      exact absurd hdl h

theorem toInt32_bounds (u : Nat) : -(2 ^ 31 : Int) ≤ toInt32 u ∧ toInt32 u < 2 ^ 31 := by
  unfold toInt32
  have := Nat.mod_lt u (show 0 < 2 ^ 32 by decide)
  split_ifs <;> omega

theorem toInt32_neg_iff (u : Nat) (hu : u < 2 ^ 32) : toInt32 u < 0 ↔ 2 ^ 31 ≤ u := by
  unfold toInt32
  rw [Nat.mod_eq_of_lt hu]
  split_ifs <;> omega

theorem declaredLength_bounds (mem : List Nat) :
    -(2 ^ 31 : Int) ≤ declaredLength mem ∧ declaredLength mem < 2 ^ 31 := by
  unfold declaredLength
  split_ifs
  · cases payloadLengthOffset mem with
    | none =>
      show -(2 ^ 31 : Int) ≤ 0 ∧ (0 : Int) < 2 ^ 31
      exact ⟨by decide, by decide⟩
    | some q =>
      dsimp only
      split_ifs
      · exact toInt32_bounds _
      · exact ⟨by decide, by decide⟩
  · exact ⟨by decide, by decide⟩

theorem read_length (vf : VFile) (n : Nat) :
    (vf.read n).1.length = min n (vf.mem.length - vf.offset) := by
  unfold VFile.read
  simp only [List.length_take, List.length_drop]

/-- A successful extraction has read header, payload and the four checksum bytes in full: the
stream holds at least `P + 4` bytes after the payload-length field. -/
theorem getPayload_some_fits (impl : Impl) (vf : VFile) (tc : Bool) (p : Payload)
    (h : (GBASavedataSharkPortGetPayload impl vf tc).ret = some p) :
    ((GBASavedataSharkPortPayloadSize vf).2.offset : Int) +
      (GBASavedataSharkPortPayloadSize vf).1 + 4 ≤ (vf.mem.length : Int) := by
  have hmem := payloadSize_mem vf
  unfold GBASavedataSharkPortGetPayload at h
  simp only [] at h
  split_ifs at h with h1 h2 h3 h4 h5 h6
  have r1 := read_length (GBASavedataSharkPortPayloadSize vf).2 28
  have o1 := VFile.read_offset (GBASavedataSharkPortPayloadSize vf).2 28
  have r2 := read_length ((GBASavedataSharkPortPayloadSize vf).2.read 28).2
    ((GBASavedataSharkPortPayloadSize vf).1 - 28).toNat
  have o2 := VFile.read_offset ((GBASavedataSharkPortPayloadSize vf).2.read 28).2
    ((GBASavedataSharkPortPayloadSize vf).1 - 28).toNat
  have r3 := read_length (((GBASavedataSharkPortPayloadSize vf).2.read 28).2.read
    ((GBASavedataSharkPortPayloadSize vf).1 - 28).toNat).2 4
  simp only [VFile.read_mem, hmem] at r1 r2 r3
  omega

/-- The bytes a successful extraction returns, as positions of the stream. -/
theorem getPayload_some_bytes (impl : Impl) (vf : VFile) (tc : Bool) (p : Payload)
    (h : (GBASavedataSharkPortGetPayload impl vf tc).ret = some p) :
    p.header = (vf.mem.drop (GBASavedataSharkPortPayloadSize vf).2.offset).take 28 ∧
    p.payload =
      (vf.mem.drop ((GBASavedataSharkPortPayloadSize vf).2.offset + 28)).take p.size := by
  have inv := getPayload_some_inv impl vf tc p h
  have hmem := payloadSize_mem vf
  have hh : p.header = (vf.mem.drop (GBASavedataSharkPortPayloadSize vf).2.offset).take 28 := by
    rw [inv.2.2.2.1]
    unfold VFile.read
    dsimp only
    rw [hmem]
  refine ⟨hh, ?_⟩
  have hl := inv.2.2.2.2.1
  rw [inv.2.2.2.1] at hl
  rw [inv.2.2.2.2.2.1]
  have o1 := VFile.read_offset (GBASavedataSharkPortPayloadSize vf).2 28
  rw [hl] at o1
  have m1 := VFile.read_mem (GBASavedataSharkPortPayloadSize vf).2 28
  rw [hmem] at m1
  generalize ((GBASavedataSharkPortPayloadSize vf).2.read 28).2 = v at o1 m1
  unfold VFile.read
  dsimp only
  rw [m1, o1]

/-- Each aligned 8-byte block of the bytes an EEPROM export emits is the save-memory block in
reverse order. -/
theorem eepromEmit_block (data : List Nat) (q : Nat) (h : 8 * q + 8 ≤ data.length) :
    ((eepromEmit data 0 data.length).drop (8 * q)).take 8 =
      ((data.drop (8 * q)).take 8).reverse := by
  have e : ∀ t, t < 8 →
      (eepromEmit data 0 data.length).getD (8 * q + t) 0 = data.getD (8 * q + (7 - t)) 0 := by
    intro t ht
    rw [eepromEmit_getD data _ _ (by omega), xor_seven q t ht]
  have e0 := e 0 (by omega)
  rw [Nat.add_zero] at e0
  rw [take8_drop _ (8 * q) (by rw [eepromEmit_length]; exact h), take8_drop data (8 * q) h]
  simp only [e 1 (by omega), e 2 (by omega), e 3 (by omega), e 4 (by omega), e 5 (by omega),
    e 6 (by omega), e 7 (by omega), e0, Nat.reduceSub, List.reverse_cons, List.reverse_nil,
    List.nil_append, List.cons_append, Nat.add_zero]

theorem exportPayload_plain (gba : GBA) (ht : gba.savedata.type ≠ SAVEDATA_EEPROM)
    (hd : gba.savedata.data.length = GBASavedataSize gba.savedata) :
    exportPayload gba = gba.savedata.data := by
  unfold exportPayload
  rw [if_neg ht]
  exact List.take_of_length_le (by omega)

theorem exportLayout_drop_checksum (impl : Impl) (ts : List Nat) (gba : GBA) :
    (exportLayout impl ts gba).drop ((exportLayout impl ts gba).length - 4) =
      STORE_32 (exportChecksum impl gba) := by
  unfold exportLayout
  rw [List.length_append _ (STORE_32 _), STORE_32_length, Nat.add_sub_cancel, List.drop_left]

theorem referenceChecksum_eq (bytes : List Nat) :
    referenceChecksum bytes = checksumLoop signExtend 0 bytes := rfl

/-- For the SRAM sample, an exporter whose plain `char` is unsigned stores a checksum that is
not the reference rolling sum. -/
theorem sram_unsigned_not_reference :
    checksumLoop zeroExtend 0 (cartHeader sampleCart ++ sramGBA.savedata.data) ≠
      referenceChecksum (cartHeader sampleCart ++ sramGBA.savedata.data) := by
  have hdata : sramGBA.savedata.data = 0x80 :: List.replicate 0x7FFF 0 := rfl
  rw [referenceChecksum_eq, hdata, checksumLoop_append, checksumLoop_append, checksumLoop_cons,
    checksumLoop_cons,
    checksumLoop_zeros signExtend (by decide) _ _ (checksumStep_lt _ _ _),
    checksumLoop_zeros zeroExtend (by decide) _ _ (checksumStep_lt _ _ _)]
  decide

/-- The region the import writes to has a data area of its declared size when the region it
started from had. -/
theorem importTarget_length (sd : GBASavedata) (n : Nat)
    (hd : sd.data.length = GBASavedataSize sd) :
    (importTarget sd n).data.length = GBASavedataSize (importTarget sd n) := by
  unfold importTarget
  split_ifs with h
  · unfold GBASavedataForceType
    rw [if_neg (by rw [h.1]; decide)]
    unfold GBASavedataSize
    dsimp only
    rw [List.length_take, List.length_append, List.length_replicate]
    omega
  · exact hd

/-- The buffer extracted from `eepromSizedContainer`. -/
theorem eepromSizedContainer_payload (impl : Impl) :
    (GBASavedataSharkPortGetPayload impl eepromSizedContainer false).ret =
      some ⟨eepromSizedPayload.length, cartHeader sampleCart, eepromSizedPayload⟩ :=
  have hl : eepromSizedPayload.length = 0x200 := by
    unfold eepromSizedPayload
    rw [List.length_append, List.length_replicate]
    rfl
  getPayload_container_unverified impl 0 [] [] [] (cartHeader sampleCart)
    eepromSizedPayload [0, 0, 0, 0] [] (by decide) (by decide) (by decide)
    (cartHeader_length _) rfl (by rw [hl]; decide) (by rw [hl]; decide)

theorem eepromOversizedPayload_length : eepromOversizedPayload.length = 0x201 := by
  unfold eepromOversizedPayload eepromSizedPayload
  rw [List.length_append, List.length_append, List.length_replicate]
  rfl

/-- The buffer extracted from `eepromOversizedContainer`. -/
theorem eepromOversizedContainer_payload (impl : Impl) :
    (GBASavedataSharkPortGetPayload impl eepromOversizedContainer false).ret =
      some ⟨eepromOversizedPayload.length, cartHeader plainCart, eepromOversizedPayload⟩ :=
  getPayload_container_unverified impl 0 [] [] [] (cartHeader plainCart)
    eepromOversizedPayload [0, 0, 0, 0] [] (by decide) (by decide) (by decide)
    (cartHeader_length _) rfl (by rw [eepromOversizedPayload_length]; decide)
    (by rw [eepromOversizedPayload_length]; decide)

/-! ## Lemmas about exchanges, the allocation ledger and bounds -/

theorem checksumStep_zero (ext : Nat → Nat) (h0 : ext 0 = 0) (c : Nat) (hc : c < 2 ^ 32) :
    checksumStep ext c 0 = c := by
  unfold checksumStep
  rw [h0, Nat.zero_mul, Nat.add_zero, Nat.mod_eq_of_lt hc]

/-- A byte and a zero byte with only zero bytes between them can trade places without moving the
rolling sum. -/
theorem checksumLoop_exchange_zero (ext : Nat → Nat) (h0 : ext 0 = 0) (c : Nat)
    (hc : c < 2 ^ 32) (x n : Nat) (post : List Nat) :
    checksumLoop ext c (0 :: (List.replicate n 0 ++ x :: post)) =
      checksumLoop ext c (x :: (List.replicate n 0 ++ 0 :: post)) := by
  rw [checksumLoop_cons, checksumStep_zero ext h0 c hc, checksumLoop_append,
    checksumLoop_zeros ext h0 c n hc, checksumLoop_cons, checksumLoop_cons, checksumLoop_append,
    checksumLoop_zeros ext h0 _ n (checksumStep_lt _ _ _), checksumLoop_cons,
    checksumStep_zero ext h0 _ (checksumStep_lt _ _ _)]

theorem exchange_append (pre mid post : List Nat) (x y : Nat) :
    exchange (pre ++ x :: (mid ++ y :: post)) pre.length (pre.length + mid.length + 1) =
      pre ++ y :: (mid ++ x :: post) := by
  unfold exchange
  have g1 : (pre ++ x :: (mid ++ y :: post)).getD (pre.length + mid.length + 1) 0 = y := by
    rw [List.getD_eq_getElem?_getD, List.getElem?_append_right (by omega)]
    have e : pre.length + mid.length + 1 - pre.length = mid.length + 1 := by omega
    rw [e, List.getElem?_cons_succ, List.getElem?_append_right (Nat.le_refl _), Nat.sub_self,
      List.getElem?_cons_zero, Option.getD_some]
  have g2 : (pre ++ x :: (mid ++ y :: post)).getD pre.length 0 = x := by
    rw [List.getD_eq_getElem?_getD, List.getElem?_append_right (Nat.le_refl _), Nat.sub_self,
      List.getElem?_cons_zero, Option.getD_some]
  rw [g1, g2]
  apply List.ext_getElem?
  intro k
  rw [List.getElem?_set, List.getElem?_set]
  by_cases h1 : k < pre.length
  · rw [if_neg (by omega), if_neg (by omega), List.getElem?_append_left h1,
      List.getElem?_append_left h1]
  · by_cases h2 : k = pre.length
    · subst h2
      rw [if_neg (by omega), if_pos rfl, List.getElem?_append_right (Nat.le_refl _), Nat.sub_self,
        if_pos (by rw [List.length_append]; simp), List.getElem?_cons_zero]
    · rw [List.getElem?_append_right (by omega), List.getElem?_append_right (by omega)]
      obtain ⟨d, hd⟩ : ∃ d, k - pre.length = d + 1 := ⟨k - pre.length - 1, by omega⟩
      rw [hd, List.getElem?_cons_succ, List.getElem?_cons_succ]
      by_cases h3 : d < mid.length
      · rw [if_neg (by omega), if_neg (by omega), List.getElem?_append_left h3,
          List.getElem?_append_left h3]
      · by_cases h4 : d = mid.length
        · have hk : pre.length + mid.length + 1 = k := by omega
          rw [if_pos hk, List.getElem?_append_right (by omega)]
          have e : d - mid.length = 0 := by omega
          rw [e, if_pos (by simp [List.length_append]; omega), List.getElem?_cons_zero]
        · rw [if_neg (by omega), if_neg (by omega), List.getElem?_append_right (by omega),
            List.getElem?_append_right (by omega)]
          obtain ⟨d2, hd2⟩ : ∃ d2, d - mid.length = d2 + 1 := ⟨d - mid.length - 1, by omega⟩
          rw [hd2, List.getElem?_cons_succ, List.getElem?_cons_succ]

/-- Exchanging a byte with a zero byte, only zero bytes lying between the two, leaves a rolling
sum unchanged. -/
theorem checksumLoop_exchange (ext : Nat → Nat) (h0 : ext 0 = 0) (c : Nat) (hc : c < 2 ^ 32)
    (pre post : List Nat) (x y n : Nat) (h : x = 0 ∨ y = 0) :
    checksumLoop ext c
        (exchange (pre ++ x :: (List.replicate n 0 ++ y :: post)) pre.length (pre.length + n + 1))
      = checksumLoop ext c (pre ++ x :: (List.replicate n 0 ++ y :: post)) := by
  have e := exchange_append pre (List.replicate n 0) post x y
  rw [List.length_replicate] at e
  rw [e, checksumLoop_append, checksumLoop_append]
  have hp : checksumLoop ext c pre < 2 ^ 32 := checksumLoop_lt _ _ _ hc
  rcases h with h | h
  · subst h
    exact (checksumLoop_exchange_zero ext h0 _ hp y n post).symm
  · subst h
    exact checksumLoop_exchange_zero ext h0 _ hp x n post

/-- The ledger on the failing exits of the extractor: allocations and releases balance on every
one of them except the checksum-mismatch exit, which is taken under verification with a buffer
allocated and not released. -/
theorem getPayload_none_ledger (impl : Impl) (vf : VFile) (tc : Bool)
    (h : (GBASavedataSharkPortGetPayload impl vf tc).ret = none)
    (hne : (GBASavedataSharkPortGetPayload impl vf tc).mallocs ≠
      (GBASavedataSharkPortGetPayload impl vf tc).frees) :
    tc = true ∧ (GBASavedataSharkPortGetPayload impl vf tc).mallocs = 1 ∧
      (GBASavedataSharkPortGetPayload impl vf tc).frees = 0 := by
  unfold GBASavedataSharkPortGetPayload at h hne ⊢
  simp only [] at h hne ⊢
  split_ifs at h hne ⊢ with h1 h2 h3 h4 h5 h6 h7 h8
  all_goals first
    | exact absurd rfl hne
    | exact ⟨And.left (by assumption), rfl, rfl⟩

/-- The extraction of `staleChecksumContainer` under verification. -/
theorem staleChecksumContainer_ledger (impl : Impl) :
    GBASavedataSharkPortGetPayload impl staleChecksumContainer true =
      ⟨none, ⟨staleChecksumContainer.mem, 70⟩, 1, 0⟩ := by
  rcases impl with ⟨_ | _, _ | _⟩ <;> decide

/-- The extraction of `truncatedContainer`, whose checksum field is cut short. -/
theorem truncatedContainer_ledger (impl : Impl) (tc : Bool) :
    GBASavedataSharkPortGetPayload impl truncatedContainer tc =
      ⟨none, ⟨truncatedContainer.mem, 68⟩, 1, 1⟩ := by
  rcases impl with ⟨_ | _, _ | _⟩ <;> cases tc <;> decide

/-- On a length that is a multiple of 8 and within both buffers, the EEPROM copy loop never
leaves either buffer: the bounds-enforcing loop completes with the result of the loop. -/
theorem importEepromLoopChecked_eq (size : Nat) (payload : List Nat) (h8 : 8 ∣ size)
    (hp : size ≤ payload.length) :
    ∀ (fuel i : Nat) (data : List Nat), 8 ∣ i → size ≤ data.length →
      importEepromLoopChecked fuel i size payload data =
        some (importEepromLoop fuel i size payload data) := by
  intro fuel
  induction fuel with
  | zero => intro i data _ _; rfl
  | succ n ih =>
    intro i data hi hd
    unfold importEepromLoopChecked importEepromLoop
    by_cases hlt : i < size
    · rw [if_pos hlt, if_pos hlt, if_pos ⟨by omega, by omega⟩]
      exact ih (i + 8) _ (by omega) (by rw [STORE_32LE_length, STORE_32LE_length]; exact hd)
    · rw [if_neg hlt, if_neg hlt]

/-- The copy of the import stays within the payload and the save memory when the length is within
both. -/
theorem importCopyChecked_eq (data payload : List Nat) (size : Nat)
    (hp : size ≤ payload.length) (hd : size ≤ data.length) :
    importCopyChecked data payload size = some (importCopy data payload size) := by
  unfold importCopyChecked importCopy
  by_cases he : size = SIZE_CART_EEPROM ∨ size = SIZE_CART_EEPROM512
  · rw [if_pos he, if_pos he]
    have h8 : 8 ∣ size := by
      rcases he with he | he <;> rw [he] <;> decide
    exact importEepromLoopChecked_eq size payload h8 hp size 0 data (Nat.dvd_zero 8) hd
  · rw [if_neg he, if_neg he, if_pos ⟨hp, hd⟩]

/-- Within a length that is a multiple of 8, `XOR 7` stays within the length. -/
theorem xor_seven_lt (n i : Nat) (h8 : 8 ∣ n) (hi : i < n) : i ^^^ 7 < n := by
  have e : i = 8 * (i / 8) + i % 8 := by omega
  rw [e, xor_seven (i / 8) (i % 8) (by omega)]
  omega

/-- A successful import went through extraction, the identity check and the type switch. -/
theorem import_success_inv (impl : Impl) (gba : GBA) (vf : VFile) (tc : Bool)
    (h : (GBASavedataImportSharkPort impl gba vf tc).success = true) :
    ∃ p, (GBASavedataSharkPortGetPayload impl vf tc).ret = some p ∧
      memcmpNe (cartHeader gba.rom) p.header (comparedPrefix tc) = false ∧
      gba.savedata.type ≠ SAVEDATA_FORCE_NONE ∧ gba.savedata.type ≠ SAVEDATA_AUTODETECT := by
  cases hr : (GBASavedataSharkPortGetPayload impl vf tc).ret with
  | none =>
    rw [import_none impl gba vf tc hr] at h
    exact absurd h (by simp)
  | some p =>
    cases hm : memcmpNe (cartHeader gba.rom) p.header (comparedPrefix tc) with
    | true =>
      rw [import_mismatch impl gba vf tc p hr hm] at h
      exact absurd h (by simp)
    | false =>
      by_cases h1 : gba.savedata.type = SAVEDATA_FORCE_NONE
      · rw [import_sentinel impl gba vf tc p hr (Or.inl h1)] at h
        exact absurd h (by simp)
      · by_cases h2 : gba.savedata.type = SAVEDATA_AUTODETECT
        · rw [import_sentinel impl gba vf tc p hr (Or.inr h2)] at h
          exact absurd h (by simp)
        · exact ⟨p, rfl, hm, h1, h2⟩

theorem getD_of_drop_eq (a b : List Nat) (n o : Nat) (h : a.drop n = b.drop n) (ho : n ≤ o) :
    a.getD o 0 = b.getD o 0 := by
  have e : o = n + (o - n) := by omega
  rw [List.getD_eq_getElem?_getD, List.getD_eq_getElem?_getD, e, ← List.getElem?_drop,
    ← List.getElem?_drop, h]

/-! ## The claims -/

/-- C1 (evaluated at failing inputs): export followed by a verified import does not round-trip.
For the SRAM sample (a header byte and a payload byte with the top bit set) the export succeeds
and the import of the exported stream into zeroed SRAM returns `false`, whichever signedness
plain `char` has; for the 512-byte EEPROM sample the import returns `true` but the bytes that
arrive in save memory differ from the exported ones. -/
theorem C1_roundtrip_breaks :
    (∀ impl : Impl,
      (GBASavedataExportSharkPort impl acceptAll sampleTime sramGBA ⟨[], 0⟩).1 = true ∧
      (GBASavedataImportSharkPort impl sramZeroed
        (GBASavedataExportSharkPort impl acceptAll sampleTime sramGBA ⟨[], 0⟩).2 true).success
          = false) ∧
    (∀ impl : Impl,
      (GBASavedataExportSharkPort impl acceptAll sampleTime eeprom512GBA ⟨[], 0⟩).1 = true ∧
      (GBASavedataImportSharkPort impl eeprom512Zeroed
        (GBASavedataExportSharkPort impl acceptAll sampleTime eeprom512GBA ⟨[], 0⟩).2
          true).success = true ∧
      (GBASavedataImportSharkPort impl eeprom512Zeroed
        (GBASavedataExportSharkPort impl acceptAll sampleTime eeprom512GBA ⟨[], 0⟩).2
          true).savedata.data ≠ eeprom512GBA.savedata.data) := by
  exact ⟨sram_roundtrip_rejected, eeprom512_roundtrip_permuted⟩

/-- C2: when the declared payload length returned by `GBASavedataSharkPortPayloadSize` (a signed
32-bit value) is below 28 or above 28 + `SIZE_CART_FLASH1M`, `GBASavedataSharkPortGetPayload`
returns `NULL`; no buffer has been allocated or freed and the stream is where the scanner left
it. -/
theorem C2_out_of_range_rejected (impl : Impl) (vf : VFile) (tc : Bool)
    (h : (GBASavedataSharkPortPayloadSize vf).1 < 28 ∨
      (GBASavedataSharkPortPayloadSize vf).1 > 28 + (SIZE_CART_FLASH1M : Int)) :
    (GBASavedataSharkPortGetPayload impl vf tc).ret = none ∧
    (GBASavedataSharkPortGetPayload impl vf tc).mallocs = 0 ∧
    (GBASavedataSharkPortGetPayload impl vf tc).frees = 0 ∧
    (GBASavedataSharkPortGetPayload impl vf tc).vf = (GBASavedataSharkPortPayloadSize vf).2 := by
  rw [getPayload_out_of_range impl vf tc h]
  exact ⟨rfl, rfl, rfl, rfl⟩

/-- C2 at a container declaring a payload length of 27. -/
theorem C2_out_of_range_rejected_witness :
    (GBASavedataSharkPortPayloadSize shortContainer).1 = 27 ∧
    (GBASavedataSharkPortGetPayload ⟨true, false⟩ shortContainer true).ret = none ∧
    (GBASavedataSharkPortGetPayload ⟨true, false⟩ shortContainer true).mallocs = 0 :=
  ⟨by decide,
    (C2_out_of_range_rejected ⟨true, false⟩ shortContainer true (Or.inl (by decide))).1,
    (C2_out_of_range_rejected ⟨true, false⟩ shortContainer true (Or.inl (by decide))).2.1⟩

/-- C3 (as stated) fails: a container declaring a payload length of exactly 28 is extracted, with
reported size 0, when `malloc(0)` returns a non-null buffer. -/
theorem C3_empty_payload_extracted :
    (GBASavedataSharkPortPayloadSize emptyPayloadContainer).1 = 28 ∧
    (GBASavedataSharkPortGetPayload ⟨true, false⟩ emptyPayloadContainer true).ret
      = some ⟨0, cartHeader sampleCart, []⟩ ∧
    ¬ (∀ p : Payload,
        (GBASavedataSharkPortGetPayload ⟨true, false⟩ emptyPayloadContainer true).ret = some p →
        0 < p.size) := by
  refine ⟨by decide, by decide, ?_⟩
  intro h
  exact absurd (h ⟨0, cartHeader sampleCart, []⟩ (by decide)) (by decide)

/-- C3 (amended): whenever `GBASavedataSharkPortGetPayload` succeeds the reported size is the
declared length minus 28 and satisfies `0 ≤ size ≤ SIZE_CART_FLASH1M`, size 0 being reported
only when `malloc(0)` returns a non-null buffer; and a container whose declared length is exactly
28 passes the size check: with such an allocator it is extracted with size 0 (the stored
checksum having to match only under verification). -/
theorem C3_size_bounds (impl : Impl) :
    (∀ (vf : VFile) (tc : Bool) (p : Payload),
      (GBASavedataSharkPortGetPayload impl vf tc).ret = some p →
      (p.size : Int) = (GBASavedataSharkPortPayloadSize vf).1 - 28 ∧
      0 ≤ p.size ∧ p.size ≤ SIZE_CART_FLASH1M ∧
      (p.size = 0 → impl.mallocZeroNull = false)) ∧
    (∀ (o : Nat) (f1 f2 f3 hdr ck rest : List Nat) (tc : Bool),
      f1.length < 2 ^ 31 → f2.length < 2 ^ 31 → f3.length < 2 ^ 31 →
      hdr.length = 28 → ck.length = 4 →
      impl.mallocZeroNull = false →
      (tc = true → calcChecksum hdr [] = LOAD_32 ck 0) →
      (GBASavedataSharkPortGetPayload impl
        ⟨containerPrefix f1 f2 f3 28 ++ (hdr ++ ([] ++ (ck ++ rest))), o⟩ tc).ret
        = some ⟨0, hdr, []⟩) := by
  constructor
  · intro vf tc p h
    have inv := getPayload_some_inv impl vf tc p h
    have a := inv.1
    have b := inv.2.1
    have c := inv.2.2.1
    refine ⟨by omega, Nat.zero_le _, by omega, inv.2.2.2.2.2.2.2.1⟩
  · intro o f1 f2 f3 hdr ck rest tc h1 h2 h3 hh hc hz hck
    have hG := getPayload_container impl o f1 f2 f3 hdr [] ck rest tc h1 h2 h3 hh hc
      (Nat.zero_le _)
    have e : ([] : List Nat).length + 0x1C = 28 := rfl
    rw [e] at hG
    rw [hG, hz]
    have hn : ¬ (tc = true ∧ calcChecksum hdr [] ≠ LOAD_32 ck 0) := fun h => h.2 (hck h.1)
    rw [if_neg hn]
    rfl

/-- C3 (amended) at the container declaring a payload length of exactly 28. -/
theorem C3_size_bounds_witness :
    (GBASavedataSharkPortGetPayload ⟨true, false⟩ emptyPayloadContainer true).ret
      = some ⟨0, cartHeader sampleCart, []⟩ ∧
    (0 : Nat) ≤ SIZE_CART_FLASH1M ∧
    (GBASavedataSharkPortGetPayload ⟨true, false⟩
      ⟨containerPrefix [] [] [] 28 ++ (cartHeader sampleCart ++ ([] ++ ([0, 0, 0, 0] ++ []))), 0⟩
      false).ret = some ⟨0, cartHeader sampleCart, []⟩ :=
  ⟨by decide,
    ((C3_size_bounds ⟨true, false⟩).1 emptyPayloadContainer true
      ⟨0, cartHeader sampleCart, []⟩ (by decide)).2.2.1,
    (C3_size_bounds ⟨true, false⟩).2 0 [] [] [] (cartHeader sampleCart) [0, 0, 0, 0] [] false
      (by decide) (by decide) (by decide) (by decide) (by decide) rfl (by decide)⟩

/-- C4 (evaluated at failing inputs): the verifier does not compute the reference rolling sum.
A complete container (extracted without verification) whose stored checksum equals the
reference sum over header and payload is rejected under verification, and the same container
sealed with the verifier's own sum (header bytes zero-extended) is accepted although its stored
checksum differs from the reference sum. -/
theorem C4_header_bytes_zero_extended :
    (LOAD_32 ((referenceSealed.mem.drop (37 + 28 + 1)).take 4) 0
        = referenceChecksum (cartHeader sampleCart ++ [0x2A]) ∧
      (∀ impl : Impl,
        (GBASavedataSharkPortGetPayload impl referenceSealed false).ret
          = some ⟨1, cartHeader sampleCart, [0x2A]⟩ ∧
        (GBASavedataSharkPortGetPayload impl referenceSealed true).ret = none)) ∧
    (LOAD_32 ((verifierSealed.mem.drop (37 + 28 + 1)).take 4) 0
        ≠ referenceChecksum (cartHeader sampleCart ++ [0x2A]) ∧
      (∀ impl : Impl,
        (GBASavedataSharkPortGetPayload impl verifierSealed true).ret
          = some ⟨1, cartHeader sampleCart, [0x2A]⟩)) := by
  refine ⟨⟨by decide, ?_⟩, ⟨by decide, ?_⟩⟩
  · rintro ⟨_ | _, _ | _⟩ <;> decide
  · rintro ⟨_ | _, _ | _⟩ <;> decide

/-- C6: `GBASavedataImportSharkPort` returns `false` whenever the container's region header (the
28 bytes after the payload-length field) differs from the header derived from the cartridge
within the compared prefix, 28 bytes under verification and 15 otherwise; hence a difference
within the first 15 bytes makes the import fail for both values of `testChecksum`, whatever the
stored checksum is. -/
theorem C6_identity_mismatch_fails (impl : Impl) (gba : GBA) (vf : VFile) :
    (∀ tc : Bool,
      (containerHeader vf).take (comparedPrefix tc) ≠ (cartHeader gba.rom).take (comparedPrefix tc) →
      (GBASavedataImportSharkPort impl gba vf tc).success = false) ∧
    ((containerHeader vf).take 15 ≠ (cartHeader gba.rom).take 15 →
      ∀ tc : Bool, (GBASavedataImportSharkPort impl gba vf tc).success = false) := by
  have key : ∀ tc : Bool,
      (containerHeader vf).take (comparedPrefix tc) ≠ (cartHeader gba.rom).take (comparedPrefix tc) →
      (GBASavedataImportSharkPort impl gba vf tc).success = false := by
    intro tc hne
    cases hr : (GBASavedataSharkPortGetPayload impl vf tc).ret with
    | none => rw [import_none impl gba vf tc hr]
    | some p =>
      have hh := (getPayload_some_inv impl vf tc p hr).2.2.2.1
      have hm : memcmpNe (cartHeader gba.rom) p.header (comparedPrefix tc) = true := by
        unfold memcmpNe
        rw [hh]
        simp only [decide_eq_true_eq]
        intro he
        exact hne he.symm
      rw [import_mismatch impl gba vf tc p hr hm]
  refine ⟨key, ?_⟩
  intro hne tc
  apply key
  intro he
  apply hne
  have : List.take 15 (List.take (comparedPrefix tc) (containerHeader vf))
      = List.take 15 (List.take (comparedPrefix tc) (cartHeader gba.rom)) := by rw [he]
  cases tc <;> simpa [comparedPrefix, List.take_take] using this

/-- C6 at a container written for another cartridge title. -/
theorem C6_identity_mismatch_fails_witness :
    (containerHeader foreignContainer).take 15 ≠ (cartHeader plainCart).take 15 ∧
    (GBASavedataImportSharkPort ⟨true, false⟩ eeprom512Zeroed foreignContainer false).success
      = false ∧
    (GBASavedataImportSharkPort ⟨true, false⟩ eeprom512Zeroed foreignContainer true).success
      = false :=
  ⟨by decide,
    (C6_identity_mismatch_fails ⟨true, false⟩ eeprom512Zeroed foreignContainer).2 (by decide) false,
    (C6_identity_mismatch_fails ⟨true, false⟩ eeprom512Zeroed foreignContainer).1 true
      (by decide)⟩

/-- C7: for every stream and either value of `testChecksum`, if the save-memory type is
`SAVEDATA_FORCE_NONE` or `SAVEDATA_AUTODETECT` then `GBASavedataImportSharkPort` returns `false`
and the save-memory type and bytes are unchanged. -/
theorem C7_sentinel_type_fails (impl : Impl) (gba : GBA) (vf : VFile) (tc : Bool)
    (h : gba.savedata.type = SAVEDATA_FORCE_NONE ∨ gba.savedata.type = SAVEDATA_AUTODETECT) :
    (GBASavedataImportSharkPort impl gba vf tc).success = false ∧
    (GBASavedataImportSharkPort impl gba vf tc).savedata.type = gba.savedata.type ∧
    (GBASavedataImportSharkPort impl gba vf tc).savedata.data = gba.savedata.data := by
  cases hr : (GBASavedataSharkPortGetPayload impl vf tc).ret with
  | none => rw [import_none impl gba vf tc hr]; exact ⟨rfl, rfl, rfl⟩
  | some p => rw [import_sentinel impl gba vf tc p hr h]; exact ⟨rfl, rfl, rfl⟩

/-- C7 at an autodetect region and a valid container for its cartridge. -/
theorem C7_sentinel_type_fails_witness :
    (GBASavedataSharkPortGetPayload ⟨true, false⟩ verifierSealed true).ret
      = some ⟨1, cartHeader sampleCart, [0x2A]⟩ ∧
    (GBASavedataImportSharkPort ⟨true, false⟩ autodetectGBA verifierSealed true).success = false ∧
    (GBASavedataImportSharkPort ⟨true, false⟩ autodetectGBA verifierSealed true).savedata.data
      = [1, 2, 3, 4] :=
  ⟨by decide,
    (C7_sentinel_type_fails ⟨true, false⟩ autodetectGBA verifierSealed true (Or.inr rfl)).1,
    (C7_sentinel_type_fails ⟨true, false⟩ autodetectGBA verifierSealed true (Or.inr rfl)).2.2⟩

/-- C8: atomicity of import. Whenever `GBASavedataImportSharkPort` returns `false`, the
save-memory type and every save-memory byte are the same as before the call. -/
theorem C8_failed_import_preserves_savedata (impl : Impl) (gba : GBA) (vf : VFile) (tc : Bool)
    (h : (GBASavedataImportSharkPort impl gba vf tc).success = false) :
    (GBASavedataImportSharkPort impl gba vf tc).savedata.type = gba.savedata.type ∧
    (GBASavedataImportSharkPort impl gba vf tc).savedata.data = gba.savedata.data := by
  cases hr : (GBASavedataSharkPortGetPayload impl vf tc).ret with
  | none => rw [import_none impl gba vf tc hr]; exact ⟨rfl, rfl⟩
  | some p =>
    cases hm : memcmpNe (cartHeader gba.rom) p.header (comparedPrefix tc) with
    | true => rw [import_mismatch impl gba vf tc p hr hm]; exact ⟨rfl, rfl⟩
    | false =>
      by_cases h1 : gba.savedata.type = SAVEDATA_FORCE_NONE
      · rw [import_sentinel impl gba vf tc p hr (Or.inl h1)]; exact ⟨rfl, rfl⟩
      · by_cases h2 : gba.savedata.type = SAVEDATA_AUTODETECT
        · rw [import_sentinel impl gba vf tc p hr (Or.inr h2)]; exact ⟨rfl, rfl⟩
        · rw [import_copy impl gba vf tc p hr hm h1 h2] at h
          exact absurd h (by simp)

/-- C8 at a container sealed with the reference checksum, which verification rejects. -/
theorem C8_failed_import_preserves_savedata_witness :
    (GBASavedataImportSharkPort ⟨true, false⟩ flash512GBA referenceSealed true).success = false ∧
    (GBASavedataImportSharkPort ⟨true, false⟩ flash512GBA referenceSealed true).savedata.type
      = SAVEDATA_FLASH512 ∧
    (GBASavedataImportSharkPort ⟨true, false⟩ flash512GBA referenceSealed true).savedata.data
      = flash512GBA.savedata.data :=
  have hf : (GBASavedataImportSharkPort ⟨true, false⟩ flash512GBA referenceSealed true).success
      = false := by
    rw [import_none ⟨true, false⟩ flash512GBA referenceSealed true (by decide)]
  ⟨hf,
    (C8_failed_import_preserves_savedata ⟨true, false⟩ flash512GBA referenceSealed true hf).1,
    (C8_failed_import_preserves_savedata ⟨true, false⟩ flash512GBA referenceSealed true hf).2⟩

/-- C9: if the save-memory type is `SAVEDATA_FLASH512`, the identity check passes and the
extracted payload size `n` satisfies `SIZE_CART_FLASH512 < n` (it is at most `SIZE_CART_FLASH1M`
by the extractor's size check), then `GBASavedataImportSharkPort` returns `true`, the save type
afterwards is `SAVEDATA_FLASH1M`, and exactly `n = min n SIZE_CART_FLASH1M` bytes are written:
the first `n` bytes of save memory equal the payload and the bytes after them are those of the
re-typed region; if `n ≤ SIZE_CART_FLASH512` the import succeeds and the type stays
`SAVEDATA_FLASH512`. -/
theorem C9_flash512_upgrade (impl : Impl) (gba : GBA) (vf : VFile) (tc : Bool) (p : Payload)
    (ht : gba.savedata.type = SAVEDATA_FLASH512)
    (hp : (GBASavedataSharkPortGetPayload impl vf tc).ret = some p)
    (hid : (cartHeader gba.rom).take (comparedPrefix tc) = p.header.take (comparedPrefix tc)) :
    p.size ≤ SIZE_CART_FLASH1M ∧
    (SIZE_CART_FLASH512 < p.size →
      (GBASavedataImportSharkPort impl gba vf tc).success = true ∧
      (GBASavedataImportSharkPort impl gba vf tc).savedata.type = SAVEDATA_FLASH1M ∧
      (GBASavedataImportSharkPort impl gba vf tc).size = p.size ∧
      (GBASavedataImportSharkPort impl gba vf tc).size = min p.size SIZE_CART_FLASH1M ∧
      (GBASavedataImportSharkPort impl gba vf tc).savedata.data.take p.size = p.payload ∧
      (GBASavedataImportSharkPort impl gba vf tc).savedata.data.drop p.size =
        (GBASavedataForceType gba.savedata SAVEDATA_FLASH1M).data.drop p.size) ∧
    (p.size ≤ SIZE_CART_FLASH512 →
      (GBASavedataImportSharkPort impl gba vf tc).success = true ∧
      (GBASavedataImportSharkPort impl gba vf tc).savedata.type = SAVEDATA_FLASH512) := by
  have inv := getPayload_some_inv impl vf tc p hp
  have hle : p.size ≤ SIZE_CART_FLASH1M := by
    have a := inv.2.1
    have b := inv.2.2.1
    omega
  have hpl : p.payload.length = p.size := inv.2.2.2.2.2.2.1
  have hm := (memcmpNe_false_iff _ _ _).2 hid
  have h1 : gba.savedata.type ≠ SAVEDATA_FORCE_NONE := by rw [ht]; decide
  have h2 : gba.savedata.type ≠ SAVEDATA_AUTODETECT := by rw [ht]; decide
  rw [import_copy impl gba vf tc p hp hm h1 h2]
  refine ⟨hle, ?_, ?_⟩
  · intro hgt
    obtain ⟨e1, e2⟩ := importTarget_upgrade gba.savedata p.size ht hgt
    have hsz : GBASavedataSize (importTarget gba.savedata p.size) = SIZE_CART_FLASH1M := by
      unfold GBASavedataSize
      rw [e2]
      rfl
    have hlen : importLength (importTarget gba.savedata p.size) p.size = p.size := by
      unfold importLength
      rw [hsz, if_neg (by omega)]
    have hF : SIZE_CART_FLASH512 = 0x10000 := rfl
    have n1 : p.size ≠ SIZE_CART_EEPROM := by
      have : SIZE_CART_EEPROM = 0x2000 := rfl
      omega
    have n2 : p.size ≠ SIZE_CART_EEPROM512 := by
      have : SIZE_CART_EEPROM512 = 0x200 := rfl
      omega
    dsimp only
    rw [hlen]
    refine ⟨rfl, e2, rfl, by omega, ?_, ?_⟩
    · rw [importCopy_take _ _ _ (by omega) n1 n2, List.take_of_length_le (by omega)]
    · rw [importCopy_drop _ _ _ (by omega), e1]
  · intro hsm
    have e := importTarget_of_not_upgrade gba.savedata p.size (by omega)
    dsimp only
    rw [e]
    exact ⟨rfl, ht⟩

/-- C9 at an erased small-flash region and a payload of `SIZE_CART_FLASH512 + 1` bytes. -/
theorem C9_flash512_upgrade_witness :
    flash512GBA.savedata.type = SAVEDATA_FLASH512 ∧
    (GBASavedataSharkPortGetPayload ⟨true, false⟩ upgradeContainer false).ret =
      some ⟨(List.replicate (SIZE_CART_FLASH512 + 1) 0).length, cartHeader sampleCart,
        List.replicate (SIZE_CART_FLASH512 + 1) 0⟩ ∧
    (GBASavedataImportSharkPort ⟨true, false⟩ flash512GBA upgradeContainer false).success = true ∧
    (GBASavedataImportSharkPort ⟨true, false⟩ flash512GBA upgradeContainer false).savedata.type
      = SAVEDATA_FLASH1M ∧
    (GBASavedataImportSharkPort ⟨true, false⟩ flash512GBA upgradeContainer false).size
      = (List.replicate (SIZE_CART_FLASH512 + 1) 0).length :=
  have hc := (C9_flash512_upgrade ⟨true, false⟩ flash512GBA upgradeContainer false
    ⟨(List.replicate (SIZE_CART_FLASH512 + 1) 0).length, cartHeader sampleCart,
      List.replicate (SIZE_CART_FLASH512 + 1) 0⟩ rfl (upgradeContainer_payload _) rfl).2.1
    (by
      show SIZE_CART_FLASH512 < (List.replicate (SIZE_CART_FLASH512 + 1) 0).length
      rw [List.length_replicate]
      exact Nat.lt_succ_self _)
  ⟨rfl, upgradeContainer_payload _, hc.1, hc.2.1, hc.2.2.1⟩

/-- C10: silent truncation. For a writable save type outside the small-flash upgrade case, once
the identity check passes `GBASavedataImportSharkPort` returns `true`, keeps the type, and
writes `m = min (payload size) capacity` bytes, so exactly `capacity` bytes when the payload is
larger than the capacity: save-memory bytes from offset `m` on are unchanged (and the region
keeps its length); when `m` is not an EEPROM size bytes `[0, m)` equal payload bytes `[0, m)`;
and when `m` is an EEPROM size (the case of a payload truncated to an EEPROM region) every
8-byte block of save memory below `m` holds the payload block with its two big-endian 32-bit
words swapped and stored little-endian, so that bytes `[0, m)` are the swapped image of payload
bytes `[0, m)`. -/
theorem C10_silent_truncation (impl : Impl) (gba : GBA) (vf : VFile) (tc : Bool) (p : Payload)
    (hp : (GBASavedataSharkPortGetPayload impl vf tc).ret = some p)
    (hid : (cartHeader gba.rom).take (comparedPrefix tc) = p.header.take (comparedPrefix tc))
    (h1 : gba.savedata.type ≠ SAVEDATA_FORCE_NONE) (h2 : gba.savedata.type ≠ SAVEDATA_AUTODETECT)
    (hu : ¬ (gba.savedata.type = SAVEDATA_FLASH512 ∧ SIZE_CART_FLASH512 < p.size)) :
    (GBASavedataImportSharkPort impl gba vf tc).success = true ∧
    (GBASavedataImportSharkPort impl gba vf tc).savedata.type = gba.savedata.type ∧
    (GBASavedataImportSharkPort impl gba vf tc).size = min p.size (GBASavedataSize gba.savedata) ∧
    (GBASavedataSize gba.savedata < p.size →
      (GBASavedataImportSharkPort impl gba vf tc).size = GBASavedataSize gba.savedata) ∧
    (GBASavedataImportSharkPort impl gba vf tc).savedata.data.drop
        (GBASavedataImportSharkPort impl gba vf tc).size =
      gba.savedata.data.drop (GBASavedataImportSharkPort impl gba vf tc).size ∧
    (gba.savedata.data.length = GBASavedataSize gba.savedata →
      (GBASavedataImportSharkPort impl gba vf tc).savedata.data.length =
        gba.savedata.data.length) ∧
    ((GBASavedataImportSharkPort impl gba vf tc).size ≠ SIZE_CART_EEPROM →
      (GBASavedataImportSharkPort impl gba vf tc).size ≠ SIZE_CART_EEPROM512 →
      (GBASavedataImportSharkPort impl gba vf tc).savedata.data.take
          (GBASavedataImportSharkPort impl gba vf tc).size =
        p.payload.take (GBASavedataImportSharkPort impl gba vf tc).size) ∧
    (gba.savedata.data.length = GBASavedataSize gba.savedata →
      (GBASavedataImportSharkPort impl gba vf tc).size = SIZE_CART_EEPROM ∨
        (GBASavedataImportSharkPort impl gba vf tc).size = SIZE_CART_EEPROM512 →
      (∀ q, 8 * q < (GBASavedataImportSharkPort impl gba vf tc).size →
        ((GBASavedataImportSharkPort impl gba vf tc).savedata.data.drop (8 * q)).take 8
          = eepromSwapBlock p.payload (8 * q)) ∧
      (GBASavedataImportSharkPort impl gba vf tc).savedata.data.take
          (GBASavedataImportSharkPort impl gba vf tc).size =
        eepromSwapBlocks p.payload 0 ((GBASavedataImportSharkPort impl gba vf tc).size / 8)) := by
  have inv := getPayload_some_inv impl vf tc p hp
  have hpl : p.payload.length = p.size := inv.2.2.2.2.2.2.1
  have hm := (memcmpNe_false_iff _ _ _).2 hid
  rw [import_copy impl gba vf tc p hp hm h1 h2]
  have e := importTarget_of_not_upgrade gba.savedata p.size hu
  dsimp only
  rw [e]
  have hmin := importLength_eq_min gba.savedata p.size
  have hl1 := importLength_le gba.savedata p.size
  have hl2 := importLength_le_size gba.savedata p.size
  refine ⟨rfl, rfl, hmin, ?_, ?_, ?_, ?_, ?_⟩
  · intro hlt
    omega
  · exact importCopy_drop _ _ _ (by omega)
  · intro hwf
    exact importCopy_length _ _ _ (by omega) (by omega)
  · intro n1 n2
    exact importCopy_take _ _ _ (by omega) n1 n2
  · intro hwf he
    have h8 : 8 ∣ importLength gba.savedata p.size := by
      rcases he with he | he <;> rw [he] <;> decide
    have hloop : importCopy gba.savedata.data p.payload (importLength gba.savedata p.size) =
        eepromSwapBlocks p.payload 0 (importLength gba.savedata p.size / 8) ++
          gba.savedata.data.drop (importLength gba.savedata p.size) := by
      unfold importCopy
      rw [if_pos he, importEepromLoop_eq _ _ _ h8 (by omega)]
    rw [hloop]
    constructor
    · intro q hq
      rw [eepromSwapBlocks_block _ _ 0 q _ (by omega), Nat.zero_add]
    · have hlen : (eepromSwapBlocks p.payload 0 (importLength gba.savedata p.size / 8)).length =
          importLength gba.savedata p.size := by
        rw [eepromSwapBlocks_length]
        omega
      rw [List.take_append_of_le_length (by omega), List.take_of_length_le (by omega)]

/-- C10 at zeroed SRAM and a payload of `SIZE_CART_SRAM + 1` bytes, and at a zeroed 512-byte
EEPROM and a payload of `SIZE_CART_EEPROM512 + 1` bytes that starts with the sample block: both
imports succeed with the capacity as length, and the EEPROM receives the first block with its
words swapped, `07 06 05 04 03 02 01 00`. -/
theorem C10_silent_truncation_witness :
    GBASavedataSize sramZeroed.savedata <
      (List.replicate (SIZE_CART_SRAM + 1) 7).length ∧
    (GBASavedataImportSharkPort ⟨true, false⟩ sramZeroed oversizedContainer false).success
      = true ∧
    (GBASavedataImportSharkPort ⟨true, false⟩ sramZeroed oversizedContainer false).size
      = GBASavedataSize sramZeroed.savedata ∧
    GBASavedataSize eeprom512Zeroed.savedata < eepromOversizedPayload.length ∧
    (GBASavedataImportSharkPort ⟨true, false⟩ eeprom512Zeroed eepromOversizedContainer
      false).success = true ∧
    (GBASavedataImportSharkPort ⟨true, false⟩ eeprom512Zeroed eepromOversizedContainer
      false).size = SIZE_CART_EEPROM512 ∧
    (GBASavedataImportSharkPort ⟨true, false⟩ eeprom512Zeroed eepromOversizedContainer
      false).savedata.data.take 8 = [7, 6, 5, 4, 3, 2, 1, 0] :=
  have hlt : GBASavedataSize sramZeroed.savedata <
      (List.replicate (SIZE_CART_SRAM + 1) 7).length := by
    rw [List.length_replicate]
    exact Nat.lt_succ_self _
  have hc := C10_silent_truncation ⟨true, false⟩ sramZeroed oversizedContainer false
    ⟨(List.replicate (SIZE_CART_SRAM + 1) 7).length, cartHeader sampleCart,
      List.replicate (SIZE_CART_SRAM + 1) 7⟩ (oversizedContainer_payload _) rfl
    (by decide) (by decide) (by decide)
  have hle : GBASavedataSize eeprom512Zeroed.savedata < eepromOversizedPayload.length := by
    rw [eepromOversizedPayload_length]
    decide
  have hwf : eeprom512Zeroed.savedata.data.length = GBASavedataSize eeprom512Zeroed.savedata := by
    have h : eeprom512Zeroed.savedata.data = List.replicate 0x200 0 := rfl
    rw [h, List.length_replicate]
    rfl
  have he := C10_silent_truncation ⟨true, false⟩ eeprom512Zeroed eepromOversizedContainer false
    ⟨eepromOversizedPayload.length, cartHeader plainCart, eepromOversizedPayload⟩
    (eepromOversizedContainer_payload _) rfl (by decide) (by decide) (by decide)
  have hs : (GBASavedataImportSharkPort ⟨true, false⟩ eeprom512Zeroed eepromOversizedContainer
      false).size = SIZE_CART_EEPROM512 := he.2.2.2.1 hle
  ⟨hlt, hc.1, hc.2.2.2.1 hlt, hle, he.1, hs, by
    have h := (he.2.2.2.2.2.2.2 hwf (Or.inr hs)).1 0 (by rw [hs]; decide)
    rw [Nat.mul_zero, List.drop_zero] at h
    rw [h]
    decide⟩

/-- C11 (as stated) fails: exporting a region whose declared size is 0 into an empty stream that
accepts every write returns `false`, but the stream has received 67 bytes, the metadata
section. -/
theorem C11_size_zero_writes_metadata :
    GBASavedataSize autodetectGBA.savedata = 0 ∧
    (GBASavedataExportSharkPort ⟨true, false⟩ acceptAll sampleTime autodetectGBA ⟨[], 0⟩).1
      = false ∧
    (GBASavedataExportSharkPort ⟨true, false⟩ acceptAll sampleTime autodetectGBA ⟨[], 0⟩).2.mem.length
      = 67 ∧
    (GBASavedataExportSharkPort ⟨true, false⟩ acceptAll sampleTime autodetectGBA ⟨[], 0⟩).2.mem
      ≠ [] := by
  decide

/-- C11 (amended): if the declared size of the save memory is 0 the export returns `false` for
every cartridge, stream and write behaviour; the size check comes after the metadata writes, so
when those writes complete an initially empty stream has received exactly the metadata section
(magic length and string, format tag, title field, timestamp field, empty field: 45 bytes plus
the timestamp) and nothing of the payload section. -/
theorem C11_size_zero_returns_false (impl : Impl) (accept : Nat → Nat → Nat) (ts : List Nat)
    (gba : GBA) (h : GBASavedataSize gba.savedata = 0) :
    (∀ vf : VFile, (GBASavedataExportSharkPort impl accept ts gba vf).1 = false) ∧
    (Completes accept →
      (GBASavedataExportSharkPort impl accept ts gba ⟨[], 0⟩).2.mem
        = exportMetadata (ts.take (strftimeLen ts)) gba ∧
      (GBASavedataExportSharkPort impl accept ts gba ⟨[], 0⟩).2.mem.length
        = 45 + strftimeLen ts) := by
  refine ⟨fun vf => export_size_zero_flag impl accept ts gba vf h, ?_⟩
  intro hacc
  rw [export_size_zero_complete impl accept ts gba hacc h]
  refine ⟨rfl, ?_⟩
  have hT := strftimeLen_le ts
  have hti : ((gba.rom.title ++ List.replicate 12 0).take 12).length = 12 := by
    simp [List.length_take]
  have hl : SHARKPORT_HEADER.length = 13 := rfl
  simp only [exportMetadata, List.length_append, STORE_32_length, hti, hl, List.length_take]
  omega

/-- C11 (amended) at the autodetect sample. -/
theorem C11_size_zero_returns_false_witness :
    (GBASavedataExportSharkPort ⟨true, false⟩ acceptAll sampleTime autodetectGBA ⟨[], 0⟩).1
      = false ∧
    (GBASavedataExportSharkPort ⟨true, false⟩ acceptAll sampleTime autodetectGBA ⟨[], 0⟩).2.mem.length
      = 45 + strftimeLen sampleTime :=
  ⟨(C11_size_zero_returns_false ⟨true, false⟩ acceptAll sampleTime autodetectGBA (by decide)).1 _,
    ((C11_size_zero_returns_false ⟨true, false⟩ acceptAll sampleTime autodetectGBA
      (by decide)).2 acceptAll_completes).2⟩

/-- C12 (as stated) fails at `T = 24`: for the 24-byte formatted time, a complete export of the
512-byte EEPROM sample returns `true` but the stream is not the claimed layout: `strftime`
cannot place 24 bytes and a terminator in its 24-byte buffer, returns 0, and the timestamp field
is written empty. -/
theorem C12_layout_fails_at_24 :
    longTime.length = 24 ∧ GBASavedataSize eeprom512GBA.savedata ≠ 0 ∧
    (GBASavedataExportSharkPort ⟨true, false⟩ acceptAll longTime eeprom512GBA ⟨[], 0⟩).1 = true ∧
    (GBASavedataExportSharkPort ⟨true, false⟩ acceptAll longTime eeprom512GBA ⟨[], 0⟩).2.mem ≠
      exportLayout ⟨true, false⟩ longTime eeprom512GBA ∧
    ((GBASavedataExportSharkPort ⟨true, false⟩ acceptAll longTime eeprom512GBA
      ⟨[], 0⟩).2.mem.drop 37).take 4 = STORE_32 0 := by
  exact ⟨by decide, by decide, longTime_export_facts⟩

/-- C12 (amended): for every cartridge, formatted time `ts` of length `T ≤ 23` and save memory of
non-zero size `S`, when all writes complete the export returns `true` and an initially empty
stream receives exactly `LE32(13) ++ "SharkPortSave" ++ LE32(0x000F0000) ++ LE32(12) ++` the 12
title bytes `++ LE32(T) ++ ts ++ LE32(0) ++ LE32(28 + S) ++` the 28-byte region header `++` the
`S` payload bytes `++ LE32(checksum)`, on which the scanner returns `28 + S`; a formatted time of
24 bytes or more does not fit `strftime`'s buffer and the same layout is written with an empty
timestamp field. -/
theorem C12_export_layout (impl : Impl) (accept : Nat → Nat → Nat) (ts : List Nat) (gba : GBA)
    (hacc : Completes accept) (hs : GBASavedataSize gba.savedata ≠ 0)
    (hd : gba.savedata.data.length = GBASavedataSize gba.savedata) :
    (GBASavedataExportSharkPort impl accept ts gba ⟨[], 0⟩).1 = true ∧
    (ts.length ≤ 23 →
      (GBASavedataExportSharkPort impl accept ts gba ⟨[], 0⟩).2.mem = exportLayout impl ts gba) ∧
    (24 ≤ ts.length →
      (GBASavedataExportSharkPort impl accept ts gba ⟨[], 0⟩).2.mem = exportLayout impl [] gba) ∧
    (exportPayload gba).length = GBASavedataSize gba.savedata ∧
    (GBASavedataSharkPortPayloadSize (GBASavedataExportSharkPort impl accept ts gba ⟨[], 0⟩).2).1
      = 28 + (GBASavedataSize gba.savedata : Int) := by
  have hE := export_complete impl accept ts gba hacc hs hd
  have hT := strftimeLen_le ts
  rw [hE]
  refine ⟨rfl, ?_, ?_, ?_, ?_⟩
  · intro h
    dsimp only
    rw [strftimeLen_of_lt ts h, List.take_length]
  · intro h
    dsimp only
    rw [strftimeLen_of_ge ts h, List.take_zero]
  · unfold exportPayload
    split_ifs
    · exact eepromEmit_length _ _ _
    · rw [List.length_take, hd, Nat.min_self]
  · dsimp only
    have hle := savedataSize_le gba.savedata
    have h24 : strftimeLen ts < 24 := by
      unfold strftimeLen
      split_ifs <;> omega
    rw [exportLayout_eq_container,
      payloadSize_container _ _ _ _ _ _ (by simp [List.length_take]) (by
        rw [List.length_take]; omega) (by decide) (by omega),
      toInt32_of_lt _ (by omega)]
    push_cast
    rfl

/-- C12 (amended) at the SRAM sample and the 22-byte sample time. -/
theorem C12_export_layout_witness :
    sampleTime.length ≤ 23 ∧
    (GBASavedataExportSharkPort ⟨true, false⟩ acceptAll sampleTime sramGBA ⟨[], 0⟩).1 = true ∧
    (GBASavedataExportSharkPort ⟨true, false⟩ acceptAll sampleTime sramGBA ⟨[], 0⟩).2.mem
      = exportLayout ⟨true, false⟩ sampleTime sramGBA ∧
    (GBASavedataSharkPortPayloadSize
      (GBASavedataExportSharkPort ⟨true, false⟩ acceptAll sampleTime sramGBA ⟨[], 0⟩).2).1
      = 28 + (GBASavedataSize sramGBA.savedata : Int) :=
  have h := C12_export_layout ⟨true, false⟩ acceptAll sampleTime sramGBA acceptAll_completes
    (by decide) sramGBA_length
  ⟨by decide, h.1, h.2.1 (by decide), h.2.2.2.2⟩

/-- C13: on every well-formed stream (length field 13, magic, tag 0x000F0000, three
length-prefixed fields `f1 f2 f3` of non-negative 32-bit lengths, payload-length field `P`,
any bytes `rest` after it) and from any cursor position, `GBASavedataSharkPortPayloadSize`
returns the payload-length field as the `int` it is (so `P` itself for `P < 2 ^ 31`), leaves
the bytes unchanged and the cursor at `21 + (4 + L1) + (4 + L2) + (4 + L3) + 4`, where `rest`
(the region header) starts; result and cursor do not depend on `rest`. -/
theorem C13_scanner_on_well_formed (o : Nat) (f1 f2 f3 : List Nat) (P : Nat) (rest : List Nat)
    (h1 : f1.length < 2 ^ 31) (h2 : f2.length < 2 ^ 31) (h3 : f3.length < 2 ^ 31)
    (hP : P < 2 ^ 32) :
    (GBASavedataSharkPortPayloadSize ⟨containerPrefix f1 f2 f3 P ++ rest, o⟩).1 = toInt32 P ∧
    (P < 2 ^ 31 →
      (GBASavedataSharkPortPayloadSize ⟨containerPrefix f1 f2 f3 P ++ rest, o⟩).1 = (P : Int)) ∧
    (GBASavedataSharkPortPayloadSize ⟨containerPrefix f1 f2 f3 P ++ rest, o⟩).2.offset
      = 21 + (4 + f1.length) + (4 + f2.length) + (4 + f3.length) + 4 ∧
    (GBASavedataSharkPortPayloadSize ⟨containerPrefix f1 f2 f3 P ++ rest, o⟩).2.mem
      = containerPrefix f1 f2 f3 P ++ rest ∧
    (containerPrefix f1 f2 f3 P ++ rest).drop
      (GBASavedataSharkPortPayloadSize ⟨containerPrefix f1 f2 f3 P ++ rest, o⟩).2.offset = rest ∧
    (∀ rest2 o2,
      (GBASavedataSharkPortPayloadSize ⟨containerPrefix f1 f2 f3 P ++ rest2, o2⟩).1 =
        (GBASavedataSharkPortPayloadSize ⟨containerPrefix f1 f2 f3 P ++ rest, o⟩).1 ∧
      (GBASavedataSharkPortPayloadSize ⟨containerPrefix f1 f2 f3 P ++ rest2, o2⟩).2.offset =
        (GBASavedataSharkPortPayloadSize ⟨containerPrefix f1 f2 f3 P ++ rest, o⟩).2.offset) := by
  rw [payloadSize_container o f1 f2 f3 P rest h1 h2 h3 hP]
  refine ⟨rfl, fun h => toInt32_of_lt P h, rfl, rfl, ?_, ?_⟩
  · dsimp only
    rw [← containerPrefix_length f1 f2 f3 P, List.drop_left]
  · intro rest2 o2
    rw [payloadSize_container o2 f1 f2 f3 P rest2 h1 h2 h3 hP]
    exact ⟨rfl, rfl⟩

/-- C13 at a container with fields of 2, 0 and 1 bytes, declared length 29 and two bytes after
the length field, scanned from cursor position 5. -/
theorem C13_scanner_on_well_formed_witness :
    (GBASavedataSharkPortPayloadSize ⟨containerPrefix [1, 2] [] [3] 29 ++ [9, 8], 5⟩).1 = 29 ∧
    (GBASavedataSharkPortPayloadSize ⟨containerPrefix [1, 2] [] [3] 29 ++ [9, 8], 5⟩).2.offset
      = 40 ∧
    (containerPrefix [1, 2] [] [3] 29 ++ [9, 8]).drop 40 = [9, 8] :=
  have h := C13_scanner_on_well_formed 5 [1, 2] [] [3] 29 [9, 8] (by decide) (by decide)
    (by decide) (by decide)
  ⟨h.2.1 (by decide), h.2.2.1, by decide⟩

/-- C14: `GBASavedataSharkPortPayloadSize` returns 0 for every stream whose first four bytes
(little-endian) are not 13, or whose bytes 4..16 are not "SharkPortSave", or whose tag at
offset 17 is not 0x000F0000, or that ends before the tag, or in which one of the three metadata
fields has its length prefix or its end outside the file, or that ends before the four bytes of
the payload-length field. -/
theorem C14_malformed_returns_zero (vf : VFile)
    (h : LOAD_32 vf.mem 0 ≠ 13 ∨ (vf.mem.drop 4).take 13 ≠ SHARKPORT_HEADER ∨
      LOAD_32 vf.mem 17 ≠ 0x000F0000 ∨ vf.mem.length < 21 ∨
      payloadLengthOffset vf.mem = none ∨
      ∃ q, payloadLengthOffset vf.mem = some q ∧ vf.mem.length < q + 4) :
    (GBASavedataSharkPortPayloadSize vf).1 = 0 := by
  by_contra hne
  obtain ⟨hv, q, hq, hl, _, _⟩ := payloadSize_nonzero vf hne
  rcases h with h | h | h | h | h | ⟨q2, h, hs⟩
  · exact h hv.2.1
  · exact h hv.2.2.1
  · exact h hv.2.2.2.2
  · have := hv.2.2.2.1
    omega
  · rw [hq] at h
    exact Option.noConfusion h
  · rw [hq] at h
    cases h
    omega

/-- C14 at a stream with the right magic and the tag 0x000F0001. -/
theorem C14_malformed_returns_zero_witness :
    LOAD_32 badTagStream.mem 17 ≠ 0x000F0000 ∧
    (GBASavedataSharkPortPayloadSize badTagStream).1 = 0 :=
  ⟨by decide, C14_malformed_returns_zero badTagStream (Or.inr (Or.inr (Or.inl (by decide))))⟩

/-- C15 (as stated) fails: on the structurally valid container whose payload-length field is
`00 00 00 80` the scanner returns `-2147483648`. -/
theorem C15_top_bit_is_negative :
    (GBASavedataSharkPortPayloadSize topBitContainer).1 = -2147483648 ∧
    (GBASavedataSharkPortPayloadSize topBitContainer).1 < 0 := by
  have h : (GBASavedataSharkPortPayloadSize topBitContainer).1 = -2147483648 := by
    unfold topBitContainer
    rw [payloadSize_container 0 [] [] [] 0x80000000 _ (by decide) (by decide) (by decide)
      (by decide)]
    decide
  rw [h]
  exact ⟨rfl, by decide⟩

/-- C15 (amended): for every stream the value returned by `GBASavedataSharkPortPayloadSize` is a
signed 32-bit value, the declared length of the layout table; it is negative exactly when the
header is valid, the payload-length field lies within the file and has its top bit set; and
`GBASavedataSharkPortGetPayload` rejects every negative value. -/
theorem C15_scanner_result_signed (vf : VFile) :
    -(2 ^ 31 : Int) ≤ (GBASavedataSharkPortPayloadSize vf).1 ∧
    (GBASavedataSharkPortPayloadSize vf).1 < 2 ^ 31 ∧
    (GBASavedataSharkPortPayloadSize vf).1 = declaredLength vf.mem ∧
    ((GBASavedataSharkPortPayloadSize vf).1 < 0 ↔
      headerValid vf.mem ∧ ∃ q, payloadLengthOffset vf.mem = some q ∧ q + 4 ≤ vf.mem.length ∧
        2 ^ 31 ≤ LOAD_32 vf.mem q) ∧
    ((GBASavedataSharkPortPayloadSize vf).1 < 0 →
      ∀ impl tc, (GBASavedataSharkPortGetPayload impl vf tc).ret = none) := by
  have hb := declaredLength_bounds vf.mem
  rw [payloadSize_fst vf]
  refine ⟨hb.1, hb.2, rfl, ⟨?_, ?_⟩, ?_⟩
  · intro hneg
    have hne : (GBASavedataSharkPortPayloadSize vf).1 ≠ 0 := by
      rw [payloadSize_fst vf]
      omega
    obtain ⟨hv, q, hq, hl, _, hval⟩ := payloadSize_nonzero vf hne
    rw [payloadSize_fst vf] at hval
    rw [hval, toInt32_neg_iff _ (LOAD_32_lt _ _)] at hneg
    exact ⟨hv, q, hq, hl, hneg⟩
  · rintro ⟨hv, q, hq, hl, htop⟩
    have hdl : declaredLength vf.mem = toInt32 (LOAD_32 vf.mem q) := by
      unfold declaredLength
      rw [if_pos hv, hq]
      exact if_pos hl
    rw [hdl, toInt32_neg_iff _ (LOAD_32_lt _ _)]
    exact htop
  · intro hneg impl tc
    rw [getPayload_out_of_range impl vf tc (Or.inl (by rw [payloadSize_fst vf]; omega))]

/-- C15 (amended) at the container whose payload-length field is `00 00 00 80`. -/
theorem C15_scanner_result_signed_witness :
    -(2 ^ 31 : Int) ≤ (GBASavedataSharkPortPayloadSize topBitContainer).1 ∧
    (GBASavedataSharkPortPayloadSize topBitContainer).1 < 0 ∧
    (GBASavedataSharkPortGetPayload ⟨true, false⟩ topBitContainer true).ret = none :=
  have h := C15_scanner_result_signed topBitContainer
  have hneg : (GBASavedataSharkPortPayloadSize topBitContainer).1 < 0 :=
    h.2.2.2.1.2 ⟨by decide, 33, by decide, by decide, by decide⟩
  ⟨h.1, hneg, h.2.2.2.2 hneg _ _⟩

/-- C16: when `GBASavedataSharkPortGetPayload` succeeds on a stream whose scanner result is `P`,
then `28 ≤ P ≤ 28 + SIZE_CART_FLASH1M`, the scanner stopped right after the payload-length
field (offset `k`), the reported size is `P - 28`, the returned header is exactly the 28
stream bytes at `k`, and the returned payload is exactly the next `P - 28` stream bytes; and
for either value of `testChecksum` the call fails when the stream holds fewer than `P + 4`
bytes from offset `k` on. -/
theorem C16_payload_extraction (impl : Impl) (vf : VFile) (tc : Bool) :
    (∀ p, (GBASavedataSharkPortGetPayload impl vf tc).ret = some p →
      28 ≤ (GBASavedataSharkPortPayloadSize vf).1 ∧
      (GBASavedataSharkPortPayloadSize vf).1 ≤ 28 + (SIZE_CART_FLASH1M : Int) ∧
      (∃ q, payloadLengthOffset vf.mem = some q ∧
        (GBASavedataSharkPortPayloadSize vf).2.offset = q + 4 ∧
        (GBASavedataSharkPortPayloadSize vf).1 = toInt32 (LOAD_32 vf.mem q)) ∧
      (p.size : Int) = (GBASavedataSharkPortPayloadSize vf).1 - 28 ∧
      p.header = (vf.mem.drop (GBASavedataSharkPortPayloadSize vf).2.offset).take 28 ∧
      p.header.length = 28 ∧
      p.payload =
        (vf.mem.drop ((GBASavedataSharkPortPayloadSize vf).2.offset + 28)).take p.size ∧
      p.payload.length = p.size) ∧
    ((vf.mem.length : Int) <
        ((GBASavedataSharkPortPayloadSize vf).2.offset : Int) +
          (GBASavedataSharkPortPayloadSize vf).1 + 4 →
      (GBASavedataSharkPortGetPayload impl vf tc).ret = none) := by
  constructor
  · intro p h
    have inv := getPayload_some_inv impl vf tc p h
    have hb := getPayload_some_bytes impl vf tc p h
    have hne : (GBASavedataSharkPortPayloadSize vf).1 ≠ 0 := by
      have := inv.1
      omega
    obtain ⟨_, q, hq, _, hk, hval⟩ := payloadSize_nonzero vf hne
    have h1 := inv.1
    have h2 := inv.2.1
    have h3 := inv.2.2.1
    refine ⟨by omega, by omega, ⟨q, hq, hk, hval⟩, by omega, hb.1, inv.2.2.2.2.1, hb.2,
      inv.2.2.2.2.2.2.1⟩
  · intro hlt
    cases hr : (GBASavedataSharkPortGetPayload impl vf tc).ret with
    | none => rfl
    | some p =>
      have := getPayload_some_fits impl vf tc p hr
      omega

/-- C16 at the sealed one-byte container (verified extraction succeeds with the header and the
payload byte of the stream) and at the same container cut two bytes short (extraction fails
with and without verification). -/
theorem C16_payload_extraction_witness :
    (GBASavedataSharkPortGetPayload ⟨true, false⟩ verifierSealed true).ret
      = some ⟨1, cartHeader sampleCart, [0x2A]⟩ ∧
    (verifierSealed.mem.drop 37).take 28 = cartHeader sampleCart ∧
    (verifierSealed.mem.drop (37 + 28)).take 1 = [0x2A] ∧
    (GBASavedataSharkPortGetPayload ⟨true, false⟩ truncatedContainer true).ret = none ∧
    (GBASavedataSharkPortGetPayload ⟨true, false⟩ truncatedContainer false).ret = none :=
  have hs : (GBASavedataSharkPortGetPayload ⟨true, false⟩ verifierSealed true).ret
      = some ⟨1, cartHeader sampleCart, [0x2A]⟩ := by decide
  have h := (C16_payload_extraction ⟨true, false⟩ verifierSealed true).1 _ hs
  ⟨hs, by decide, by decide,
    (C16_payload_extraction ⟨true, false⟩ truncatedContainer true).2 (by decide),
    (C16_payload_extraction ⟨true, false⟩ truncatedContainer false).2 (by decide)⟩

/-- C17 fails in the code: the write of the 12-byte cartridge title is compared with 4 (line
219) and the one-byte payload writes of an EEPROM save are not compared at all (line 277). With
a stream that takes 5 of the 12 title bytes, and with a stream that takes nothing of the first
EEPROM payload byte, a write reports fewer bytes than requested and the export still returns
`true`. -/
theorem C17_short_write_returns_true (impl : Impl) :
    ((VFile.mk [] 0).write ((sramGBA.rom.title ++ List.replicate 12 0).take 12)
      (shortTitleAccept 4 12)).1 = 5 ∧
    (GBASavedataExportSharkPort impl shortTitleAccept sampleTime sramGBA ⟨[], 0⟩).1 = true ∧
    ((VFile.mk [] 0).write [eepromGBA.savedata.data.getD (0 ^^^ 7) 0]
      (droppedPayloadAccept 9 1)).1 = 0 ∧
    (GBASavedataExportSharkPort impl droppedPayloadAccept sampleTime eepromGBA ⟨[], 0⟩).1
      = true := by
  refine ⟨by decide, ?_, by decide, ?_⟩
  · refine export_flag_true impl shortTitleAccept sampleTime sramGBA _ (by decide) (by decide)
      (by decide) (by decide) (by decide) (by decide) (by decide) (by decide) (by decide)
      (by decide) ?_
    rw [if_neg (by decide)]
    refine ⟨by decide, ?_, by decide⟩
    rw [sramGBA_length]
    decide
  · refine export_flag_true impl droppedPayloadAccept sampleTime eepromGBA _ (by decide)
      (by decide) (by decide) (by decide) (by decide) (by decide) (by decide) (by decide)
      (by decide) (by decide) ?_
    rw [if_pos (by decide)]
    decide

/-- C18: the EEPROM transforms are mutually inverse. For save memory `data` of bytes whose
length is a multiple of 8, the export loop for `SAVEDATA_EEPROM` on a stream that takes every
byte appends the bytes `data[i XOR 7]`, so that each 8-byte block `[b0..b7]` is emitted as
`[b7..b0]`; and the import loop (two big-endian 32-bit loads per block, stored little-endian in
swapped order) run on the emitted bytes writes `data` back over any target of the same
length. -/
theorem C18_eeprom_transforms_inverse (impl : Impl) (accept : Nat → Nat → Nat)
    (data target : List Nat) (hacc : Completes accept) (hb : ∀ b ∈ data, b < 256)
    (h8 : 8 ∣ data.length) (ht : target.length = data.length) :
    (∀ k c m, (exportEepromLoop impl accept data data.length 0 k c ⟨m, m.length⟩).2.mem
      = m ++ eepromEmit data 0 data.length) ∧
    (∀ i, i < data.length → (eepromEmit data 0 data.length).getD i 0 = data.getD (i ^^^ 7) 0) ∧
    (∀ q, 8 * q + 8 ≤ data.length →
      ((eepromEmit data 0 data.length).drop (8 * q)).take 8
        = ((data.drop (8 * q)).take 8).reverse) ∧
    importEepromLoop data.length 0 data.length (eepromEmit data 0 data.length) target = data := by
  refine ⟨?_, ?_, ?_, ?_⟩
  · intro k c m
    rw [exportEepromLoop_complete impl accept hacc]
  · intro i hi
    exact eepromEmit_getD data _ i hi
  · intro q hq
    exact eepromEmit_block data q hq
  · rw [importEepromLoop_eq _ target data.length h8 (by omega),
      List.drop_of_length_le (by omega), List.append_nil]
    have h := eepromSwapBlocks_emit data hb (data.length / 8) 0 (by omega)
    rw [Nat.mul_zero, List.drop_zero] at h
    rw [h]
    exact List.take_of_length_le (by omega)

/-- C18 at the block `00 01 02 03 04 05 06 07`: it is emitted as `07 06 05 04 03 02 01 00` and
the import loop writes the original block back. -/
theorem C18_eeprom_transforms_inverse_witness :
    eepromEmit sampleBlock 0 sampleBlock.length = [7, 6, 5, 4, 3, 2, 1, 0] ∧
    (exportEepromLoop ⟨true, false⟩ acceptAll sampleBlock sampleBlock.length 0 9 0 ⟨[], 0⟩).2.mem
      = [7, 6, 5, 4, 3, 2, 1, 0] ∧
    importEepromLoop sampleBlock.length 0 sampleBlock.length
      (eepromEmit sampleBlock 0 sampleBlock.length) (List.replicate 8 0xFF) = sampleBlock :=
  have h := C18_eeprom_transforms_inverse ⟨true, false⟩ acceptAll sampleBlock
    (List.replicate 8 0xFF) acceptAll_completes (by decide) (by decide) (by decide)
  ⟨by decide, by decide, h.2.2.2⟩

/-- C19 fails in the code: the checksum the exporter stores is a fold over the region header and
the emitted payload that promotes each byte as a plain `char`. It is the reference rolling sum
where `char` is signed; where `char` is unsigned it is not (SRAM sample, whose header checksum
byte and first payload byte are 0x80); and on either kind of platform it differs, for that
sample, from the value the import recomputes over the same bytes, which zero-extends the header
bytes and sign-extends the payload bytes. -/
theorem C19_export_checksum_diverges :
    (∀ impl : Impl,
      (GBASavedataExportSharkPort impl acceptAll sampleTime sramGBA ⟨[], 0⟩).2.mem.drop
        ((GBASavedataExportSharkPort impl acceptAll sampleTime sramGBA ⟨[], 0⟩).2.mem.length - 4)
        = STORE_32 (exportChecksum impl sramGBA)) ∧
    (∀ (mz : Bool) (gba : GBA), exportChecksum ⟨true, mz⟩ gba =
      referenceChecksum (cartHeader gba.rom ++ exportPayload gba)) ∧
    (∀ mz : Bool, exportChecksum ⟨false, mz⟩ sramGBA ≠
      referenceChecksum (cartHeader sramGBA.rom ++ exportPayload sramGBA)) ∧
    (∀ impl : Impl, exportChecksum impl sramGBA ≠
      calcChecksum (cartHeader sramGBA.rom) (exportPayload sramGBA)) := by
  have hp : exportPayload sramGBA = sramGBA.savedata.data :=
    exportPayload_plain sramGBA (by decide) sramGBA_length
  have hrom : sramGBA.rom = sampleCart := rfl
  refine ⟨?_, ?_, ?_, ?_⟩
  · intro impl
    rw [export_complete impl acceptAll sampleTime sramGBA acceptAll_completes (by decide)
      sramGBA_length]
    exact exportLayout_drop_checksum _ _ _
  · intro mz gba
    rfl
  · intro mz
    unfold exportChecksum
    rw [hp, hrom]
    exact sram_unsigned_not_reference
  · intro impl
    unfold exportChecksum
    rw [hp, hrom]
    have h := sram_checksums_differ impl
    rw [LOAD_32_STORE_32, Nat.mod_eq_of_lt (checksumLoop_lt _ _ _ (by decide))] at h
    exact fun e => h e.symm

/-- C20: in `GBASavedataImportSharkPort` the copy is chosen by the (possibly clamped) length
alone. For a writable save type of any kind, once extraction and the identity check pass, the
call returns `true` with length `m = min (payload size) (declared size of the target)`; if `m`
is `SIZE_CART_EEPROM` or `SIZE_CART_EEPROM512`, every 8-byte block of save memory below `m`
is the corresponding payload block with its two big-endian 32-bit words swapped and stored
little-endian; for every other `m`, save-memory bytes `[0, m)` are a copy of the payload
bytes. -/
theorem C20_copy_chosen_by_length (impl : Impl) (gba : GBA) (vf : VFile) (tc : Bool) (p : Payload)
    (hp : (GBASavedataSharkPortGetPayload impl vf tc).ret = some p)
    (hid : (cartHeader gba.rom).take (comparedPrefix tc) = p.header.take (comparedPrefix tc))
    (h1 : gba.savedata.type ≠ SAVEDATA_FORCE_NONE) (h2 : gba.savedata.type ≠ SAVEDATA_AUTODETECT)
    (hd : gba.savedata.data.length = GBASavedataSize gba.savedata) :
    (GBASavedataImportSharkPort impl gba vf tc).success = true ∧
    (GBASavedataImportSharkPort impl gba vf tc).size =
      min p.size (GBASavedataSize (importTarget gba.savedata p.size)) ∧
    ((GBASavedataImportSharkPort impl gba vf tc).size = SIZE_CART_EEPROM ∨
        (GBASavedataImportSharkPort impl gba vf tc).size = SIZE_CART_EEPROM512 →
      ∀ q, 8 * q < (GBASavedataImportSharkPort impl gba vf tc).size →
        ((GBASavedataImportSharkPort impl gba vf tc).savedata.data.drop (8 * q)).take 8
          = eepromSwapBlock p.payload (8 * q)) ∧
    ((GBASavedataImportSharkPort impl gba vf tc).size ≠ SIZE_CART_EEPROM →
      (GBASavedataImportSharkPort impl gba vf tc).size ≠ SIZE_CART_EEPROM512 →
      (GBASavedataImportSharkPort impl gba vf tc).savedata.data.take
          (GBASavedataImportSharkPort impl gba vf tc).size =
        p.payload.take (GBASavedataImportSharkPort impl gba vf tc).size) := by
  have inv := getPayload_some_inv impl vf tc p hp
  have hpl : p.payload.length = p.size := inv.2.2.2.2.2.2.1
  have hm := (memcmpNe_false_iff _ _ _).2 hid
  rw [import_copy impl gba vf tc p hp hm h1 h2]
  dsimp only
  have hlen := importTarget_length gba.savedata p.size hd
  have hmin := importLength_eq_min (importTarget gba.savedata p.size) p.size
  have hl1 := importLength_le (importTarget gba.savedata p.size) p.size
  have hl2 := importLength_le_size (importTarget gba.savedata p.size) p.size
  refine ⟨rfl, hmin, ?_, ?_⟩
  · intro he q hq
    have h8 : 8 ∣ importLength (importTarget gba.savedata p.size) p.size := by
      rcases he with he | he <;> rw [he] <;> decide
    unfold importCopy
    rw [if_pos he, importEepromLoop_eq _ _ _ h8 (by omega),
      eepromSwapBlocks_block _ _ 0 q _ (by omega), Nat.zero_add]
  · intro n1 n2
    exact importCopy_take _ _ _ (by omega) n1 n2

/-- C20 at zeroed SRAM and a payload of `SIZE_CART_EEPROM512` bytes that starts with the sample
block: the SRAM region receives the block with its words swapped, `07 06 05 04 03 02 01 00`. -/
theorem C20_copy_chosen_by_length_witness :
    sramZeroed.savedata.type = SAVEDATA_SRAM ∧
    (GBASavedataImportSharkPort ⟨true, false⟩ sramZeroed eepromSizedContainer false).success
      = true ∧
    (GBASavedataImportSharkPort ⟨true, false⟩ sramZeroed eepromSizedContainer false).size
      = SIZE_CART_EEPROM512 ∧
    (GBASavedataImportSharkPort ⟨true, false⟩ sramZeroed eepromSizedContainer
      false).savedata.data.take 8 = [7, 6, 5, 4, 3, 2, 1, 0] :=
  have hl : eepromSizedPayload.length = 0x200 := by
    unfold eepromSizedPayload
    rw [List.length_append, List.length_replicate]
    rfl
  have hc := C20_copy_chosen_by_length ⟨true, false⟩ sramZeroed eepromSizedContainer false
    ⟨eepromSizedPayload.length, cartHeader sampleCart, eepromSizedPayload⟩
    (eepromSizedContainer_payload _) rfl (by decide) (by decide)
    (by
      have h : sramZeroed.savedata.data = List.replicate 0x8000 0 := rfl
      rw [h, List.length_replicate]
      rfl)
  have hs : (GBASavedataImportSharkPort ⟨true, false⟩ sramZeroed eepromSizedContainer false).size
      = SIZE_CART_EEPROM512 := by
    rw [hc.2.1]
    dsimp only
    rw [hl]
    decide
  ⟨rfl, hc.1, hs, by
    have h := hc.2.2.1 (Or.inr hs) 0 (by rw [hs]; decide)
    rw [Nat.mul_zero, List.drop_zero] at h
    rw [h]
    decide⟩

/-- C21 (as stated) fails: in the region header of `sampleCart`, offsets 0x11 and 0x12 hold the
different bytes 0x00 and 0x80, and exchanging them leaves the checksum the verifier computes
unchanged. -/
theorem C21_exchange_keeps_checksum :
    (cartHeader sampleCart).length = 28 ∧
    (cartHeader sampleCart).getD 0x11 0 = 0 ∧ (cartHeader sampleCart).getD 0x12 0 = 0x80 ∧
    exchange (cartHeader sampleCart) 0x11 0x12 ≠ cartHeader sampleCart ∧
    calcChecksum (exchange (cartHeader sampleCart) 0x11 0x12) [0x2A] =
      calcChecksum (cartHeader sampleCart) [0x2A] := by
  decide

/-- C21 (amended): the verifier's rolling checksum depends on the order of the bytes, but not on
every exchange. Exchanging the first two bytes of the header `01 02 00 .. 00` changes it. A zero
byte adds nothing and leaves the running state, hence every later shift, as it was: exchanging a
byte with a zero byte, only zero bytes lying between the two, never changes the checksum, in
the header and in the payload. Two non-zero bytes can collide as well: a header that starts
`18 30` (24, 48) has the checksum of the one that starts `30 18`. -/
theorem C21_checksum_order_sensitivity (header payload pre post : List Nat) (x y n : Nat)
    (h : x = 0 ∨ y = 0) :
    calcChecksum (exchange orderedHeader 0 1) [] ≠ calcChecksum orderedHeader [] ∧
    calcChecksum
        (exchange (pre ++ x :: (List.replicate n 0 ++ y :: post)) pre.length (pre.length + n + 1))
        payload
      = calcChecksum (pre ++ x :: (List.replicate n 0 ++ y :: post)) payload ∧
    calcChecksum header
        (exchange (pre ++ x :: (List.replicate n 0 ++ y :: post)) pre.length (pre.length + n + 1))
      = calcChecksum header (pre ++ x :: (List.replicate n 0 ++ y :: post)) ∧
    calcChecksum (exchange (24 :: 48 :: post) 0 1) payload
      = calcChecksum (24 :: 48 :: post) payload := by
  refine ⟨by decide, ?_, ?_, ?_⟩
  · unfold calcChecksum
    rw [checksumLoop_exchange zeroExtend (by decide) 0 (by decide) pre post x y n h]
  · unfold calcChecksum
    exact checksumLoop_exchange signExtend (by decide) _ (checksumLoop_lt _ _ _ (by decide))
      pre post x y n h
  · have e : exchange (24 :: 48 :: post) 0 1 = 48 :: 24 :: post := rfl
    have s : checksumStep zeroExtend (checksumStep zeroExtend 0 48) 24 =
        checksumStep zeroExtend (checksumStep zeroExtend 0 24) 48 := by decide
    unfold calcChecksum
    rw [e, checksumLoop_cons, checksumLoop_cons, checksumLoop_cons, checksumLoop_cons, s]

/-- C21 (amended) at the region header of `sampleCart`, split around offsets 0x11 (zero) and
0x12 (0x80). -/
theorem C21_checksum_order_sensitivity_witness :
    ((cartHeader sampleCart).take 17 ++ 0 :: (List.replicate 0 0 ++
      0x80 :: (cartHeader sampleCart).drop 19)) = cartHeader sampleCart ∧
    calcChecksum (exchange orderedHeader 0 1) [] ≠ calcChecksum orderedHeader [] ∧
    calcChecksum
        (exchange ((cartHeader sampleCart).take 17 ++ 0 :: (List.replicate 0 0 ++
          0x80 :: (cartHeader sampleCart).drop 19)) ((cartHeader sampleCart).take 17).length
          (((cartHeader sampleCart).take 17).length + 0 + 1)) [0x2A]
      = calcChecksum ((cartHeader sampleCart).take 17 ++ 0 :: (List.replicate 0 0 ++
          0x80 :: (cartHeader sampleCart).drop 19)) [0x2A] :=
  have h := C21_checksum_order_sensitivity [] [0x2A] ((cartHeader sampleCart).take 17)
    ((cartHeader sampleCart).drop 19) 0 0x80 0 (Or.inl rfl)
  ⟨by decide, h.1, h.2.1⟩

/-- C22 fails in the code: the checksum-mismatch exit of `GBASavedataSharkPortGetPayload`
(line 110) returns `NULL` without releasing the payload buffer. On a complete container whose
checksum field does not match, extraction under verification fails with one buffer allocated
and none released, and the import that called it returns `false` with the same ledger. The
short-read exits do release the buffer, and on every failing exit with an unbalanced ledger
verification was on, one buffer was allocated and none released. -/
theorem C22_checksum_mismatch_leaks (impl : Impl) :
    (GBASavedataSharkPortGetPayload impl staleChecksumContainer true).ret = none ∧
    (GBASavedataSharkPortGetPayload impl staleChecksumContainer true).mallocs = 1 ∧
    (GBASavedataSharkPortGetPayload impl staleChecksumContainer true).frees = 0 ∧
    (GBASavedataImportSharkPort impl sramZeroed staleChecksumContainer true).success = false ∧
    (GBASavedataImportSharkPort impl sramZeroed staleChecksumContainer true).mallocs = 1 ∧
    (GBASavedataImportSharkPort impl sramZeroed staleChecksumContainer true).frees = 0 ∧
    (GBASavedataSharkPortGetPayload impl truncatedContainer true).ret = none ∧
    (GBASavedataSharkPortGetPayload impl truncatedContainer true).mallocs = 1 ∧
    (GBASavedataSharkPortGetPayload impl truncatedContainer true).frees = 1 ∧
    (∀ vf tc, (GBASavedataSharkPortGetPayload impl vf tc).ret = none →
      (GBASavedataSharkPortGetPayload impl vf tc).mallocs ≠
        (GBASavedataSharkPortGetPayload impl vf tc).frees →
      tc = true ∧ (GBASavedataSharkPortGetPayload impl vf tc).mallocs = 1 ∧
        (GBASavedataSharkPortGetPayload impl vf tc).frees = 0) := by
  have hs := staleChecksumContainer_ledger impl
  have hn : (GBASavedataSharkPortGetPayload impl staleChecksumContainer true).ret = none := by
    rw [hs]
  have ht := truncatedContainer_ledger impl true
  refine ⟨hn, by rw [hs], by rw [hs], ?_, ?_, ?_, by rw [ht], by rw [ht], by rw [ht],
    fun vf tc => getPayload_none_ledger impl vf tc⟩
  · rw [import_none impl sramZeroed _ true hn]
  · rw [import_none impl sramZeroed _ true hn, hs]
  · rw [import_none impl sramZeroed _ true hn, hs]

/-- C23: bounds safety of the copies. For save memory whose data area has its declared size, in
every successful `GBASavedataImportSharkPort` the written length is at most the payload size
and at most the capacity of the save memory after any type upgrade (which is the length of its
data area); the copy, run with the bounds of payload and save memory enforced, completes with
the same result, so the swap loop loads no payload byte at or beyond the payload size and no
store leaves the save memory; the bytes at offsets at or beyond the written length are those
the (possibly re-typed) region held, and every such byte of the save memory before the call is
unchanged. In `GBASavedataExportSharkPort` for `SAVEDATA_EEPROM` every index `i XOR 7` with
`i < size` is below `size` and within the data area. -/
theorem C23_copy_bounds (impl : Impl) (gba : GBA) (vf : VFile) (tc : Bool)
    (hd : gba.savedata.data.length = GBASavedataSize gba.savedata) :
    ((GBASavedataImportSharkPort impl gba vf tc).success = true →
      ∃ p, (GBASavedataSharkPortGetPayload impl vf tc).ret = some p ∧
        p.payload.length = p.size ∧
        (GBASavedataImportSharkPort impl gba vf tc).size ≤ p.size ∧
        (GBASavedataImportSharkPort impl gba vf tc).size ≤
          GBASavedataSize (GBASavedataImportSharkPort impl gba vf tc).savedata ∧
        (GBASavedataImportSharkPort impl gba vf tc).savedata.data.length =
          GBASavedataSize (GBASavedataImportSharkPort impl gba vf tc).savedata ∧
        importCopyChecked (importTarget gba.savedata p.size).data p.payload
            (GBASavedataImportSharkPort impl gba vf tc).size =
          some (GBASavedataImportSharkPort impl gba vf tc).savedata.data ∧
        (GBASavedataImportSharkPort impl gba vf tc).savedata.data.drop
            (GBASavedataImportSharkPort impl gba vf tc).size =
          (importTarget gba.savedata p.size).data.drop
            (GBASavedataImportSharkPort impl gba vf tc).size ∧
        (∀ o, (GBASavedataImportSharkPort impl gba vf tc).size ≤ o →
          o < gba.savedata.data.length →
          (GBASavedataImportSharkPort impl gba vf tc).savedata.data.getD o 0 =
            gba.savedata.data.getD o 0)) ∧
    (gba.savedata.type = SAVEDATA_EEPROM → ∀ i, i < GBASavedataSize gba.savedata →
      i ^^^ 7 < GBASavedataSize gba.savedata ∧ i ^^^ 7 < gba.savedata.data.length) := by
  constructor
  · intro hok
    obtain ⟨p, hr, hm, h1, h2⟩ := import_success_inv impl gba vf tc hok
    have inv := getPayload_some_inv impl vf tc p hr
    have hpl : p.payload.length = p.size := inv.2.2.2.2.2.2.1
    refine ⟨p, hr, hpl, ?_⟩
    rw [import_copy impl gba vf tc p hr hm h1 h2]
    dsimp only
    have hlen := importTarget_length gba.savedata p.size hd
    have hmin := importLength_eq_min (importTarget gba.savedata p.size) p.size
    have hl1 := importLength_le (importTarget gba.savedata p.size) p.size
    have hl2 := importLength_le_size (importTarget gba.savedata p.size) p.size
    have hcl := importCopy_length (importTarget gba.savedata p.size).data p.payload
      (importLength (importTarget gba.savedata p.size) p.size) (by omega) (by omega)
    have hdrop := importCopy_drop (importTarget gba.savedata p.size).data p.payload
      (importLength (importTarget gba.savedata p.size) p.size) (by omega)
    refine ⟨hl1, hl2, hcl.trans hlen, ?_, hdrop, ?_⟩
    · exact importCopyChecked_eq _ _ _ (by omega) (by omega)
    · intro o ho hlt
      by_cases hu : gba.savedata.type = SAVEDATA_FLASH512 ∧ SIZE_CART_FLASH512 < p.size
      · exfalso
        have ht := (importTarget_upgrade gba.savedata p.size hu.1 hu.2).2
        have hsz : GBASavedataSize (importTarget gba.savedata p.size) = 0x20000 := by
          unfold GBASavedataSize
          rw [ht]
          rfl
        have hold : GBASavedataSize gba.savedata = 0x10000 := by
          unfold GBASavedataSize
          rw [hu.1]
          rfl
        have h512 : SIZE_CART_FLASH512 = 0x10000 := rfl
        have := hu.2
        omega
      · have e := importTarget_of_not_upgrade gba.savedata p.size hu
        rw [e] at hdrop ho ⊢
        exact getD_of_drop_eq _ _ _ o hdrop ho
  · intro ht i hi
    have hs : GBASavedataSize gba.savedata = 0x2000 := by
      unfold GBASavedataSize
      rw [ht]
      rfl
    have hx := xor_seven_lt (GBASavedataSize gba.savedata) i (by rw [hs]; decide) hi
    exact ⟨hx, by omega⟩

/-- C23 at the small-flash upgrade (erased small flash, payload of `SIZE_CART_FLASH512 + 1`
bytes) and, for the export index, at the 8 KiB EEPROM sample with `i = 8191`. -/
theorem C23_copy_bounds_witness :
    (GBASavedataImportSharkPort ⟨true, false⟩ flash512GBA upgradeContainer false).success
      = true ∧
    (GBASavedataImportSharkPort ⟨true, false⟩ flash512GBA upgradeContainer false).size ≤
      GBASavedataSize
        (GBASavedataImportSharkPort ⟨true, false⟩ flash512GBA upgradeContainer false).savedata ∧
    (GBASavedataImportSharkPort ⟨true, false⟩ flash512GBA upgradeContainer false).savedata.data.length
      = GBASavedataSize
        (GBASavedataImportSharkPort ⟨true, false⟩ flash512GBA upgradeContainer false).savedata ∧
    8191 ^^^ 7 < GBASavedataSize eepromGBA.savedata := by
  have hd : flash512GBA.savedata.data.length = GBASavedataSize flash512GBA.savedata := by
    have h : flash512GBA.savedata.data = List.replicate SIZE_CART_FLASH512 0xFF := rfl
    rw [h, List.length_replicate]
    rfl
  have hok : (GBASavedataImportSharkPort ⟨true, false⟩ flash512GBA upgradeContainer false).success
      = true := by
    rw [import_copy ⟨true, false⟩ flash512GBA upgradeContainer false _
      (upgradeContainer_payload _) ((memcmpNe_false_iff _ _ _).2 rfl) (by decide) (by decide)]
  have hde : eepromGBA.savedata.data.length = GBASavedataSize eepromGBA.savedata := by
    have h : eepromGBA.savedata.data = List.replicate 0x2000 0x11 := rfl
    rw [h, List.length_replicate]
    rfl
  obtain ⟨p, _, _, _, a, b, _, _, _⟩ :=
    (C23_copy_bounds ⟨true, false⟩ flash512GBA upgradeContainer false hd).1 hok
  exact ⟨hok, a, b,
    ((C23_copy_bounds ⟨true, false⟩ eepromGBA upgradeContainer false hde).2 rfl 8191
      (by decide)).1⟩

end SharkPort
